import Mathlib

/-!
# TLC5955 LED driver library: embedding of `src/TLC5955.cpp`

The driver object is a record of its data members; every method is a pure
function from driver states to driver states.  Calls into the board support
layer (SPI, digital pins, delays) are recorded, in program order, in the
`trace` field of the state.  C integer conversions are written out with
explicit moduli.  `double` arithmetic is rendered over the rationals.
-/

/-! ## Constants of the translation unit (`#define` lines 34-44) -/

def GS_BITS : Nat := 16
def MC_BITS : Nat := 3
def BC_BITS : Nat := 7
def DC_BITS : Nat := 7
def FC_BITS : Nat := 5
def CONTROL_ZERO_BITS : Nat := 389
def TOTAL_REGISTER_SIZE : Nat := 76
def LATCH_DELAY : Nat := 1
def CONTROL_MODE_ON : Bool := true
def CONTROL_MODE_OFF : Bool := false

/-- Modelled from the spec: `COLOR_CHANNEL_COUNT` is declared in `TLC5955.h`,
which is not among the sources.  The specification gives every channel three
colour slots (logical R/G/B), and the source tests `COLOR_CHANNEL_COUNT == 3`. -/
def COLOR_CHANNEL_COUNT : Nat := 3

/-! ## C integer conversions -/

/-- Conversion of an integer to `uint8_t`. -/
def toUInt8 (x : Int) : Nat := (x % 256).toNat

/-- Conversion of an integer to `int8_t` (two's complement wrap). -/
def toInt8 (x : Int) : Int := (x + 128) % 256 - 128

/-- Conversion of an integer to `uint16_t`. -/
def toUInt16 (x : Int) : Nat := (x % 65536).toNat

/-! ## Board support layer: observable hardware events -/

/-- One call into the Arduino / SPI layer. `digitalWrite pin true` is `HIGH`. -/
inductive Event where
  | digitalWrite (pin : Nat) (high : Bool)
  | pinModeOutput (pin : Nat)
  | spiEnd
  | spiBegin
  | beginTransaction
  | endTransaction
  | transfer (data : Nat)
  | transfer16 (data : Nat)
  | delayMicroseconds (us : Nat)
  | analogWrite (pin : Nat) (value : Nat)
deriving DecidableEq, Repr

/-- Data members of the `TLC5955` object, together with the class constants
`LEDS_PER_CHIP` and `maxCurrentValues` (declared in `TLC5955.h`, which is not
among the sources; they are kept as parameters and no method writes them) and
the log of hardware events issued so far. Arrays are total functions of their
indices; only in-range cells are meaningful. -/
structure TLC5955 where
  LEDS_PER_CHIP : Nat
  maxCurrentValues : Nat → ℚ
  _tlc_count : Nat
  _gslat : Nat
  _spi_clk : Nat
  _spi_mosi : Nat
  _gsclk : Nat
  enforce_max_current : Bool
  max_current_amps : ℚ
  _rgb_order : Nat → Nat → Nat → Nat
  _grayscale_data : Nat → Nat → Nat → Nat
  _function_data : Nat
  _BC : Nat → Nat
  _MC : Nat → Nat
  _DC : Nat → Nat
  _buffer : Nat
  _buffer_count : Int
  trace : List Event

/-! ## Loops and array writes -/

/-- The loop `for (i = n - 1; i >= 0; i--) body(i)`. -/
def forDown {σ : Type} : Nat → (Nat → σ → σ) → σ → σ
  | 0, _, s => s
  | n + 1, body, s => forDown n body (body n s)

/-- The loop `for (i = 0; i < n; i++) body(i)`. -/
def forUp {σ : Type} : Nat → (Nat → σ → σ) → σ → σ
  | 0, _, s => s
  | n + 1, body, s => body n (forUp n body s)

/-- Assignment `a[i] = v` on a one-dimensional array. -/
def write1 (a : Nat → Nat) (i : Nat) (v : Nat) : Nat → Nat :=
  fun x => if x = i then v else a x

/-- Assignment `a[i][j][k] = v` on a three-dimensional array. -/
def write3 (a : Nat → Nat → Nat → Nat) (i j k : Nat) (v : Nat) : Nat → Nat → Nat → Nat :=
  fun x y z => if x = i ∧ y = j ∧ z = k then v else a x y z

/-- Arduino `bitWrite(value, bit, bitvalue)`:
`bitvalue ? (value |= 1UL << bit) : (value &= ~(1UL << bit))`, before the
result is stored back into its (8-bit) variable. -/
def bitWrite (value : Nat) (bit : Nat) (bitvalue : Nat) : Nat :=
  if bitvalue ≠ 0 then value ||| (1 <<< bit) else value &&& (0xFFFFFFFF ^^^ (1 <<< bit))

namespace TLC5955

/-! ## Hardware primitives -/

/-- Append one hardware event to the log. -/
def emit (s : TLC5955) (e : Event) : TLC5955 := { s with trace := s.trace ++ [e] }

def digitalWrite (s : TLC5955) (pin : Nat) (high : Bool) : TLC5955 := s.emit (.digitalWrite pin high)
def pinModeOutput (s : TLC5955) (pin : Nat) : TLC5955 := s.emit (.pinModeOutput pin)
def SPI_end (s : TLC5955) : TLC5955 := s.emit .spiEnd
def SPI_begin (s : TLC5955) : TLC5955 := s.emit .spiBegin
def SPI_beginTransaction (s : TLC5955) : TLC5955 := s.emit .beginTransaction
def SPI_endTransaction (s : TLC5955) : TLC5955 := s.emit .endTransaction
def SPI_transfer (s : TLC5955) (data : Nat) : TLC5955 := s.emit (.transfer data)
def SPI_transfer16 (s : TLC5955) (data : Nat) : TLC5955 := s.emit (.transfer16 data)
def delayMicroseconds (s : TLC5955) (us : Nat) : TLC5955 := s.emit (.delayMicroseconds us)
def analogWrite (s : TLC5955) (pin : Nat) (value : Nat) : TLC5955 := s.emit (.analogWrite pin value)

/-! ## Colour-channel permutation setters (lines 102-132) -/

/-- `setRgbPinOrder(rPos, grPos, bPos)`. The chip counter is an `int8_t`
initialised with `_tlc_count - 1`; the channel counter is an `int8_t` compared
with `LEDS_PER_CHIP` (the rendering of that loop is exact for
`LEDS_PER_CHIP <= 127`). -/
def setRgbPinOrder (s : TLC5955) (rPos grPos bPos : Nat) : TLC5955 :=
  if COLOR_CHANNEL_COUNT = 3 then
    forDown (toInt8 ((s._tlc_count : Int) - 1) + 1).toNat (fun chip s =>
      forUp s.LEDS_PER_CHIP (fun channel s =>
        let s := { s with _rgb_order := write3 s._rgb_order chip channel 0 rPos }
        let s := { s with _rgb_order := write3 s._rgb_order chip channel 1 grPos }
        { s with _rgb_order := write3 s._rgb_order chip channel 2 bPos }) s) s
  else s

/-- `setPinOrderSingle(led_number, color_channel_index, position)`;
`led_number` is a `uint16_t`, `chip` and `channel` are `uint8_t`. -/
def setPinOrderSingle (s : TLC5955) (led_number color_channel_index position : Nat) : TLC5955 :=
  let chip := toUInt8 (toUInt16 (led_number / s.LEDS_PER_CHIP : Nat))
  let channel := toUInt8 ((led_number : Int) - (s.LEDS_PER_CHIP : Int) * (chip : Int))
  { s with _rgb_order := write3 s._rgb_order chip channel color_channel_index position }

/-- `setRgbPinOrderSingle(led_number, rPos, grPos, bPos)`. -/
def setRgbPinOrderSingle (s : TLC5955) (led_number rPos grPos bPos : Nat) : TLC5955 :=
  let chip := toUInt8 (toUInt16 (led_number / s.LEDS_PER_CHIP : Nat))
  let channel := toUInt8 ((led_number : Int) - (s.LEDS_PER_CHIP : Int) * (chip : Int))
  let s := { s with _rgb_order := write3 s._rgb_order chip channel 0 rPos }
  let s := { s with _rgb_order := write3 s._rgb_order chip channel 1 grPos }
  { s with _rgb_order := write3 s._rgb_order chip channel 2 bPos }

/-! ## Grayscale setters (lines 134-160, 252-270) -/

/-- `setAllLed(gsvalue)`. -/
def setAllLed (s : TLC5955) (gsvalue : Nat) : TLC5955 :=
  forDown (toInt8 ((s._tlc_count : Int) - 1) + 1).toNat (fun chip s =>
    forUp s.LEDS_PER_CHIP (fun a s =>
      forUp COLOR_CHANNEL_COUNT (fun b s =>
        { s with _grayscale_data := write3 s._grayscale_data chip a b gsvalue }) s) s) s

/-- `setAllLedRgb(red, green, blue)`. -/
def setAllLedRgb (s : TLC5955) (red green blue : Nat) : TLC5955 :=
  if COLOR_CHANNEL_COUNT = 3 then
    forDown (toInt8 ((s._tlc_count : Int) - 1) + 1).toNat (fun chip s =>
      forUp s.LEDS_PER_CHIP (fun channel s =>
        let s := { s with _grayscale_data := write3 s._grayscale_data chip channel 2 blue }
        let s := { s with _grayscale_data := write3 s._grayscale_data chip channel 1 green }
        { s with _grayscale_data := write3 s._grayscale_data chip channel 0 red }) s) s
  else s

/-- `setLed(led_number, red, green, blue)`. `led_number` is a C `int`; a
negative value indexes the arrays out of bounds, so the parameter ranges over
the non-negative values. -/
def setLed (s : TLC5955) (led_number : Nat) (red green blue : Nat) : TLC5955 :=
  let chip := led_number / s.LEDS_PER_CHIP
  let channel := led_number % s.LEDS_PER_CHIP
  let s := { s with _grayscale_data := write3 s._grayscale_data chip channel 2 blue }
  let s := { s with _grayscale_data := write3 s._grayscale_data chip channel 1 green }
  { s with _grayscale_data := write3 s._grayscale_data chip channel 0 red }

/-- `setLed(led_number, rgb)`, the single-value overload. -/
def setLed1 (s : TLC5955) (led_number : Nat) (rgb : Nat) : TLC5955 :=
  let chip := led_number / s.LEDS_PER_CHIP
  let channel := led_number % s.LEDS_PER_CHIP
  let s := { s with _grayscale_data := write3 s._grayscale_data chip channel 2 rgb }
  let s := { s with _grayscale_data := write3 s._grayscale_data chip channel 1 rgb }
  { s with _grayscale_data := write3 s._grayscale_data chip channel 0 rgb }

/-- `getChannelValue(channel_number, color_channel_index)`; `channel_number`
is a `uint16_t`, `chip` and `channel` are `uint8_t`. -/
def getChannelValue (s : TLC5955) (channel_number : Nat) (color_channel_index : Nat) : Nat :=
  if color_channel_index ≥ COLOR_CHANNEL_COUNT then 0
  else
    let chip := toUInt8 (toUInt16 (channel_number / s.LEDS_PER_CHIP : Nat))
    let channel := toUInt8 ((channel_number : Int) - (s.LEDS_PER_CHIP : Int) * (chip : Int))
    s._grayscale_data chip channel color_channel_index

/-! ## Mode signal and latch (lines 162-190, 495-502) -/

/-- `setControlModeBit(is_control_mode)`. -/
def setControlModeBit (s : TLC5955) (is_control_mode : Bool) : TLC5955 :=
  let s := s.digitalWrite s._gslat false
  let s := s.SPI_end
  let s := s.pinModeOutput s._spi_mosi
  let s := s.pinModeOutput s._spi_clk
  let s := if is_control_mode then s.digitalWrite s._spi_mosi true
           else s.digitalWrite s._spi_mosi false
  let s := s.digitalWrite s._spi_clk false
  let s := s.digitalWrite s._spi_clk true
  let s := s.digitalWrite s._spi_clk false
  s.SPI_begin

/-- `latch()`. -/
def latch (s : TLC5955) : TLC5955 :=
  let s := s.delayMicroseconds LATCH_DELAY
  let s := s.digitalWrite s._gslat true
  let s := s.delayMicroseconds LATCH_DELAY
  let s := s.digitalWrite s._gslat false
  s.delayMicroseconds LATCH_DELAY

/-! ## Current model (lines 272-319) -/

/-- `getLedCurrents(currents, gs)`: the three values written to `currents`. -/
def getLedCurrents (s : TLC5955) (gs : Nat → Nat) (i : Nat) : ℚ :=
  s.maxCurrentValues (s._MC i) * (0.262 + 0.738 * (s._DC i : ℚ) / 127)
    * (0.1 + 0.9 * (s._BC i : ℚ) / 127) * (gs i : ℚ) / 65535

/-- The `uint32_t` accumulator `totalCurrent_channel[color_channel_index]`
after the summation loops of `getTotalCurrent`. -/
def totalCurrent_channel (s : TLC5955) (color_channel_index : Nat) : Nat :=
  forUp s._tlc_count (fun chip acc =>
    forUp s.LEDS_PER_CHIP (fun led_channel_index acc =>
      (acc + s._grayscale_data chip led_channel_index color_channel_index) % 2 ^ 32) acc) 0

/-- `getTotalCurrent()`. -/
def getTotalCurrent (s : TLC5955) : ℚ :=
  forUp COLOR_CHANNEL_COUNT (fun color_channel_index totalCurrent =>
    let current : ℚ := s.maxCurrentValues (s._MC color_channel_index)
                    * (0.1 + 0.9 * (s._BC color_channel_index : ℚ) / 127)
                    * (0.262 + 0.738 * (s._DC color_channel_index : ℚ) / 127)
    totalCurrent + (s.totalCurrent_channel color_channel_index : ℚ) * current / 0xFFFF) 0

/-- `setFunctionData(DSPRPT, TMGRST, RFRESH, ESPWM, LSDVLT)`. -/
def setFunctionData (s : TLC5955) (DSPRPT TMGRST RFRESH ESPWM LSDVLT : Bool) : TLC5955 :=
  let data : Nat := 0
  let data := (data ||| (DSPRPT.toNat <<< 0)) % 256
  let data := (data ||| (TMGRST.toNat <<< 1)) % 256
  let data := (data ||| (RFRESH.toNat <<< 2)) % 256
  let data := (data ||| (ESPWM.toNat <<< 3)) % 256
  let data := (data ||| (LSDVLT.toNat <<< 4)) % 256
  { s with _function_data := data }

/-! ## Clamping setters and getters (lines 321-405) -/

/-- `setMaxCurrent(mcr, mcg, mcb)`. -/
def setMaxCurrent3 (s : TLC5955) (mcr mcg mcb : Nat) : TLC5955 :=
  let mcr := if mcr > 7 then 7 else mcr
  let s := { s with _MC := write1 s._MC 0 mcr }
  let mcg := if mcg > 7 then 7 else mcg
  let s := { s with _MC := write1 s._MC 1 mcg }
  let mcb := if mcb > 7 then 7 else mcb
  { s with _MC := write1 s._MC 2 mcb }

/-- `setMaxCurrent(mc)`. -/
def setMaxCurrent (s : TLC5955) (mc : Nat) : TLC5955 := s.setMaxCurrent3 mc mc mc

/-- `getMaxCurrent(maxCurrent)`: the caller's array after the call. -/
def getMaxCurrent (s : TLC5955) (maxCurrent : Nat → Nat) : Nat → Nat :=
  write1 (write1 (write1 maxCurrent 0 (s._MC 0)) 1 (s._MC 1)) 2 (s._MC 2)

/-- `setBrightnessControl(bcr, bcg, bcb)`. -/
def setBrightnessControl3 (s : TLC5955) (bcr bcg bcb : Nat) : TLC5955 :=
  let bcr := if bcr > 127 then 127 else bcr
  let s := { s with _BC := write1 s._BC 0 bcr }
  let bcg := if bcg > 127 then 127 else bcg
  let s := { s with _BC := write1 s._BC 1 bcg }
  let bcb := if bcb > 127 then 127 else bcb
  { s with _BC := write1 s._BC 2 bcb }

/-- `setBrightnessControl(bc)`. -/
def setBrightnessControl (s : TLC5955) (bc : Nat) : TLC5955 := s.setBrightnessControl3 bc bc bc

/-- `getBrightnessControl(brightnessControl)`: the caller's array after the call. -/
def getBrightnessControl (s : TLC5955) (brightnessControl : Nat → Nat) : Nat → Nat :=
  write1 (write1 (write1 brightnessControl 0 (s._BC 0)) 1 (s._BC 1)) 2 (s._BC 2)

/-- `setDotCorrection(dcr, dcg, dcb)`. -/
def setDotCorrection3 (s : TLC5955) (dcr dcg dcb : Nat) : TLC5955 :=
  let dcr := if dcr > 127 then 127 else dcr
  let s := { s with _DC := write1 s._DC 0 dcr }
  let dcg := if dcg > 127 then 127 else dcg
  let s := { s with _DC := write1 s._DC 1 dcg }
  let dcb := if dcb > 127 then 127 else dcb
  { s with _DC := write1 s._DC 2 dcb }

/-- `setDotCorrection(dc)`. -/
def setDotCorrection (s : TLC5955) (dc : Nat) : TLC5955 := s.setDotCorrection3 dc dc dc

/-- `getDotCorrection(dotCorrection)`: the caller's array after the call. -/
def getDotCorrection (s : TLC5955) (dotCorrection : Nat → Nat) : Nat → Nat :=
  write1 (write1 (write1 dotCorrection 0 (s._DC 0)) 1 (s._DC 1)) 2 (s._DC 2)

/-! ## Bit packer (lines 515-527) -/

/-- `setBuffer(bit)`; `_buffer` is a `uint8_t`, `_buffer_count` an `int8_t`. -/
def setBuffer (s : TLC5955) (bit : Nat) : TLC5955 :=
  let s := { s with _buffer := bitWrite s._buffer s._buffer_count.toNat bit % 256 }
  let s := { s with _buffer_count := toInt8 (s._buffer_count - 1) }
  if s._buffer_count = -1 then
    let s := s.SPI_transfer s._buffer
    let s := { s with _buffer_count := 7 }
    { s with _buffer := 0 }
  else s

/-! ## Grayscale commit (lines 192-250) -/

/-- Body of the chip loop of `updateLeds` (lines 205-219). The LED counter is
an `int8_t` initialised with `(int8_t)LEDS_PER_CHIP - 1`: the cast value less
one, converted to `int8_t` again; the loop runs from there down to 0. The
colour counter is initialised the same way. -/
def updateLeds_chip (chip : Nat) (s : TLC5955) : TLC5955 :=
  let s := s.setControlModeBit CONTROL_MODE_OFF
  let s := s.SPI_beginTransaction
  let s := forDown (toInt8 (toInt8 s.LEDS_PER_CHIP - 1) + 1).toNat (fun led_channel_index s =>
    forDown (toInt8 (toInt8 COLOR_CHANNEL_COUNT - 1) + 1).toNat (fun color_channel_index s =>
      let color_channel_ordered := s._rgb_order chip led_channel_index (toUInt8 color_channel_index)
      s.SPI_transfer16 (s._grayscale_data chip led_channel_index color_channel_ordered)) s) s
  s.SPI_endTransaction

/-- Lines 196-230 of `updateLeds(output_current)`, for the value
`power_output_amps` that `getTotalCurrent()` returned on line 195. Every finite
`double` is a rational number, so the parameter ranges over whatever the
floating-point computation yields, and the comparisons of lines 200 and 225
are exact on it. The argument `output_current` is `none` for `nullptr` and
`some x` for a pointer to a `double` holding `x`; the result is the returned
`int`, the pointee after the call, and the driver state after the call. The
chip counter is an `int16_t` initialised with `(int8_t)_tlc_count - 1`. -/
def updateLedsAt (s : TLC5955) (power_output_amps : ℚ) (output_current : Option ℚ) :
    Int × Option ℚ × TLC5955 :=
  let output_current := output_current.map (fun _ => power_output_amps)
  if s.enforce_max_current && decide (power_output_amps > s.max_current_amps) then
    (1, output_current, s)
  else
    let s := forDown (toInt8 s._tlc_count).toNat updateLeds_chip s
    let s := s.latch
    let s := if power_output_amps = 0 then s.analogWrite s._gsclk 0
             else s.analogWrite s._gsclk 1
    (0, output_current, s)

/-- `updateLeds(output_current)` with the arithmetic of `getTotalCurrent()`
carried out exactly (line 195 followed by lines 196-230). -/
def updateLeds (s : TLC5955) (output_current : Option ℚ) : Int × Option ℚ × TLC5955 :=
  s.updateLedsAt s.getTotalCurrent output_current

/-- Body of the chip loop of `clearLeds` (lines 237-246); the loop counters
are initialised as in `updateLeds`. -/
def clearLeds_chip (_chip : Nat) (s : TLC5955) : TLC5955 :=
  let s := s.setControlModeBit CONTROL_MODE_OFF
  let s := s.SPI_beginTransaction
  let s := forDown (toInt8 (toInt8 s.LEDS_PER_CHIP - 1) + 1).toNat (fun _led_channel_index s =>
    forDown (toInt8 (toInt8 COLOR_CHANNEL_COUNT - 1) + 1).toNat (fun _color_channel_index s =>
      s.SPI_transfer16 0) s) s
  s.SPI_endTransaction

/-- `clearLeds()`; the chip counter is an `int16_t` initialised with
`(int8_t)_tlc_count - 1`. -/
def clearLeds (s : TLC5955) : TLC5955 :=
  let s := forDown (toInt8 s._tlc_count).toNat clearLeds_chip s
  s.latch

/-! ## Control commit (lines 413-493, portable path) -/

/-- The loop `for (a = 0; a + 16 < CONTROL_ZERO_BITS; a = a + 16) SPI.transfer16(0);`
started at the given `a`; returns the final `a` with the state. -/
def zeroWordLoop (a : Nat) (s : TLC5955) : Nat × TLC5955 :=
  if a + 16 < CONTROL_ZERO_BITS then zeroWordLoop (a + 16) (s.SPI_transfer16 0) else (a, s)
termination_by CONTROL_ZERO_BITS - a
decreasing_by simp only [CONTROL_ZERO_BITS] at *; omega

/-- The loop `for (; a < CONTROL_ZERO_BITS; a++) setBuffer(0);`. -/
def zeroBitLoop (a : Nat) (s : TLC5955) : TLC5955 :=
  if a < CONTROL_ZERO_BITS then zeroBitLoop (a + 1) (s.setBuffer 0) else s
termination_by CONTROL_ZERO_BITS - a
decreasing_by simp only [CONTROL_ZERO_BITS] at *; omega

/-- Body of the chip loop of `updateControl` (lines 424-489, `#else` branch). -/
def updateControl_chip (_chip : Nat) (s : TLC5955) : TLC5955 :=
  let s := { s with _buffer_count := 7 }
  let s := s.setControlModeBit CONTROL_MODE_ON
  let s := s.SPI_beginTransaction
  let s := s.SPI_transfer 0x96
  let (a, s) := zeroWordLoop 0 s
  let s := zeroBitLoop a s
  let s := forDown FC_BITS (fun a s => s.setBuffer (toUInt8 (s._function_data &&& (1 <<< a) : Nat))) s
  let s := forDown BC_BITS (fun a s => s.setBuffer (toUInt8 (s._BC 2 &&& (1 <<< a) : Nat))) s
  let s := forDown BC_BITS (fun a s => s.setBuffer (toUInt8 (s._BC 1 &&& (1 <<< a) : Nat))) s
  let s := forDown BC_BITS (fun a s => s.setBuffer (toUInt8 (s._BC 0 &&& (1 <<< a) : Nat))) s
  let s := forDown MC_BITS (fun a s => s.setBuffer (toUInt8 (s._MC 2 &&& (1 <<< a) : Nat))) s
  let s := forDown MC_BITS (fun a s => s.setBuffer (toUInt8 (s._MC 1 &&& (1 <<< a) : Nat))) s
  let s := forDown MC_BITS (fun a s => s.setBuffer (toUInt8 (s._MC 0 &&& (1 <<< a) : Nat))) s
  let s := forDown s.LEDS_PER_CHIP (fun _a s =>
    forDown COLOR_CHANNEL_COUNT (fun b s =>
      forDown 7 (fun c s => s.setBuffer (toUInt8 (s._DC b &&& (1 <<< c) : Nat))) s) s) s
  s.SPI_endTransaction

/-- One pass of the repeat loop of `updateControl` (lines 422-491). -/
def updateControl_cycle (_repeatCtr : Nat) (s : TLC5955) : TLC5955 :=
  let s := forDown s._tlc_count updateControl_chip s
  s.latch

/-- `updateControl(repeat)`; `repeat` is a C `int`. -/
def updateControl (s : TLC5955) (repeat_count : Int) : TLC5955 :=
  forUp repeat_count.toNat updateControl_cycle s

end TLC5955

/-! ## Bit strings and frame layouts used to state the properties -/

/-- The list `[f (n-1), ..., f 1, f 0]`. -/
def downList {α : Type} : Nat → (Nat → α) → List α
  | 0, _ => []
  | n + 1, f => f n :: downList n f

/-- The `w` low-order binary digits of `x`, most significant first. -/
def bitsMSB (w x : Nat) : List Bool := downList w (fun i => x.testBit i)

/-- Value of a bit string read most significant bit first. -/
def ofBitsMSB (bs : List Bool) : Nat := bs.foldl (fun acc b => 2 * acc + b.toNat) 0

/-- Bytes obtained by cutting a bit string into consecutive groups of eight
and reading each group most significant bit first; an incomplete last group
yields no byte. -/
def packBytes (bs : List Bool) : List Nat :=
  if bs.length < 8 then [] else ofBitsMSB (bs.take 8) :: packBytes (bs.drop 8)
termination_by bs.length
decreasing_by simp only [List.length_drop]; omega

/-- An event that moves data over the serial bus. -/
def Event.isData : Event → Bool
  | .transfer _ => true
  | .transfer16 _ => true
  | _ => false

/-- The bits carried by the data transfers of a trace, in transmission order
(each unit is shifted out most significant bit first). -/
def dataBits : List Event → List Bool
  | [] => []
  | .transfer d :: es => bitsMSB 8 d ++ dataBits es
  | .transfer16 d :: es => bitsMSB 16 d ++ dataBits es
  | _ :: es => dataBits es

namespace TLC5955

/-- Successive calls `setBuffer(x)` for the arguments of a list, in order. -/
def pushAll (s : TLC5955) (xs : List Nat) : TLC5955 := xs.foldl setBuffer s

end TLC5955


namespace TLC5955

/-- Events of one mode-signal pulse with the data line at the given level. -/
def modePulse (s : TLC5955) (level : Bool) : List Event :=
  [.digitalWrite s._gslat false, .spiEnd, .pinModeOutput s._spi_mosi, .pinModeOutput s._spi_clk,
   .digitalWrite s._spi_mosi level, .digitalWrite s._spi_clk false, .digitalWrite s._spi_clk true,
   .digitalWrite s._spi_clk false, .spiBegin]

/-- Events of one latch pulse. -/
def latchPulse (s : TLC5955) : List Event :=
  [.delayMicroseconds LATCH_DELAY, .digitalWrite s._gslat true, .delayMicroseconds LATCH_DELAY,
   .digitalWrite s._gslat false, .delayMicroseconds LATCH_DELAY]

/-- The field part of a control frame as the layout describes it: function
bits, then BC, MC for colours 2, 1, 0, then one DC triple per LED. -/
def controlFieldBits (s : TLC5955) : List Bool :=
  bitsMSB 5 s._function_data
    ++ bitsMSB 7 (s._BC 2) ++ bitsMSB 7 (s._BC 1) ++ bitsMSB 7 (s._BC 0)
    ++ bitsMSB 3 (s._MC 2) ++ bitsMSB 3 (s._MC 1) ++ bitsMSB 3 (s._MC 0)
    ++ (List.replicate s.LEDS_PER_CHIP
          (bitsMSB 7 (s._DC 2) ++ bitsMSB 7 (s._DC 1) ++ bitsMSB 7 (s._DC 0))).flatten

/-- The control frame of one chip as the layout describes it: command byte,
389 zero bits, then the fields. -/
def controlFrameBits (s : TLC5955) : List Bool :=
  bitsMSB 8 0x96 ++ List.replicate 389 false ++ controlFieldBits s

/-- Data transfers of one chip's control frame: command byte, 24 zero words,
then the bytes produced by the bit packer. -/
def controlFrameData (s : TLC5955) : List Event :=
  [Event.transfer 0x96] ++ List.replicate 24 (Event.transfer16 0)
    ++ (packBytes (List.replicate 5 false ++ controlFieldBits s)).map Event.transfer

/-- All events of one chip's control frame. -/
def controlFrameEvents (s : TLC5955) : List Event :=
  modePulse s true ++ [Event.beginTransaction] ++ controlFrameData s ++ [Event.endTransaction]

end TLC5955

/-- Arguments passed to `setBuffer` by a field loop
`for (a = w - 1; a >= 0; a--) setBuffer(v & (1 << a))`. -/
def fieldArgs (w v : Nat) : List Nat :=
  downList w (fun a => toUInt8 ((v &&& (1 <<< a) : Nat) : Int))

namespace TLC5955

/-- All arguments passed to `setBuffer` during one chip's control frame, in
call order. -/
def controlArgs (s : TLC5955) : List Nat :=
  List.replicate 5 0 ++ fieldArgs 5 s._function_data
    ++ fieldArgs 7 (s._BC 2) ++ fieldArgs 7 (s._BC 1) ++ fieldArgs 7 (s._BC 0)
    ++ fieldArgs 3 (s._MC 2) ++ fieldArgs 3 (s._MC 1) ++ fieldArgs 3 (s._MC 0)
    ++ (downList s.LEDS_PER_CHIP (fun _ =>
          (downList 3 (fun b => fieldArgs 7 (s._DC b))).flatten)).flatten

end TLC5955

namespace TLC5955

/-- Append a list of hardware events to the log. -/
def emitAll (s : TLC5955) (es : List Event) : TLC5955 := { s with trace := s.trace ++ es }

/-- The value `updateLeds` hands to `SPI.transfer16` for colour slot `slot` of
LED `led` of chip `chip` (lines 212-216). -/
def sentWord (s : TLC5955) (chip led slot : Nat) : Nat :=
  s._grayscale_data chip led (s._rgb_order chip led slot)

/-- The three-word group of one LED in transmission order: slots 2, 1, 0. -/
def ledGroup (s : TLC5955) (chip led : Nat) : List Event :=
  [Event.transfer16 (s.sentWord chip led 2), Event.transfer16 (s.sentWord chip led 1),
   Event.transfer16 (s.sentWord chip led 0)]

/-- The grayscale words of one chip: LEDs in descending index, each LED's
group in descending slot order. -/
def chipWords (s : TLC5955) (chip : Nat) : List Event :=
  (downList s.LEDS_PER_CHIP (fun led => s.ledGroup chip led)).flatten

/-- The grayscale words of a whole update: chips in descending index. -/
def grayscaleWords (s : TLC5955) : List Event :=
  (downList s._tlc_count (fun chip => s.chipWords chip)).flatten

/-- All events of one chip's grayscale frame. -/
def grayscaleFrameEvents (s : TLC5955) (chip : Nat) : List Event :=
  modePulse s false ++ [Event.beginTransaction] ++ s.chipWords chip ++ [Event.endTransaction]

/-- All events of one chip's frame as sent by `clearLeds`. -/
def clearFrameEvents (s : TLC5955) : List Event :=
  modePulse s false ++ [Event.beginTransaction]
    ++ List.replicate (s.LEDS_PER_CHIP * 3) (Event.transfer16 0) ++ [Event.endTransaction]

/-- The over-current gate of `updateLeds` (line 200). -/
def overCurrent (s : TLC5955) : Prop :=
  s.enforce_max_current = true ∧ s.getTotalCurrent > s.max_current_amps

/-- A frame transmission governed by one mode pulse at the given level: the
pulse, the opening of the transaction, a non-empty run of data transfers and
nothing else, the closing of the transaction. -/
def IsFrame (s : TLC5955) (level : Bool) (es : List Event) : Prop :=
  ∃ data, es = modePulse s level ++ [Event.beginTransaction] ++ data ++ [Event.endTransaction]
    ∧ data ≠ [] ∧ ∀ e ∈ data, e.isData = true

/-- The persistent contents of the driver: everything except the bit packer's
accumulator and the hardware log. -/
def stored (s : TLC5955) :
    (Nat × Nat × Bool × ℚ) × (Nat → Nat → Nat → Nat) × (Nat → Nat → Nat → Nat)
      × Nat × (Nat → Nat) × (Nat → Nat) × (Nat → Nat) :=
  ((s.LEDS_PER_CHIP, s._tlc_count, s.enforce_max_current, s.max_current_amps),
   s._rgb_order, s._grayscale_data, s._function_data, s._BC, s._MC, s._DC)

/-- A driver with 48 LEDs per chip and two chips, used to instantiate the
general statements: red, green, blue of every LED hold 1, 2, 3; settings are
at mid-range values; the packer holds stale content. -/
def demo : TLC5955 where
  LEDS_PER_CHIP := 48
  maxCurrentValues := fun i => (i : ℚ)
  _tlc_count := 2
  _gslat := 2
  _spi_clk := 13
  _spi_mosi := 11
  _gsclk := 6
  enforce_max_current := false
  max_current_amps := 1
  _rgb_order := fun _ _ c => c
  _grayscale_data := fun _ _ c => c + 1
  _function_data := 11
  _BC := fun c => 100 + c
  _MC := fun c => 4 + c
  _DC := fun c => 90 + c
  _buffer := 5
  _buffer_count := 7
  trace := []

end TLC5955
/-- The entry selected by a colour index from the triple given to a remap
setter: index 0 selects the first argument, 1 the second, any other the third. -/
def pick3 (rPos grPos bPos : Nat) (c : Nat) : Nat :=
  if c = 0 then rPos else if c = 1 then grPos else bPos

namespace TLC5955

/-- Events of one pass of the repeat loop of `updateControl`: the control
frames of all chips, then one latch pulse. -/
def controlCycleEvents (s : TLC5955) : List Event :=
  (List.replicate s._tlc_count (controlFrameEvents s)).flatten ++ latchPulse s

end TLC5955

namespace TLC5955

/-- The mathematical (unbounded) sum of the grayscale values of one colour
over all chips and LEDs. -/
def channelSum (s : TLC5955) (c : Nat) : Nat :=
  ∑ chip ∈ Finset.range s._tlc_count, ∑ led ∈ Finset.range s.LEDS_PER_CHIP,
    s._grayscale_data chip led c

/-- The full-scale current of one colour as `getTotalCurrent` computes it
(lines 313-315). -/
def channelCurrent (s : TLC5955) (c : Nat) : ℚ :=
  s.maxCurrentValues (s._MC c) * (0.1 + 0.9 * (s._BC c : ℚ) / 127)
    * (0.262 + 0.738 * (s._DC c : ℚ) / 127)

/-- The driver `demo` driven to full scale: every max-current setting 7,
every brightness and dot-correction setting 127, every grayscale value 65535. -/
def demoFull : TLC5955 :=
  { demo with _MC := fun _ => 7, _BC := fun _ => 127, _DC := fun _ => 127,
              _grayscale_data := fun _ _ _ => 65535 }

end TLC5955

/-- Three entries that form a permutation of {0, 1, 2}. -/
def isPerm3 (a b c : Nat) : Prop := a < 3 ∧ b < 3 ∧ c < 3 ∧ a ≠ b ∧ a ≠ c ∧ b ≠ c

/-- A call of one of the public remap setters, with its arguments. -/
inductive RemapCall where
  | setRgbPinOrder (rPos grPos bPos : Nat)
  | setRgbPinOrderSingle (led_number rPos grPos bPos : Nat)
  | setPinOrderSingle (led_number color_channel_index position : Nat)

namespace TLC5955

/-- The effect of one remap setter call on the driver. -/
def runCall (s : TLC5955) : RemapCall → TLC5955
  | .setRgbPinOrder r g b => s.setRgbPinOrder r g b
  | .setRgbPinOrderSingle n r g b => s.setRgbPinOrderSingle n r g b
  | .setPinOrderSingle n c p => s.setPinOrderSingle n c p

/-- The effect of a sequence of remap setter calls, in order. -/
def runCalls (s : TLC5955) (calls : List RemapCall) : TLC5955 := calls.foldl runCall s

/-- The remap invariant: for every (chip, led) the three entries form a
permutation of {0, 1, 2}. -/
def remapInvariant (s : TLC5955) : Prop :=
  ∀ chip led, isPerm3 (s._rgb_order chip led 0) (s._rgb_order chip led 1) (s._rgb_order chip led 2)

end TLC5955

/-- A whole-triple setter call whose position triple is a permutation of
{0, 1, 2}. -/
def RemapCall.writesPermutation : RemapCall → Prop
  | .setRgbPinOrder r g b => isPerm3 r g b
  | .setRgbPinOrderSingle _ r g b => isPerm3 r g b
  | .setPinOrderSingle _ _ _ => False

/-- The `len` elements of a list that start at position `start`. -/
def bitSlice {α : Type} (start len : Nat) (l : List α) : List α := (l.drop start).take len

/-- The function data read back from the bits of a control frame: the 5 bits
after the command byte and the 389 zero bits. -/
def decodeFunctionData (bits : List Bool) : Nat := ofBitsMSB (bitSlice 397 5 bits)

/-- Brightness control of colour `c` read back from the bits of a control
frame (colour 2 comes first, at bit 402). -/
def decodeBC (bits : List Bool) (c : Nat) : Nat := ofBitsMSB (bitSlice (416 - 7 * c) 7 bits)

/-- Max current of colour `c` read back from the bits of a control frame
(colour 2 comes first, at bit 423). -/
def decodeMC (bits : List Bool) (c : Nat) : Nat := ofBitsMSB (bitSlice (429 - 3 * c) 3 bits)

/-- Dot correction of colour `c` read back from the first dot-correction
triple of a control frame (colour 2 comes first, at bit 432). -/
def decodeDC (bits : List Bool) (c : Nat) : Nat := ofBitsMSB (bitSlice (446 - 7 * c) 7 bits)

namespace TLC5955

/-- The driver `demo` with 128 chips in the chain instead of 2. -/
def demo128 : TLC5955 := { demo with _tlc_count := 128 }

end TLC5955

/-! # Properties -/

theorem downList_length {α : Type} (n : Nat) (f : Nat → α) : (downList n f).length = n := by
  induction n with
  | zero => rfl
  | succ n ih => simp [downList, ih]

theorem bitsMSB_length (w x : Nat) : (bitsMSB w x).length = w := downList_length w _

theorem ofBitsMSB_foldl (w x a : Nat) :
    (bitsMSB w x).foldl (fun acc b => 2 * acc + b.toNat) a = a * 2 ^ w + x % 2 ^ w := by
  induction w generalizing a with
  | zero => simp [bitsMSB, downList, Nat.mod_one]
  | succ w ih =>
    have ih2 := ih (2 * a + (x.testBit w).toNat)
    simp only [bitsMSB] at ih2
    simp only [bitsMSB, downList, List.foldl_cons, ih2]
    rw [Nat.mod_pow_succ, Nat.toNat_testBit]
    ring

theorem ofBitsMSB_bitsMSB (w x : Nat) : ofBitsMSB (bitsMSB w x) = x % 2 ^ w := by
  simp [ofBitsMSB, ofBitsMSB_foldl]

theorem bitWrite_testBit (v k x i : Nat) (hk : k < 8) :
    (bitWrite v k x % 256).testBit i
      = (decide (i < 8) && (if i = k then decide (x ≠ 0) else v.testBit i)) := by
  have h256 : (256 : Nat) = 2 ^ 8 := by norm_num
  have hff : (0xFFFFFFFF : Nat) = 2 ^ 32 - 1 := by norm_num
  unfold bitWrite
  rw [h256, Nat.testBit_mod_two_pow, Nat.one_shiftLeft]
  by_cases hx : x = 0
  · simp only [hx, ne_eq, not_true_eq_false, if_false, Nat.testBit_and, hff, Nat.testBit_xor,
      Nat.testBit_two_pow_sub_one, Nat.testBit_two_pow]
    by_cases hi : i < 8
    · by_cases hik : i = k
      · subst hik; simp [hi]; omega
      · have : ¬ k = i := fun h => hik h.symm
        have hi32 : i < 32 := by omega
        simp [hi, hik, this, hi32]
    · simp [hi]
  · simp only [hx, ne_eq, not_false_eq_true, if_true, Nat.testBit_or, Nat.testBit_two_pow]
    by_cases hi : i < 8
    · by_cases hik : i = k
      · subst hik; simp [hi]
      · have : ¬ k = i := fun h => hik h.symm
        simp [hi, hik, this]
    · simp [hi]

namespace TLC5955

theorem setBuffer_mid (s : TLC5955) (x k : Nat) (hk : k < 7) (hc : s._buffer_count = (k + 1 : Nat)) :
    s.setBuffer x = { s with _buffer := bitWrite s._buffer (k + 1) x % 256, _buffer_count := (k : Int) } := by
  have h1 : toInt8 (((k + 1 : Nat) : Int) - 1) = (k : Int) := by
    unfold toInt8; push_cast; omega
  have h2 : ¬ ((k : Int) = -1) := by omega
  simp only [setBuffer, hc, h1, h2, if_false, Int.toNat_ofNat]

theorem setBuffer_last (s : TLC5955) (x : Nat) (hc : s._buffer_count = 0) :
    s.setBuffer x = { s with _buffer := 0, _buffer_count := 7,
                             trace := s.trace ++ [Event.transfer (bitWrite s._buffer 0 x % 256)] } := by
  have h1 : toInt8 (-1) = -1 := by decide
  simp [setBuffer, hc, h1, SPI_transfer, emit]

theorem setBuffer_eight (s : TLC5955) (x7 x6 x5 x4 x3 x2 x1 x0 : Nat) (hc : s._buffer_count = 7) :
    pushAll s [x7, x6, x5, x4, x3, x2, x1, x0] =
      { s with _buffer := 0, _buffer_count := 7,
               trace := s.trace ++ [Event.transfer (ofBitsMSB
                 [decide (x7 ≠ 0), decide (x6 ≠ 0), decide (x5 ≠ 0), decide (x4 ≠ 0),
                  decide (x3 ≠ 0), decide (x2 ≠ 0), decide (x1 ≠ 0), decide (x0 ≠ 0)])] } := by
  simp only [pushAll, List.foldl_cons, List.foldl_nil]
  rw [setBuffer_mid s x7 6 (by omega) (by simp [hc])]
  rw [setBuffer_mid _ x6 5 (by omega) (by simp)]
  rw [setBuffer_mid _ x5 4 (by omega) (by simp)]
  rw [setBuffer_mid _ x4 3 (by omega) (by simp)]
  rw [setBuffer_mid _ x3 2 (by omega) (by simp)]
  rw [setBuffer_mid _ x2 1 (by omega) (by simp)]
  rw [setBuffer_mid _ x1 0 (by omega) (by simp)]
  rw [setBuffer_last _ x0 (by simp)]
  simp only [Nat.reduceAdd]
  congr 3
  set E := bitWrite (bitWrite (bitWrite (bitWrite (bitWrite (bitWrite (bitWrite
      (bitWrite s._buffer 7 x7 % 256) 6 x6 % 256) 5 x5 % 256) 4 x4 % 256) 3 x3 % 256)
      2 x2 % 256) 1 x1 % 256) 0 x0 % 256 with hE
  have hlt : E < 2 ^ 8 := by rw [hE]; exact Nat.mod_lt _ (by norm_num)
  have hbits : bitsMSB 8 E = [decide (x7 ≠ 0), decide (x6 ≠ 0), decide (x5 ≠ 0), decide (x4 ≠ 0),
                  decide (x3 ≠ 0), decide (x2 ≠ 0), decide (x1 ≠ 0), decide (x0 ≠ 0)] := by
    simp only [bitsMSB, downList, hE, bitWrite_testBit _ 7 _ _ (by omega),
      bitWrite_testBit _ 6 _ _ (by omega), bitWrite_testBit _ 5 _ _ (by omega),
      bitWrite_testBit _ 4 _ _ (by omega), bitWrite_testBit _ 3 _ _ (by omega),
      bitWrite_testBit _ 2 _ _ (by omega), bitWrite_testBit _ 1 _ _ (by omega),
      bitWrite_testBit _ 0 _ _ (by omega)]
    simp
  rw [← hbits, ofBitsMSB_bitsMSB, Nat.mod_eq_of_lt hlt]

end TLC5955

namespace TLC5955

theorem pushAll_append (s : TLC5955) (xs ys : List Nat) :
    pushAll s (xs ++ ys) = pushAll (pushAll s xs) ys := by
  simp [pushAll, List.foldl_append]

theorem pushAll_few (xs : List Nat) :
    ∀ (s : TLC5955) (k : Nat), k ≤ 7 → s._buffer_count = (k : Int) → xs.length ≤ k →
      ∃ B, pushAll s xs = { s with _buffer := B, _buffer_count := ((k - xs.length : Nat) : Int) }
        ∧ (xs = [] → B = s._buffer) := by
  induction xs with
  | nil =>
    intro s k _ hc _
    refine ⟨s._buffer, ?_, fun _ => rfl⟩
    cases s
    simp only [pushAll, List.foldl_nil, List.length_nil, Nat.sub_zero] at *
    subst hc
    rfl
  | cons x xs ih =>
    intro s k hk hc hlen
    simp only [List.length_cons] at hlen
    obtain ⟨k, rfl⟩ : ∃ j, k = j + 1 := ⟨k - 1, by omega⟩
    have hstep := setBuffer_mid s x k (by omega) hc
    obtain ⟨B, hB, _⟩ := ih (s.setBuffer x) k (by omega) (by rw [hstep]) (by omega)
    refine ⟨B, ?_, fun h => by simp at h⟩
    have : pushAll s (x :: xs) = pushAll (s.setBuffer x) xs := rfl
    rw [this, hB, hstep]
    simp only [List.length_cons]
    have : k + 1 - (xs.length + 1) = k - xs.length := by omega
    rw [this]

end TLC5955

theorem list_length_eight {α : Type} (a : List α) (h : a.length = 8) :
    ∃ x7 x6 x5 x4 x3 x2 x1 x0, a = [x7, x6, x5, x4, x3, x2, x1, x0] := by
  rcases a with _ | ⟨x7, _ | ⟨x6, _ | ⟨x5, _ | ⟨x4, _ | ⟨x3, _ | ⟨x2, _ | ⟨x1, _ | ⟨x0, _ | ⟨y, r⟩⟩⟩⟩⟩⟩⟩⟩⟩ <;>
    simp at h
  exact ⟨x7, x6, x5, x4, x3, x2, x1, x0, rfl⟩

theorem packBytes_short (bs : List Bool) (h : bs.length < 8) : packBytes bs = [] := by
  rw [packBytes]; simp [h]

theorem packBytes_long (bs : List Bool) (h : 8 ≤ bs.length) :
    packBytes bs = ofBitsMSB (bs.take 8) :: packBytes (bs.drop 8) := by
  rw [packBytes]; simp [Nat.not_lt.mpr h]

namespace TLC5955

theorem pushAll_spec (n : Nat) :
    ∀ (xs : List Nat) (s : TLC5955), xs.length = n → s._buffer_count = 7 →
      ∃ B, pushAll s xs =
          { s with _buffer := B, _buffer_count := ((7 - xs.length % 8 : Nat) : Int),
                   trace := s.trace ++
                     (packBytes (xs.map (fun x => decide (x ≠ 0)))).map Event.transfer }
        ∧ (xs.length % 8 = 0 → xs ≠ [] → B = 0) ∧ (xs = [] → B = s._buffer) := by
  induction n using Nat.strong_induction_on with
  | _ n ih =>
    intro xs s hn hc
    by_cases hlt : xs.length < 8
    · obtain ⟨B, hB, hnil⟩ := pushAll_few xs s 7 (by omega) (by simp [hc]) (by omega)
      refine ⟨B, ?_, ?_, hnil⟩
      · rw [hB, packBytes_short _ (by simpa using hlt), Nat.mod_eq_of_lt hlt]
        simp
      · intro h0 hne
        rw [Nat.mod_eq_of_lt hlt] at h0
        exact absurd (List.length_eq_zero.mp h0) hne
    · have hge : 8 ≤ xs.length := by omega
      have hsplit : xs = xs.take 8 ++ xs.drop 8 := (List.take_append_drop 8 xs).symm
      have htake : (xs.take 8).length = 8 := by simp [List.length_take]; omega
      obtain ⟨x7, x6, x5, x4, x3, x2, x1, x0, h8⟩ := list_length_eight _ htake
      have hdrop : (xs.drop 8).length = n - 8 := by simp [List.length_drop, hn]
      obtain ⟨B, hB, hB0, hBnil⟩ := ih (n - 8) (by omega) (xs.drop 8)
        (pushAll s [x7, x6, x5, x4, x3, x2, x1, x0]) hdrop (by rw [setBuffer_eight s _ _ _ _ _ _ _ _ hc])
      refine ⟨B, ?_, ?_, ?_⟩
      · have hpk : packBytes (xs.map (fun x => decide (x ≠ 0)))
            = ofBitsMSB ([x7, x6, x5, x4, x3, x2, x1, x0].map (fun x => decide (x ≠ 0)))
                :: packBytes ((xs.drop 8).map (fun x => decide (x ≠ 0))) := by
          rw [packBytes_long (xs.map (fun x => decide (x ≠ 0))) (by rw [List.length_map]; exact hge)]
          have e1 : List.take 8 (xs.map (fun x => decide (x ≠ 0)))
              = (xs.take 8).map (fun x => decide (x ≠ 0)) := by simp [List.map_take]
          have e2 : List.drop 8 (xs.map (fun x => decide (x ≠ 0)))
              = (xs.drop 8).map (fun x => decide (x ≠ 0)) := by simp [List.map_drop]
          rw [e1, e2, h8]
        have hmod : xs.length % 8 = (xs.drop 8).length % 8 := by
          rw [hdrop, hn]; omega
        conv_lhs => rw [hsplit, pushAll_append, h8]
        rw [hB, setBuffer_eight s _ _ _ _ _ _ _ _ hc, hpk, hmod]
        simp
      · intro h0 _
        by_cases hd : xs.drop 8 = []
        · rw [hBnil hd, setBuffer_eight s _ _ _ _ _ _ _ _ hc]
        · exact hB0 (by rw [hdrop]; omega) hd
      · intro hnil
        rw [hnil] at hge
        simp at hge

end TLC5955

theorem downList_map {α β : Type} (n : Nat) (f : Nat → α) (g : α → β) :
    (downList n f).map g = downList n (fun i => g (f i)) := by
  induction n with
  | zero => rfl
  | succ n ih => simp [downList, ih]

theorem downList_congr {α : Type} (n : Nat) (f g : Nat → α) (h : ∀ i, i < n → f i = g i) :
    downList n f = downList n g := by
  induction n with
  | zero => rfl
  | succ n ih =>
    simp only [downList]
    rw [h n (Nat.lt_succ_self n), ih (fun i hi => h i (Nat.lt_succ_of_lt hi))]

theorem downList_const {α : Type} (n : Nat) (a : α) : downList n (fun _ => a) = List.replicate n a := by
  induction n with
  | zero => rfl
  | succ n ih => simp [downList, ih, List.replicate_succ]

theorem and_shift_ne_zero (v a : Nat) : decide (v &&& (1 <<< a) ≠ 0) = v.testBit a := by
  rw [Nat.one_shiftLeft]
  by_cases h : v.testBit a = true
  · have : (v &&& 2 ^ a).testBit a = true := by simp [Nat.testBit_and, h, Nat.testBit_two_pow_self]
    have hne : v &&& 2 ^ a ≠ 0 := by
      intro h0; rw [h0] at this; simp at this
    simp [hne, h]
  · have h0 : v &&& 2 ^ a = 0 := by
      apply Nat.eq_of_testBit_eq
      intro i
      simp only [Nat.testBit_and, Nat.testBit_two_pow, Nat.zero_testBit]
      by_cases hi : a = i
      · subst hi; simp at h; simp [h]
      · simp [hi]
    simp at h
    simp [h0, h]

theorem toUInt8_and_shift (v a : Nat) (ha : a < 8) :
    toUInt8 ((v &&& (1 <<< a) : Nat) : Int) = v &&& (1 <<< a) := by
  have hle : v &&& (1 <<< a) ≤ 1 <<< a := Nat.and_le_right
  have h2 : (1 : Nat) <<< a < 256 := by
    rw [Nat.one_shiftLeft]
    calc 2 ^ a < 2 ^ 8 := Nat.pow_lt_pow_right (by norm_num) ha
      _ = 256 := by norm_num
  unfold toUInt8
  omega

theorem fieldArgs_bits (w v : Nat) (hw : w ≤ 8) :
    (downList w (fun a => toUInt8 ((v &&& (1 <<< a) : Nat) : Int))).map (fun x => decide (x ≠ 0))
      = bitsMSB w v := by
  rw [downList_map, bitsMSB]
  apply downList_congr
  intro i hi
  rw [toUInt8_and_shift v i (by omega), and_shift_ne_zero]

namespace TLC5955

theorem setBuffer_fields (s : TLC5955) (x : Nat) :
    (s.setBuffer x).LEDS_PER_CHIP = s.LEDS_PER_CHIP ∧ (s.setBuffer x)._function_data = s._function_data
    ∧ (s.setBuffer x)._BC = s._BC ∧ (s.setBuffer x)._MC = s._MC ∧ (s.setBuffer x)._DC = s._DC := by
  unfold setBuffer SPI_transfer emit
  simp only
  split <;> simp

theorem forDown_setBuffer (g : TLC5955 → Nat → Nat)
    (hg : ∀ (s : TLC5955) (x : Nat), g (s.setBuffer x) = g s) (n : Nat) (s : TLC5955) :
    forDown n (fun a s => s.setBuffer (g s a)) s = pushAll s (downList n (g s)) := by
  induction n generalizing s with
  | zero => rfl
  | succ n ih =>
    simp only [forDown, downList]
    rw [ih, hg]
    rfl

theorem pushAll_inv {β : Type} (h : TLC5955 → β)
    (hh : ∀ (s : TLC5955) (x : Nat), h (s.setBuffer x) = h s) (xs : List Nat) (s : TLC5955) :
    h (pushAll s xs) = h s := by
  induction xs generalizing s with
  | nil => rfl
  | cons x xs ih =>
    have : pushAll s (x :: xs) = pushAll (s.setBuffer x) xs := rfl
    rw [this, ih, hh]

theorem forDown_pushAll (h : TLC5955 → Nat → List Nat)
    (hh : ∀ (s : TLC5955) (x : Nat), h (s.setBuffer x) = h s) (n : Nat) (s : TLC5955) :
    forDown n (fun a s => pushAll s (h s a)) s = pushAll s (downList n (h s)).flatten := by
  induction n generalizing s with
  | zero => rfl
  | succ n ih =>
    simp only [forDown, downList, List.flatten_cons]
    rw [ih, pushAll_inv h hh, pushAll_append]

end TLC5955

namespace TLC5955

theorem zeroWordLoop_zero (s : TLC5955) :
    zeroWordLoop 0 s = (384, { s with trace := s.trace ++ List.replicate 24 (Event.transfer16 0) }) := by
  simp [zeroWordLoop, CONTROL_ZERO_BITS, SPI_transfer16, emit, List.replicate]

theorem zeroBitLoop_384 (s : TLC5955) : zeroBitLoop 384 s = pushAll s (List.replicate 5 0) := by
  simp [zeroBitLoop, CONTROL_ZERO_BITS, pushAll, List.replicate]

end TLC5955

namespace TLC5955

theorem pushAll_fields (s : TLC5955) (xs : List Nat) :
    (pushAll s xs).LEDS_PER_CHIP = s.LEDS_PER_CHIP ∧ (pushAll s xs)._function_data = s._function_data
    ∧ (pushAll s xs)._BC = s._BC ∧ (pushAll s xs)._MC = s._MC ∧ (pushAll s xs)._DC = s._DC :=
  ⟨pushAll_inv (fun t => t.LEDS_PER_CHIP) (fun t x => (setBuffer_fields t x).1) xs s,
   pushAll_inv (fun t => t._function_data) (fun t x => (setBuffer_fields t x).2.1) xs s,
   pushAll_inv (fun t => t._BC) (fun t x => (setBuffer_fields t x).2.2.1) xs s,
   pushAll_inv (fun t => t._MC) (fun t x => (setBuffer_fields t x).2.2.2.1) xs s,
   pushAll_inv (fun t => t._DC) (fun t x => (setBuffer_fields t x).2.2.2.2) xs s⟩

theorem updateControl_chip_pushAll (chip : Nat) (s : TLC5955) :
    updateControl_chip chip s =
      SPI_endTransaction (pushAll
        { s with _buffer_count := 7,
                 trace := s.trace ++ (modePulse s true ++ [Event.beginTransaction, Event.transfer 0x96]
                   ++ List.replicate 24 (Event.transfer16 0)) }
        (controlArgs s)) := by
  have hF : ∀ t : TLC5955, forDown FC_BITS (fun a s => s.setBuffer (toUInt8 (s._function_data &&& (1 <<< a) : Nat))) t
      = pushAll t (fieldArgs 5 t._function_data) := fun t =>
    forDown_setBuffer (fun s a => toUInt8 (s._function_data &&& (1 <<< a) : Nat))
      (fun s x => by funext a; simp only [(setBuffer_fields s x).2.1]) 5 t
  have hBC : ∀ (c : Nat) (t : TLC5955), forDown BC_BITS (fun a s => s.setBuffer (toUInt8 (s._BC c &&& (1 <<< a) : Nat))) t
      = pushAll t (fieldArgs 7 (t._BC c)) := fun c t =>
    forDown_setBuffer (fun s a => toUInt8 (s._BC c &&& (1 <<< a) : Nat))
      (fun s x => by funext a; simp only [(setBuffer_fields s x).2.2.1]) 7 t
  have hMC : ∀ (c : Nat) (t : TLC5955), forDown MC_BITS (fun a s => s.setBuffer (toUInt8 (s._MC c &&& (1 <<< a) : Nat))) t
      = pushAll t (fieldArgs 3 (t._MC c)) := fun c t =>
    forDown_setBuffer (fun s a => toUInt8 (s._MC c &&& (1 <<< a) : Nat))
      (fun s x => by funext a; simp only [(setBuffer_fields s x).2.2.2.1]) 3 t
  have hDC1 : ∀ (b : Nat) (t : TLC5955), forDown 7 (fun c s => s.setBuffer (toUInt8 (s._DC b &&& (1 <<< c) : Nat))) t
      = pushAll t (fieldArgs 7 (t._DC b)) := fun b t =>
    forDown_setBuffer (fun s a => toUInt8 (s._DC b &&& (1 <<< a) : Nat))
      (fun s x => by funext a; simp only [(setBuffer_fields s x).2.2.2.2]) 7 t
  have hDC2 : ∀ (t : TLC5955), forDown COLOR_CHANNEL_COUNT (fun b s =>
        forDown 7 (fun c s => s.setBuffer (toUInt8 (s._DC b &&& (1 <<< c) : Nat))) s) t
      = pushAll t (downList 3 (fun b => fieldArgs 7 (t._DC b))).flatten := fun t => by
    simp only [hDC1]
    exact forDown_pushAll (fun s b => fieldArgs 7 (s._DC b))
      (fun s x => by funext a; simp only [(setBuffer_fields s x).2.2.2.2]) 3 t
  have hDC3 : ∀ (n : Nat) (t : TLC5955), forDown n (fun _a s =>
        forDown COLOR_CHANNEL_COUNT (fun b s =>
          forDown 7 (fun c s => s.setBuffer (toUInt8 (s._DC b &&& (1 <<< c) : Nat))) s) s) t
      = pushAll t (downList n (fun _ =>
          (downList 3 (fun b => fieldArgs 7 (t._DC b))).flatten)).flatten := fun n t => by
    simp only [hDC2]
    exact forDown_pushAll (fun s _ => (downList 3 (fun b => fieldArgs 7 (s._DC b))).flatten)
      (fun s x => by funext a; simp only [(setBuffer_fields s x).2.2.2.2]) n t
  unfold updateControl_chip
  simp only [zeroWordLoop_zero, zeroBitLoop_384, hF, hBC, hMC, hDC3, pushAll_fields]
  simp only [controlArgs, pushAll_append]
  simp [setControlModeBit, SPI_beginTransaction, SPI_transfer, SPI_begin, SPI_end, digitalWrite,
    pinModeOutput, emit, modePulse, CONTROL_MODE_ON]

end TLC5955

theorem flatten_replicate_length {α : Type} (n : Nat) (l : List α) :
    (List.replicate n l).flatten.length = n * l.length := by
  induction n with
  | zero => simp
  | succ n ih => simp [List.replicate_succ, ih]; ring

theorem map_flatten_replicate {α β : Type} (f : α → β) (n : Nat) (l : List α) :
    (List.replicate n l).flatten.map f = (List.replicate n (l.map f)).flatten := by
  induction n with
  | zero => simp
  | succ n ih => simp [List.replicate_succ, ih]

namespace TLC5955

theorem controlArgs_bits (s : TLC5955) :
    (controlArgs s).map (fun x => decide (x ≠ 0)) = List.replicate 5 false ++ controlFieldBits s := by
  have h5 : (fieldArgs 5 s._function_data).map (fun x => decide (x ≠ 0)) = bitsMSB 5 s._function_data :=
    fieldArgs_bits 5 s._function_data (by omega)
  have hb : ∀ c, (fieldArgs 7 (s._BC c)).map (fun x => decide (x ≠ 0)) = bitsMSB 7 (s._BC c) :=
    fun c => fieldArgs_bits 7 (s._BC c) (by omega)
  have hm : ∀ c, (fieldArgs 3 (s._MC c)).map (fun x => decide (x ≠ 0)) = bitsMSB 3 (s._MC c) :=
    fun c => fieldArgs_bits 3 (s._MC c) (by omega)
  have hd : ∀ c, (fieldArgs 7 (s._DC c)).map (fun x => decide (x ≠ 0)) = bitsMSB 7 (s._DC c) :=
    fun c => fieldArgs_bits 7 (s._DC c) (by omega)
  have hflat : (downList 3 (fun b => fieldArgs 7 (s._DC b))).flatten
      = fieldArgs 7 (s._DC 2) ++ fieldArgs 7 (s._DC 1) ++ fieldArgs 7 (s._DC 0) := by
    simp [downList]
  have hz : List.map (fun x => decide (x ≠ 0)) (List.replicate 5 0) = List.replicate 5 false := by
    simp
  rw [controlArgs, controlFieldBits, hflat, downList_const]
  simp only [List.map_append, map_flatten_replicate, h5, hb, hm, hd, hz, List.append_assoc]

theorem controlArgs_length (s : TLC5955) : (controlArgs s).length = 40 + 21 * s.LEDS_PER_CHIP := by
  have h := congrArg List.length (controlArgs_bits s)
  rw [List.length_map] at h
  rw [h]
  simp only [controlFieldBits, List.length_append, List.length_replicate, bitsMSB_length,
    flatten_replicate_length]
  ring

theorem updateControl_chip_spec (chip : Nat) (s : TLC5955) :
    ∃ B, updateControl_chip chip s =
        { s with _buffer := B,
                 _buffer_count := ((7 - (40 + 21 * s.LEDS_PER_CHIP) % 8 : Nat) : Int),
                 trace := s.trace ++ controlFrameEvents s }
      ∧ (8 ∣ s.LEDS_PER_CHIP → B = 0) := by
  obtain ⟨B, hB, hB0, _⟩ := pushAll_spec (controlArgs s).length (controlArgs s)
    { s with _buffer_count := 7,
             trace := s.trace ++ (modePulse s true ++ [Event.beginTransaction, Event.transfer 0x96]
               ++ List.replicate 24 (Event.transfer16 0)) } rfl rfl
  refine ⟨B, ?_, ?_⟩
  · rw [updateControl_chip_pushAll, hB, controlArgs_bits, controlArgs_length]
    simp [SPI_endTransaction, emit, controlFrameEvents, controlFrameData]
  · intro hdvd
    apply hB0
    · rw [controlArgs_length]; omega
    · intro h
      have := congrArg List.length h
      rw [controlArgs_length] at this
      simp at this

end TLC5955

namespace TLC5955

theorem emit_eq_emitAll (s : TLC5955) (e : Event) : s.emit e = s.emitAll [e] := rfl

theorem emitAll_emitAll (s : TLC5955) (a b : List Event) :
    (s.emitAll a).emitAll b = s.emitAll (a ++ b) := by
  simp [emitAll, List.append_assoc]

theorem emitAll_nil (s : TLC5955) : s.emitAll [] = s := by
  simp [emitAll]

theorem forDown_emitAll (g : TLC5955 → Nat → List Event)
    (hg : ∀ (s : TLC5955) (es : List Event), g (s.emitAll es) = g s) (n : Nat) (s : TLC5955) :
    forDown n (fun i s => s.emitAll (g s i)) s = s.emitAll (downList n (g s)).flatten := by
  induction n generalizing s with
  | zero => simp [forDown, downList, emitAll_nil]
  | succ n ih =>
    simp only [forDown, downList, List.flatten_cons]
    rw [ih, hg, emitAll_emitAll]

theorem setControlModeBit_eq (s : TLC5955) (m : Bool) :
    s.setControlModeBit m = s.emitAll (modePulse s m) := by
  cases m <;>
    simp [setControlModeBit, SPI_begin, SPI_end, digitalWrite, pinModeOutput, emit, emitAll, modePulse]

theorem latch_eq (s : TLC5955) : s.latch = s.emitAll (latchPulse s) := by
  simp [latch, delayMicroseconds, digitalWrite, emit, emitAll, latchPulse]

theorem toInt8_small (n : Nat) (h : n ≤ 127) : (toInt8 (n : Int)).toNat = n := by
  unfold toInt8; omega

theorem toInt8_loop (n : Nat) (h : n ≤ 128) :
    (toInt8 (toInt8 (n : Int) - 1) + 1).toNat = n := by
  unfold toInt8; omega

theorem updateLeds_chip_eq (chip : Nat) (s : TLC5955) (hL : s.LEDS_PER_CHIP ≤ 127) :
    updateLeds_chip chip s = s.emitAll (grayscaleFrameEvents s chip) := by
  have h3 : (toInt8 (toInt8 (COLOR_CHANNEL_COUNT : Int) - 1) + 1).toNat = 3 := by decide
  have hin : ∀ (led : Nat) (t : TLC5955),
      forDown 3 (fun color_channel_index s =>
        s.SPI_transfer16 (s._grayscale_data chip led (s._rgb_order chip led (toUInt8 color_channel_index)))) t
      = t.emitAll (t.ledGroup chip led) := by
    intro led t
    have e0 : toUInt8 (0 : Int) = 0 := by decide
    have e1 : toUInt8 (1 : Int) = 1 := by decide
    have e2 : toUInt8 (2 : Int) = 2 := by decide
    simp [forDown, SPI_transfer16, emit, emitAll, ledGroup, sentWord, e0, e1, e2]
  have hout : ∀ (n : Nat) (t : TLC5955),
      forDown n (fun led_channel_index s =>
        forDown 3 (fun color_channel_index s =>
          s.SPI_transfer16 (s._grayscale_data chip led_channel_index
            (s._rgb_order chip led_channel_index (toUInt8 color_channel_index)))) s) t
      = t.emitAll (downList n (fun led => t.ledGroup chip led)).flatten := by
    intro n t
    simp only [hin]
    exact forDown_emitAll (fun s led => s.ledGroup chip led) (fun s es => rfl) n t
  unfold updateLeds_chip
  simp only [h3, hout, setControlModeBit_eq, SPI_beginTransaction, SPI_endTransaction,
    emit_eq_emitAll, emitAll_emitAll]
  have hL2 : (toInt8 (toInt8
      ((s.emitAll (modePulse s CONTROL_MODE_OFF ++ [Event.beginTransaction])).LEDS_PER_CHIP : Int)
        - 1) + 1).toNat
      = s.LEDS_PER_CHIP := toInt8_loop _ (by exact Nat.le_succ_of_le hL)
  rw [hL2]
  simp [grayscaleFrameEvents, chipWords, emitAll, ledGroup, sentWord, CONTROL_MODE_OFF]

end TLC5955

theorem downList_flatten_filter {α : Type} (p : α → Bool) (n : Nat) (f : Nat → List α) :
    (downList n f).flatten.filter p = (downList n (fun i => (f i).filter p)).flatten := by
  induction n with
  | zero => rfl
  | succ n ih => simp [downList, ih]

theorem downList_flatten_length {α : Type} (n m : Nat) (f : Nat → List α)
    (h : ∀ i, (f i).length = m) : (downList n f).flatten.length = n * m := by
  induction n with
  | zero => simp [downList]
  | succ n ih => simp [downList, ih, h]; ring

namespace TLC5955

theorem forDown_emitAll_inv (P : TLC5955 → Prop)
    (hP : ∀ (s : TLC5955) (es : List Event), P s → P (s.emitAll es))
    (body : Nat → TLC5955 → TLC5955) (g : TLC5955 → Nat → List Event)
    (hbody : ∀ (i : Nat) (s : TLC5955), P s → body i s = s.emitAll (g s i))
    (hg : ∀ (s : TLC5955) (es : List Event), g (s.emitAll es) = g s)
    (n : Nat) (s : TLC5955) (hs : P s) :
    forDown n body s = s.emitAll (downList n (g s)).flatten := by
  induction n generalizing s with
  | zero => simp [forDown, downList, emitAll_nil]
  | succ n ih =>
    simp only [forDown, downList, List.flatten_cons]
    rw [hbody n s hs, ih _ (hP s _ hs), hg, emitAll_emitAll]

theorem updateLeds_chips_eq (n : Nat) (s : TLC5955) (hL : s.LEDS_PER_CHIP ≤ 127) :
    forDown n updateLeds_chip s = s.emitAll (downList n (grayscaleFrameEvents s)).flatten :=
  forDown_emitAll_inv (fun t => t.LEDS_PER_CHIP ≤ 127) (fun _ _ h => h) updateLeds_chip
    (fun t chip => grayscaleFrameEvents t chip) (fun i t ht => updateLeds_chip_eq i t ht)
    (fun _ _ => rfl) n s hL

theorem updateLedsAt_gated (s : TLC5955) (p : ℚ) (out : Option ℚ)
    (h : s.enforce_max_current = true ∧ p > s.max_current_amps) :
    updateLedsAt s p out = (1, out.map (fun _ => p), s) := by
  obtain ⟨h1, h2⟩ := h
  simp [updateLedsAt, h1, h2]

theorem updateLedsAt_open (s : TLC5955) (p : ℚ) (out : Option ℚ) (hL : s.LEDS_PER_CHIP ≤ 127)
    (h : ¬ (s.enforce_max_current = true ∧ p > s.max_current_amps)) :
    updateLedsAt s p out = (0, out.map (fun _ => p),
      s.emitAll ((downList (toInt8 (s._tlc_count : Int)).toNat (grayscaleFrameEvents s)).flatten
        ++ latchPulse s
        ++ [Event.analogWrite s._gsclk (if p = 0 then 0 else 1)])) := by
  have hcond : (s.enforce_max_current && decide (p > s.max_current_amps)) = false := by
    by_contra hc
    simp only [Bool.not_eq_false, Bool.and_eq_true, decide_eq_true_eq] at hc
    exact h hc
  unfold updateLedsAt
  simp only [hcond, Bool.false_eq_true, if_false, updateLeds_chips_eq _ s hL,
    latch_eq, analogWrite, emit_eq_emitAll]
  by_cases h0 : p = 0
  · simp [h0, emitAll, latchPulse]
  · simp [h0, emitAll, latchPulse]

theorem updateLeds_gated (s : TLC5955) (out : Option ℚ) (h : overCurrent s) :
    updateLeds s out = (1, out.map (fun _ => s.getTotalCurrent), s) :=
  updateLedsAt_gated s s.getTotalCurrent out h

theorem updateLeds_open (s : TLC5955) (out : Option ℚ) (hN : s._tlc_count ≤ 127)
    (hL : s.LEDS_PER_CHIP ≤ 127) (h : ¬ overCurrent s) :
    updateLeds s out = (0, out.map (fun _ => s.getTotalCurrent),
      s.emitAll ((downList s._tlc_count (grayscaleFrameEvents s)).flatten ++ latchPulse s
        ++ [Event.analogWrite s._gsclk (if s.getTotalCurrent = 0 then 0 else 1)])) := by
  have h1 := updateLedsAt_open s s.getTotalCurrent out hL h
  rw [toInt8_small _ hN] at h1
  exact h1

theorem filter_isData_grayscaleFrame (s : TLC5955) (chip : Nat) :
    (grayscaleFrameEvents s chip).filter Event.isData = s.chipWords chip := by
  have hw : (s.chipWords chip).filter Event.isData = s.chipWords chip := by
    rw [List.filter_eq_self]
    intro e he
    simp only [chipWords, List.mem_flatten] at he
    obtain ⟨l, hl, hel⟩ := he
    have : ∃ led, l = s.ledGroup chip led := by
      clear hel
      generalize s.LEDS_PER_CHIP = n at hl
      induction n with
      | zero => simp [downList] at hl
      | succ n ih =>
        simp only [downList, List.mem_cons] at hl
        rcases hl with h | h
        · exact ⟨n, h⟩
        · exact ih h
    obtain ⟨led, rfl⟩ := this
    simp only [ledGroup, List.mem_cons, List.mem_singleton, List.not_mem_nil, or_false] at hel
    rcases hel with h | h | h <;> rw [h] <;> rfl
  simp only [grayscaleFrameEvents, List.filter_append, hw]
  simp [modePulse, Event.isData, List.filter]

end TLC5955

theorem dataBits_append (a b : List Event) : dataBits (a ++ b) = dataBits a ++ dataBits b := by
  induction a with
  | nil => rfl
  | cons e a ih => cases e <;> simp [dataBits, ih]

theorem bitsMSB_zero (w : Nat) : bitsMSB w 0 = List.replicate w false := by
  simp [bitsMSB, downList_const]

theorem dataBits_zero_words (n : Nat) :
    dataBits (List.replicate n (Event.transfer16 0)) = List.replicate (16 * n) false := by
  induction n with
  | zero => rfl
  | succ n ih =>
    rw [List.replicate_succ, dataBits, ih, bitsMSB_zero, ← List.replicate_add]
    congr 1
    ring

theorem dataBits_bytes (bytes : List Nat) :
    dataBits (bytes.map Event.transfer) = (bytes.map (bitsMSB 8)).flatten := by
  induction bytes with
  | nil => rfl
  | cons b bytes ih => simp [dataBits, ih]

theorem bitsMSB_ofBitsMSB_eight (bs : List Bool) (h : bs.length = 8) :
    bitsMSB 8 (ofBitsMSB bs) = bs := by
  obtain ⟨b7, b6, b5, b4, b3, b2, b1, b0, rfl⟩ := list_length_eight bs h
  cases b7 <;> cases b6 <;> cases b5 <;> cases b4 <;> cases b3 <;> cases b2 <;> cases b1 <;>
    cases b0 <;> decide

theorem unpack_packBytes (n : Nat) :
    ∀ bs : List Bool, bs.length = 8 * n → ((packBytes bs).map (bitsMSB 8)).flatten = bs := by
  induction n with
  | zero =>
    intro bs h
    have : bs = [] := List.length_eq_zero.mp (by omega)
    subst this
    rw [packBytes_short _ (by simp)]
    rfl
  | succ n ih =>
    intro bs h
    rw [packBytes_long bs (by omega)]
    have htake : (bs.take 8).length = 8 := by simp [List.length_take]; omega
    have hdrop : (bs.drop 8).length = 8 * n := by simp [List.length_drop]; omega
    simp only [List.map_cons, List.flatten_cons]
    rw [bitsMSB_ofBitsMSB_eight _ htake, ih _ hdrop, List.take_append_drop]

theorem packBytes_length (n : Nat) :
    ∀ bs : List Bool, bs.length = 8 * n → (packBytes bs).length = n := by
  induction n with
  | zero =>
    intro bs h
    rw [packBytes_short _ (by omega)]
    rfl
  | succ n ih =>
    intro bs h
    rw [packBytes_long bs (by omega)]
    have hdrop : (bs.drop 8).length = 8 * n := by simp [List.length_drop]; omega
    simp [ih _ hdrop]

namespace TLC5955

theorem controlFieldBits_length (s : TLC5955) :
    (controlFieldBits s).length = 35 + 21 * s.LEDS_PER_CHIP := by
  simp only [controlFieldBits, List.length_append, bitsMSB_length, flatten_replicate_length]
  ring

theorem dataBits_controlFrameData (s : TLC5955) (hL : 8 ∣ s.LEDS_PER_CHIP) :
    dataBits (controlFrameData s) = controlFrameBits s := by
  obtain ⟨k, hk⟩ := hL
  have hlen : (List.replicate 5 false ++ controlFieldBits s).length = 8 * (5 + 21 * k) := by
    rw [List.length_append, List.length_replicate, controlFieldBits_length, hk]; ring
  have h384 : dataBits (List.replicate 24 (Event.transfer16 0)) = List.replicate 384 false :=
    dataBits_zero_words 24
  have h389 : List.replicate 389 false = List.replicate 384 false ++ List.replicate 5 false := by
    rw [← List.replicate_add]
  rw [controlFrameData, dataBits_append, dataBits_append, h384, dataBits_bytes,
    unpack_packBytes _ _ hlen, controlFrameBits, h389]
  simp only [dataBits, List.append_assoc, List.append_nil]

theorem controlFrameData_isData (s : TLC5955) : ∀ e ∈ controlFrameData s, e.isData = true := by
  intro e he
  simp only [controlFrameData, List.mem_append, List.mem_singleton, List.mem_map] at he
  rcases he with (h | h) | ⟨b, _, h⟩
  · rw [h]; rfl
  · rw [List.eq_of_mem_replicate h]; rfl
  · rw [← h]; rfl

theorem updateControl_chip_trace (chip : Nat) (s : TLC5955) :
    (updateControl_chip chip s).trace = s.trace ++ controlFrameEvents s := by
  obtain ⟨B, hB, _⟩ := updateControl_chip_spec chip s
  rw [hB]

end TLC5955

namespace TLC5955

theorem controlFrameBits_length (s : TLC5955) :
    (controlFrameBits s).length = 8 + 389 + 5 + 3 * 7 + 3 * 3 + s.LEDS_PER_CHIP * 3 * 7 := by
  simp only [controlFrameBits, List.length_append, bitsMSB_length, List.length_replicate,
    controlFieldBits_length]
  ring

theorem dataBits_controlFrameEvents (s : TLC5955) :
    dataBits (controlFrameEvents s) = dataBits (controlFrameData s) := by
  simp [controlFrameEvents, dataBits_append, modePulse, dataBits]

theorem demo_BC_le (c : Nat) (hc : c < 3) : demo._BC c ≤ 127 := by
  simp only [demo]; omega

theorem demo_DC_le (c : Nat) (hc : c < 3) : demo._DC c ≤ 127 := by
  simp only [demo]; omega

theorem demo_MC_le (c : Nat) (hc : c < 3) : demo._MC c ≤ 7 := by
  simp only [demo]; omega

end TLC5955

/-- C1. Control-frame layout. Let the number of LEDs per chip be a multiple of
eight (48 in particular) and let the settings lie within their field widths
(BC, DC at most 127, MC at most 7, function data below 32). Then one chip's
pass of `updateControl` adds to the hardware log the mode pulse, the opening
of the transaction, a run of pure data transfers and the closing of the
transaction, nothing else. Read as one bit string, most significant bit
first, the data is: the command byte 0x96, 389 zero bits, the 5 function
bits, BC[2], BC[1], BC[0] in 7 bits each, MC[2], MC[1], MC[0] in 3 bits each,
then LEDS_PER_CHIP repetitions of DC[2], DC[1], DC[0] in 7 bits each; and
every field is the binary numeral of the stored value. -/
theorem C1_control_frame_layout (s : TLC5955) (chip : Nat) (hL : 8 ∣ s.LEDS_PER_CHIP)
    (hBC : ∀ c, c < 3 → s._BC c ≤ 127) (hDC : ∀ c, c < 3 → s._DC c ≤ 127)
    (hMC : ∀ c, c < 3 → s._MC c ≤ 7) (hF : s._function_data < 32) :
    ∃ data : List Event,
      (TLC5955.updateControl_chip chip s).trace
          = s.trace ++ (TLC5955.modePulse s true ++ [Event.beginTransaction] ++ data
              ++ [Event.endTransaction])
      ∧ (∀ e ∈ data, e.isData = true)
      ∧ dataBits data
          = bitsMSB 8 0x96 ++ List.replicate 389 false
            ++ (bitsMSB 5 s._function_data
            ++ bitsMSB 7 (s._BC 2) ++ bitsMSB 7 (s._BC 1) ++ bitsMSB 7 (s._BC 0)
            ++ bitsMSB 3 (s._MC 2) ++ bitsMSB 3 (s._MC 1) ++ bitsMSB 3 (s._MC 0)
            ++ (List.replicate s.LEDS_PER_CHIP
                  (bitsMSB 7 (s._DC 2) ++ bitsMSB 7 (s._DC 1) ++ bitsMSB 7 (s._DC 0))).flatten)
      ∧ ofBitsMSB (bitsMSB 5 s._function_data) = s._function_data
      ∧ (∀ c, c < 3 → ofBitsMSB (bitsMSB 7 (s._BC c)) = s._BC c
            ∧ ofBitsMSB (bitsMSB 3 (s._MC c)) = s._MC c
            ∧ ofBitsMSB (bitsMSB 7 (s._DC c)) = s._DC c) := by
  refine ⟨TLC5955.controlFrameData s, ?_, TLC5955.controlFrameData_isData s, ?_, ?_, ?_⟩
  · rw [TLC5955.updateControl_chip_trace]; rfl
  · rw [TLC5955.dataBits_controlFrameData s hL]; rfl
  · rw [ofBitsMSB_bitsMSB]; exact Nat.mod_eq_of_lt (by omega)
  · intro c hc
    have h1 := hBC c hc
    have h2 := hMC c hc
    have h3 := hDC c hc
    refine ⟨?_, ?_, ?_⟩ <;> rw [ofBitsMSB_bitsMSB] <;> exact Nat.mod_eq_of_lt (by omega)

/-- Instance of C1 at the 48-LED driver `demo`. -/
theorem C1_control_frame_layout_witness :
    ∃ data : List Event,
      (TLC5955.updateControl_chip 0 TLC5955.demo).trace
          = TLC5955.demo.trace ++ (TLC5955.modePulse TLC5955.demo true ++ [Event.beginTransaction]
              ++ data ++ [Event.endTransaction])
      ∧ (∀ e ∈ data, e.isData = true)
      ∧ dataBits data
          = bitsMSB 8 0x96 ++ List.replicate 389 false
            ++ (bitsMSB 5 TLC5955.demo._function_data
            ++ bitsMSB 7 (TLC5955.demo._BC 2) ++ bitsMSB 7 (TLC5955.demo._BC 1)
            ++ bitsMSB 7 (TLC5955.demo._BC 0)
            ++ bitsMSB 3 (TLC5955.demo._MC 2) ++ bitsMSB 3 (TLC5955.demo._MC 1)
            ++ bitsMSB 3 (TLC5955.demo._MC 0)
            ++ (List.replicate TLC5955.demo.LEDS_PER_CHIP
                  (bitsMSB 7 (TLC5955.demo._DC 2) ++ bitsMSB 7 (TLC5955.demo._DC 1)
                    ++ bitsMSB 7 (TLC5955.demo._DC 0))).flatten)
      ∧ ofBitsMSB (bitsMSB 5 TLC5955.demo._function_data) = TLC5955.demo._function_data
      ∧ (∀ c, c < 3 → ofBitsMSB (bitsMSB 7 (TLC5955.demo._BC c)) = TLC5955.demo._BC c
            ∧ ofBitsMSB (bitsMSB 3 (TLC5955.demo._MC c)) = TLC5955.demo._MC c
            ∧ ofBitsMSB (bitsMSB 7 (TLC5955.demo._DC c)) = TLC5955.demo._DC c) :=
  C1_control_frame_layout TLC5955.demo 0 (by decide) TLC5955.demo_BC_le TLC5955.demo_DC_le
    TLC5955.demo_MC_le (by decide)

namespace TLC5955

theorem controlFrame_dataBits_length (chip : Nat) (s : TLC5955) (hL : 8 ∣ s.LEDS_PER_CHIP) :
    (dataBits ((updateControl_chip chip s).trace.drop s.trace.length)).length
      = 8 + 389 + 5 + 3 * 7 + 3 * 3 + s.LEDS_PER_CHIP * 3 * 7 := by
  rw [updateControl_chip_trace, List.drop_left, dataBits_controlFrameEvents,
    dataBits_controlFrameData s hL, controlFrameBits_length]

end TLC5955

/-- C3, as stated, fails. On the 48-LED driver `demo` one chip's control frame
carries 1440 data bits, not 769 (nor 768, leaving room for the mode bit), and
the sum 389 + 5 + 3x7 + 3x3 + 48x3x7 is 1432, not 769. -/
theorem C3_control_frame_length_counterexample :
    TLC5955.demo.LEDS_PER_CHIP = 48
    ∧ (dataBits ((TLC5955.updateControl_chip 0 TLC5955.demo).trace.drop
          TLC5955.demo.trace.length)).length = 1440
    ∧ ¬ ((dataBits ((TLC5955.updateControl_chip 0 TLC5955.demo).trace.drop
          TLC5955.demo.trace.length)).length = 769)
    ∧ ¬ (1 + (dataBits ((TLC5955.updateControl_chip 0 TLC5955.demo).trace.drop
          TLC5955.demo.trace.length)).length = 769)
    ∧ ¬ (389 + 5 + 3 * 7 + 3 * 3 + 48 * 3 * 7 = 769) := by
  have h := TLC5955.controlFrame_dataBits_length 0 TLC5955.demo (by decide)
  have h48 : TLC5955.demo.LEDS_PER_CHIP = 48 := rfl
  rw [h48] at h
  refine ⟨rfl, ?_, ?_, ?_, by decide⟩
  · rw [h]
  · rw [h]; decide
  · rw [h]; decide

/-- C3, amended. When the number of LEDs per chip is a multiple of eight, the
data of one chip's control frame is 8 command bits + 389 zero-padding bits +
5 function bits + 3x7 brightness bits + 3x3 max-current bits +
LEDS_PER_CHIP x 3 x 7 dot-correction bits long; that is 1440 bits for 48 LEDs
per chip, and together with the single mode bit it is 769 bits exactly when
LEDS_PER_CHIP is 16. -/
theorem C3_control_frame_length (s : TLC5955) (chip : Nat) (hL : 8 ∣ s.LEDS_PER_CHIP) :
    (dataBits ((TLC5955.updateControl_chip chip s).trace.drop s.trace.length)).length
        = 8 + 389 + 5 + 3 * 7 + 3 * 3 + s.LEDS_PER_CHIP * 3 * 7
    ∧ (s.LEDS_PER_CHIP = 48 →
        (dataBits ((TLC5955.updateControl_chip chip s).trace.drop s.trace.length)).length = 1440)
    ∧ (1 + (dataBits ((TLC5955.updateControl_chip chip s).trace.drop s.trace.length)).length = 769
        ↔ s.LEDS_PER_CHIP = 16) := by
  have h := TLC5955.controlFrame_dataBits_length chip s hL
  refine ⟨h, ?_, ?_⟩
  · intro h48; rw [h, h48]
  · rw [h]; omega

/-- Instance of the amended C3 at the 48-LED driver `demo`. -/
theorem C3_control_frame_length_witness :
    8 ∣ TLC5955.demo.LEDS_PER_CHIP
    ∧ (dataBits ((TLC5955.updateControl_chip 0 TLC5955.demo).trace.drop
          TLC5955.demo.trace.length)).length
        = 8 + 389 + 5 + 3 * 7 + 3 * 3 + TLC5955.demo.LEDS_PER_CHIP * 3 * 7 :=
  ⟨by decide, (C3_control_frame_length TLC5955.demo 0 (by decide)).1⟩

namespace TLC5955

theorem chipWords_length (s : TLC5955) (chip : Nat) : (s.chipWords chip).length = s.LEDS_PER_CHIP * 3 :=
  downList_flatten_length _ 3 _ (fun _ => rfl)

theorem grayscaleWords_length (s : TLC5955) :
    (grayscaleWords s).length = s._tlc_count * s.LEDS_PER_CHIP * 3 := by
  rw [grayscaleWords, downList_flatten_length _ (s.LEDS_PER_CHIP * 3) _ (chipWords_length s)]
  ring

theorem updateLeds_open_data (s : TLC5955) (out : Option ℚ) (hN : s._tlc_count ≤ 127)
    (hL : s.LEDS_PER_CHIP ≤ 127) (h : ¬ overCurrent s) :
    (((s.updateLeds out).2.2.trace).drop s.trace.length).filter Event.isData = grayscaleWords s := by
  rw [updateLeds_open s out hN hL h]
  simp only [emitAll, List.drop_left, List.filter_append, downList_flatten_filter,
    filter_isData_grayscaleFrame]
  simp [latchPulse, Event.isData, List.filter, grayscaleWords]

theorem demo_not_overCurrent : ¬ overCurrent demo := fun h => absurd h.1 (by decide)

end TLC5955

/-- C2. Grayscale-frame count and order. For a chip count of at most 127 (and
at most 127 LEDs per chip, 48 in particular), a call of `updateLeds` that the
current gate does not abort leaves the earlier log in place and adds, as its
only data transfers, the 16-bit words listed chip by chip in descending index,
within a chip LED by LED in descending index, within an LED slot 2, 1, 0, the
word of slot `k` of (chip, led) being
`_grayscale_data[chip][led][_rgb_order[chip][led][k]]`; there are exactly
chip count x LEDS_PER_CHIP x 3 of them. -/
theorem C2_grayscale_frame_order (s : TLC5955) (out : Option ℚ)
    (hN : s._tlc_count ≤ 127) (hL : s.LEDS_PER_CHIP ≤ 127)
    (hopen : ¬ (s.enforce_max_current = true ∧ s.getTotalCurrent > s.max_current_amps)) :
    ((s.updateLeds out).2.2.trace).take s.trace.length = s.trace
    ∧ (((s.updateLeds out).2.2.trace).drop s.trace.length).filter Event.isData
        = (downList s._tlc_count (fun chip =>
            (downList s.LEDS_PER_CHIP (fun led =>
              [Event.transfer16 (s._grayscale_data chip led (s._rgb_order chip led 2)),
               Event.transfer16 (s._grayscale_data chip led (s._rgb_order chip led 1)),
               Event.transfer16 (s._grayscale_data chip led (s._rgb_order chip led 0))])).flatten)).flatten
    ∧ ((((s.updateLeds out).2.2.trace).drop s.trace.length).filter Event.isData).length
        = s._tlc_count * s.LEDS_PER_CHIP * 3 := by
  have hdata := TLC5955.updateLeds_open_data s out hN hL hopen
  refine ⟨?_, ?_, ?_⟩
  · rw [TLC5955.updateLeds_open s out hN hL hopen]
    simp [TLC5955.emitAll]
  · rw [hdata]; rfl
  · rw [hdata, TLC5955.grayscaleWords_length]

/-- Instance of C2 at the two-chip, 48-LED driver `demo`, whose gate is off. -/
theorem C2_grayscale_frame_order_witness :
    TLC5955.demo._tlc_count ≤ 127 ∧ TLC5955.demo.LEDS_PER_CHIP ≤ 127
    ∧ ((((TLC5955.demo.updateLeds none).2.2.trace).drop TLC5955.demo.trace.length).filter
          Event.isData).length = TLC5955.demo._tlc_count * TLC5955.demo.LEDS_PER_CHIP * 3 :=
  ⟨by decide, by decide,
   (C2_grayscale_frame_order TLC5955.demo none (by decide) (by decide)
      (fun h => absurd h.1 (by decide))).2.2⟩

namespace TLC5955

theorem updateLedsAt_gate (s : TLC5955) (p : ℚ) (out : Option ℚ) (hL : s.LEDS_PER_CHIP ≤ 127) :
    (((s.updateLedsAt p out).1 = 1 ∧ (s.updateLedsAt p out).2.2.trace = s.trace)
        ↔ (s.enforce_max_current = true ∧ p > s.max_current_amps))
    ∧ ((s.enforce_max_current = true ∧ p > s.max_current_amps) →
        (s.updateLedsAt p out).1 = 1 ∧ (s.updateLedsAt p out).2.2 = s)
    ∧ (¬ (s.enforce_max_current = true ∧ p > s.max_current_amps) →
        (s.updateLedsAt p out).1 = 0
        ∧ (s.updateLedsAt p out).2.2.trace
            = s.trace ++ ((downList (toInt8 (s._tlc_count : Int)).toNat
                  (grayscaleFrameEvents s)).flatten
                ++ latchPulse s
                ++ [Event.analogWrite s._gsclk (if p = 0 then 0 else 1)]))
    ∧ (s.updateLedsAt p out).2.1 = out.map (fun _ => p)
    ∧ stored (s.updateLedsAt p out).2.2 = stored s := by
  by_cases hg : (s.enforce_max_current = true ∧ p > s.max_current_amps)
  · have h := updateLedsAt_gated s p out hg
    rw [h]
    exact ⟨⟨fun _ => hg, fun _ => ⟨rfl, rfl⟩⟩, fun _ => ⟨rfl, rfl⟩, fun hn => absurd hg hn, rfl, rfl⟩
  · have h := updateLedsAt_open s p out hL hg
    rw [h]
    refine ⟨⟨fun h1 => ?_, fun h1 => absurd h1 hg⟩, fun h1 => absurd h1 hg, fun _ => ⟨rfl, rfl⟩,
      rfl, rfl⟩
    have h01 : (0 : Int) = 1 := h1.1
    omega

end TLC5955

namespace TLC5955

theorem setRgbPinOrder_channels (rPos grPos bPos chip : Nat) (m : Nat) (t : TLC5955) :
    forUp m (fun channel s =>
        let s := { s with _rgb_order := write3 s._rgb_order chip channel 0 rPos }
        let s := { s with _rgb_order := write3 s._rgb_order chip channel 1 grPos }
        { s with _rgb_order := write3 s._rgb_order chip channel 2 bPos }) t
      = { t with _rgb_order := fun x y z =>
            if x = chip ∧ y < m ∧ z < 3 then pick3 rPos grPos bPos z else t._rgb_order x y z } := by
  induction m with
  | zero => simp [forUp]
  | succ m ih =>
    simp only [forUp, ih]
    congr 1
    funext x y z
    simp only [write3, pick3]
    split_ifs <;> first | rfl | omega

theorem setRgbPinOrder_chips_aux (rPos grPos bPos : Nat) (n : Nat) (t : TLC5955) :
    forDown n (fun chip s =>
      { s with _rgb_order := fun x y z =>
          if x = chip ∧ y < s.LEDS_PER_CHIP ∧ z < 3 then pick3 rPos grPos bPos z
          else s._rgb_order x y z }) t
      = { t with _rgb_order := fun x y z =>
            if x < n ∧ y < t.LEDS_PER_CHIP ∧ z < 3 then pick3 rPos grPos bPos z
            else t._rgb_order x y z } := by
  induction n generalizing t with
  | zero => simp [forDown]
  | succ n ih =>
    simp only [forDown, ih]
    congr 1
    funext x y z
    split_ifs <;> first | rfl | omega

theorem setRgbPinOrder_chips (rPos grPos bPos : Nat) (n : Nat) (t : TLC5955) :
    forDown n (fun chip s =>
      forUp s.LEDS_PER_CHIP (fun channel s =>
        let s := { s with _rgb_order := write3 s._rgb_order chip channel 0 rPos }
        let s := { s with _rgb_order := write3 s._rgb_order chip channel 1 grPos }
        { s with _rgb_order := write3 s._rgb_order chip channel 2 bPos }) s) t
      = { t with _rgb_order := fun x y z =>
            if x < n ∧ y < t.LEDS_PER_CHIP ∧ z < 3 then pick3 rPos grPos bPos z
            else t._rgb_order x y z } := by
  simp only [setRgbPinOrder_channels]
  exact setRgbPinOrder_chips_aux rPos grPos bPos n t

theorem setRgbPinOrder_eq (s : TLC5955) (rPos grPos bPos : Nat) :
    s.setRgbPinOrder rPos grPos bPos
      = { s with _rgb_order := fun x y z =>
            if x < (toInt8 ((s._tlc_count : Int) - 1) + 1).toNat ∧ y < s.LEDS_PER_CHIP ∧ z < 3
            then pick3 rPos grPos bPos z else s._rgb_order x y z } := by
  unfold setRgbPinOrder
  rw [if_pos (by decide), setRgbPinOrder_chips]

theorem chipLoopCount (n : Nat) (h : n ≤ 128) : (toInt8 ((n : Int) - 1) + 1).toNat = n := by
  unfold toInt8; omega

end TLC5955

theorem led_index (L n N : Nat) (hn : n < N * L) (hN : N ≤ 255) (hL : L ≤ 255) :
    toUInt8 ((toUInt16 ((n / L : Nat) : Int) : Nat) : Int) = n / L
    ∧ toUInt8 ((n : Int) - (L : Int) * ((n / L : Nat) : Int)) = n % L := by
  have hLpos : 0 < L := by
    rcases Nat.eq_zero_or_pos L with h | h
    · subst h; simp at hn
    · exact h
  have hq : n / L < N := (Nat.div_lt_iff_lt_mul hLpos).mpr hn
  have hr : n % L < L := Nat.mod_lt n hLpos
  have hsub : (n : Int) - (L : Int) * ((n / L : Nat) : Int) = ((n % L : Nat) : Int) := by
    have := Nat.div_add_mod n L
    have h2 : (L : Int) * ((n / L : Nat) : Int) + ((n % L : Nat) : Int) = (n : Int) := by
      exact_mod_cast this
    omega
  rw [hsub]
  generalize n / L = q at hq ⊢
  generalize n % L = r at hr ⊢
  have h16 : toUInt16 ((q : Nat) : Int) = q := by unfold toUInt16; omega
  refine ⟨?_, ?_⟩
  · rw [h16]; unfold toUInt8; omega
  · unfold toUInt8; omega

theorem downList_flatten_last {α : Type} (n : Nat) (f : Nat → List α) :
    (downList (n + 1) f).flatten = (downList n (fun i => f (i + 1))).flatten ++ f 0 := by
  induction n with
  | zero => simp [downList]
  | succ n ih =>
    rw [downList, List.flatten_cons, ih]
    simp [downList, List.append_assoc]

namespace TLC5955

theorem setRgbPinOrder_order (s : TLC5955) (rPos grPos bPos chip led c : Nat)
    (hN : s._tlc_count ≤ 128) (hchip : chip < s._tlc_count) (hled : led < s.LEDS_PER_CHIP)
    (hc : c < 3) :
    (s.setRgbPinOrder rPos grPos bPos)._rgb_order chip led c = pick3 rPos grPos bPos c := by
  rw [setRgbPinOrder_eq, chipLoopCount _ hN]
  simp [hchip, hled, hc]

theorem setRgbPinOrderSingle_order (s : TLC5955) (n rPos grPos bPos c : Nat)
    (hn : n < s._tlc_count * s.LEDS_PER_CHIP) (hN : s._tlc_count ≤ 255)
    (hL : s.LEDS_PER_CHIP ≤ 255) (hc : c < 3) :
    (s.setRgbPinOrderSingle n rPos grPos bPos)._rgb_order (n / s.LEDS_PER_CHIP)
        (n % s.LEDS_PER_CHIP) c = pick3 rPos grPos bPos c := by
  obtain ⟨h1, h2⟩ := led_index s.LEDS_PER_CHIP n s._tlc_count hn hN hL
  simp only [setRgbPinOrderSingle, h1, h2, write3, pick3]
  have : c = 0 ∨ c = 1 ∨ c = 2 := by omega
  rcases this with h | h | h <;> subst h <;> simp

theorem ledGroup_of_order (s t : TLC5955) (rPos grPos bPos chip led : Nat)
    (hgs : t._grayscale_data = s._grayscale_data)
    (ho : ∀ c, c < 3 → t._rgb_order chip led c = pick3 rPos grPos bPos c) :
    t.ledGroup chip led =
      [Event.transfer16 (s._grayscale_data chip led bPos),
       Event.transfer16 (s._grayscale_data chip led grPos),
       Event.transfer16 (s._grayscale_data chip led rPos)] := by
  simp [ledGroup, sentWord, hgs, ho 0 (by omega), ho 1 (by omega), ho 2 (by omega), pick3]

end TLC5955

namespace TLC5955

theorem updateLeds_after_setRgbPinOrder (s : TLC5955) (rPos grPos bPos : Nat) (out : Option ℚ)
    (hN : s._tlc_count ≤ 127) (hL : s.LEDS_PER_CHIP ≤ 127) (hopen : ¬ overCurrent s) :
    ((((s.setRgbPinOrder rPos grPos bPos).updateLeds out).2.2.trace).drop s.trace.length).filter
        Event.isData
      = (downList s._tlc_count (fun chip =>
          (downList s.LEDS_PER_CHIP (fun led =>
            [Event.transfer16 (s._grayscale_data chip led bPos),
             Event.transfer16 (s._grayscale_data chip led grPos),
             Event.transfer16 (s._grayscale_data chip led rPos)])).flatten)).flatten := by
  have hs : s.setRgbPinOrder rPos grPos bPos
      = { s with _rgb_order := (s.setRgbPinOrder rPos grPos bPos)._rgb_order } := by
    rw [setRgbPinOrder_eq]
  have hN2 : (s.setRgbPinOrder rPos grPos bPos)._tlc_count = s._tlc_count := by rw [hs]
  have hL2 : (s.setRgbPinOrder rPos grPos bPos).LEDS_PER_CHIP = s.LEDS_PER_CHIP := by rw [hs]
  have htr : (s.setRgbPinOrder rPos grPos bPos).trace = s.trace := by rw [hs]
  have hgs : (s.setRgbPinOrder rPos grPos bPos)._grayscale_data = s._grayscale_data := by rw [hs]
  have hopen2 : ¬ overCurrent (s.setRgbPinOrder rPos grPos bPos) := by
    rw [hs]; exact hopen
  have h := updateLeds_open_data (s.setRgbPinOrder rPos grPos bPos) out (by rw [hN2]; exact hN)
    (by rw [hL2]; exact hL) hopen2
  rw [htr] at h
  rw [h, grayscaleWords, hN2]
  congr 1
  apply downList_congr
  intro chip hchip
  rw [chipWords, hL2]
  congr 1
  apply downList_congr
  intro led hled
  exact ledGroup_of_order s _ rPos grPos bPos chip led hgs
    (fun c hc => setRgbPinOrder_order s rPos grPos bPos chip led c (by omega) hchip hled hc)

end TLC5955

/-- C5, as stated, fails for a cyclic permutation. On the driver `demo` every
LED holds red 1, green 2, blue 3. After `setRgbPinOrder(1, 2, 0)` the words
that `updateLeds` sends end with the group of LED 0 of chip 0, which is
1, 3, 2 for positions 2, 1, 0: position rPos = 1 carries the blue value 3,
not the red value 1. -/
theorem C5_remap_counterexample :
    TLC5955.demo._grayscale_data 0 0 0 = 1
    ∧ (TLC5955.demo.setRgbPinOrder 1 2 0).sentWord 0 0 1 = 3
    ∧ (∃ before : List Event,
        ((((TLC5955.demo.setRgbPinOrder 1 2 0).updateLeds none).2.2.trace).drop
            TLC5955.demo.trace.length).filter Event.isData
          = before ++ [Event.transfer16 1, Event.transfer16 3, Event.transfer16 2])
    ∧ ¬ ((TLC5955.demo.setRgbPinOrder 1 2 0).sentWord 0 0 1 = TLC5955.demo._grayscale_data 0 0 0) := by
  have ho : (TLC5955.demo.setRgbPinOrder 1 2 0)._rgb_order 0 0 1 = 2 :=
    TLC5955.setRgbPinOrder_order TLC5955.demo 1 2 0 0 0 1 (by decide) (by decide) (by decide)
      (by decide)
  have hgs : (TLC5955.demo.setRgbPinOrder 1 2 0)._grayscale_data = TLC5955.demo._grayscale_data := by
    rw [TLC5955.setRgbPinOrder_eq]
  have hw : (TLC5955.demo.setRgbPinOrder 1 2 0).sentWord 0 0 1 = 3 := by
    rw [TLC5955.sentWord, ho, hgs]; rfl
  refine ⟨rfl, hw, ?_, ?_⟩
  · rw [TLC5955.updateLeds_after_setRgbPinOrder TLC5955.demo 1 2 0 none (by decide) (by decide)
      TLC5955.demo_not_overCurrent]
    have h2 : TLC5955.demo._tlc_count = 1 + 1 := rfl
    have h48 : TLC5955.demo.LEDS_PER_CHIP = 47 + 1 := rfl
    rw [h2, downList_flatten_last 1, h48, downList_flatten_last 47]
    exact ⟨_, by rw [← List.append_assoc]; rfl⟩
  · rw [hw]; decide

/-- C5, amended. A remap entry names, for a physical transmission position,
the logical colour sent there. With at most 127 chips and 127 LEDs per chip
and the gate open, after `setRgbPinOrder(rPos, grPos, bPos)` the words of the
next `updateLeds` are, for every chip and LED in descending order, the values
of colours bPos, grPos, rPos (positions 2, 1, 0); after
`setRgbPinOrderSingle(n, rPos, grPos, bPos)` the group of LED `n` is the same
triple. When the triple is its own inverse (the identity or a swap of two
colours) the red value is therefore at position rPos, the green value at
position grPos and the blue value at position bPos. -/
theorem C5_remap_position_to_colour (s : TLC5955) (rPos grPos bPos n : Nat) (out : Option ℚ)
    (hN : s._tlc_count ≤ 127) (hL : s.LEDS_PER_CHIP ≤ 127)
    (hn : n < s._tlc_count * s.LEDS_PER_CHIP)
    (hopen : ¬ (s.enforce_max_current = true ∧ s.getTotalCurrent > s.max_current_amps)) :
    ((((s.setRgbPinOrder rPos grPos bPos).updateLeds out).2.2.trace).drop s.trace.length).filter
        Event.isData
      = (downList s._tlc_count (fun chip =>
          (downList s.LEDS_PER_CHIP (fun led =>
            [Event.transfer16 (s._grayscale_data chip led bPos),
             Event.transfer16 (s._grayscale_data chip led grPos),
             Event.transfer16 (s._grayscale_data chip led rPos)])).flatten)).flatten
    ∧ (s.setRgbPinOrderSingle n rPos grPos bPos).ledGroup (n / s.LEDS_PER_CHIP) (n % s.LEDS_PER_CHIP)
      = [Event.transfer16 (s._grayscale_data (n / s.LEDS_PER_CHIP) (n % s.LEDS_PER_CHIP) bPos),
         Event.transfer16 (s._grayscale_data (n / s.LEDS_PER_CHIP) (n % s.LEDS_PER_CHIP) grPos),
         Event.transfer16 (s._grayscale_data (n / s.LEDS_PER_CHIP) (n % s.LEDS_PER_CHIP) rPos)]
    ∧ ((rPos < 3 ∧ grPos < 3 ∧ bPos < 3 ∧ pick3 rPos grPos bPos rPos = 0
          ∧ pick3 rPos grPos bPos grPos = 1 ∧ pick3 rPos grPos bPos bPos = 2) →
        (∀ chip led, chip < s._tlc_count → led < s.LEDS_PER_CHIP →
          (s.setRgbPinOrder rPos grPos bPos).sentWord chip led rPos = s._grayscale_data chip led 0
          ∧ (s.setRgbPinOrder rPos grPos bPos).sentWord chip led grPos = s._grayscale_data chip led 1
          ∧ (s.setRgbPinOrder rPos grPos bPos).sentWord chip led bPos = s._grayscale_data chip led 2)
        ∧ (s.setRgbPinOrderSingle n rPos grPos bPos).sentWord (n / s.LEDS_PER_CHIP)
              (n % s.LEDS_PER_CHIP) rPos
            = s._grayscale_data (n / s.LEDS_PER_CHIP) (n % s.LEDS_PER_CHIP) 0
        ∧ (s.setRgbPinOrderSingle n rPos grPos bPos).sentWord (n / s.LEDS_PER_CHIP)
              (n % s.LEDS_PER_CHIP) grPos
            = s._grayscale_data (n / s.LEDS_PER_CHIP) (n % s.LEDS_PER_CHIP) 1
        ∧ (s.setRgbPinOrderSingle n rPos grPos bPos).sentWord (n / s.LEDS_PER_CHIP)
              (n % s.LEDS_PER_CHIP) bPos
            = s._grayscale_data (n / s.LEDS_PER_CHIP) (n % s.LEDS_PER_CHIP) 2) := by
  have hgs1 : (s.setRgbPinOrder rPos grPos bPos)._grayscale_data = s._grayscale_data := by
    rw [TLC5955.setRgbPinOrder_eq]
  have hgs2 : (s.setRgbPinOrderSingle n rPos grPos bPos)._grayscale_data = s._grayscale_data := rfl
  have ho2 := fun c hc => TLC5955.setRgbPinOrderSingle_order s n rPos grPos bPos c hn
    (by omega) (by omega) hc
  refine ⟨TLC5955.updateLeds_after_setRgbPinOrder s rPos grPos bPos out hN hL hopen,
    TLC5955.ledGroup_of_order s _ rPos grPos bPos _ _ hgs2 ho2, ?_⟩
  rintro ⟨hr, hg, hb, h0, h1, h2⟩
  refine ⟨?_, ?_, ?_, ?_⟩
  · intro chip led hchip hled
    have ho1 := fun c hc => TLC5955.setRgbPinOrder_order s rPos grPos bPos chip led c
      (by omega) hchip hled hc
    simp only [TLC5955.sentWord, hgs1, ho1 rPos hr, ho1 grPos hg, ho1 bPos hb, h0, h1, h2,
      and_self]
  · simp only [TLC5955.sentWord, hgs2, ho2 rPos hr, h0]
  · simp only [TLC5955.sentWord, hgs2, ho2 grPos hg, h1]
  · simp only [TLC5955.sentWord, hgs2, ho2 bPos hb, h2]

/-- Instance of the amended C5 at the driver `demo`, LED 50 (chip 1, LED 2),
with red and blue swapped. -/
theorem C5_remap_position_to_colour_witness :
    TLC5955.demo._tlc_count ≤ 127 ∧ TLC5955.demo.LEDS_PER_CHIP ≤ 127
    ∧ 50 < TLC5955.demo._tlc_count * TLC5955.demo.LEDS_PER_CHIP
    ∧ (TLC5955.demo.setRgbPinOrderSingle 50 2 1 0).ledGroup (50 / TLC5955.demo.LEDS_PER_CHIP)
          (50 % TLC5955.demo.LEDS_PER_CHIP)
      = [Event.transfer16 (TLC5955.demo._grayscale_data (50 / TLC5955.demo.LEDS_PER_CHIP)
            (50 % TLC5955.demo.LEDS_PER_CHIP) 0),
         Event.transfer16 (TLC5955.demo._grayscale_data (50 / TLC5955.demo.LEDS_PER_CHIP)
            (50 % TLC5955.demo.LEDS_PER_CHIP) 1),
         Event.transfer16 (TLC5955.demo._grayscale_data (50 / TLC5955.demo.LEDS_PER_CHIP)
            (50 % TLC5955.demo.LEDS_PER_CHIP) 2)] :=
  ⟨by decide, by decide, by decide,
   (C5_remap_position_to_colour TLC5955.demo 2 1 0 50 none (by decide) (by decide) (by decide)
      (fun h => absurd h.1 (by decide))).2.1⟩

namespace TLC5955

theorem getChannelValue_eq (s : TLC5955) (n c : Nat) (hc : c < 3)
    (hn : n < s._tlc_count * s.LEDS_PER_CHIP) (hN : s._tlc_count ≤ 255)
    (hL : s.LEDS_PER_CHIP ≤ 255) :
    s.getChannelValue (toUInt16 (n : Int)) c
      = s._grayscale_data (n / s.LEDS_PER_CHIP) (n % s.LEDS_PER_CHIP) c := by
  have hbound : s._tlc_count * s.LEDS_PER_CHIP ≤ 255 * 255 := Nat.mul_le_mul hN hL
  have h16 : toUInt16 (n : Int) = n := by unfold toUInt16; omega
  obtain ⟨h1, h2⟩ := led_index s.LEDS_PER_CHIP n s._tlc_count hn hN hL
  have hc3 : ¬ (c ≥ COLOR_CHANNEL_COUNT) := by simp only [COLOR_CHANNEL_COUNT]; omega
  simp only [getChannelValue, hc3, if_false, h16, h1, h2]

end TLC5955

/-- C6. Grayscale write/read round trip. The chip count and the number of
LEDs per chip being 8-bit quantities, for every LED number below
chip count x LEDS_PER_CHIP, all values r, g, b and any remap table, after
`setLed(led_number, r, g, b)` the accessor `getChannelValue(led_number, c)`
returns r, g, b for c = 0, 1, 2, exactly as written; after the single-value
`setLed(led_number, v)` it returns v for all three. -/
theorem C6_setLed_roundtrip (s : TLC5955) (led_number r g b v : Nat)
    (hN : s._tlc_count ≤ 255) (hL : s.LEDS_PER_CHIP ≤ 255)
    (hled : led_number < s._tlc_count * s.LEDS_PER_CHIP) :
    (s.setLed led_number r g b).getChannelValue (toUInt16 (led_number : Int)) 0 = r
    ∧ (s.setLed led_number r g b).getChannelValue (toUInt16 (led_number : Int)) 1 = g
    ∧ (s.setLed led_number r g b).getChannelValue (toUInt16 (led_number : Int)) 2 = b
    ∧ (s.setLed1 led_number v).getChannelValue (toUInt16 (led_number : Int)) 0 = v
    ∧ (s.setLed1 led_number v).getChannelValue (toUInt16 (led_number : Int)) 1 = v
    ∧ (s.setLed1 led_number v).getChannelValue (toUInt16 (led_number : Int)) 2 = v := by
  have e1 := fun c hc => TLC5955.getChannelValue_eq (s.setLed led_number r g b) led_number c hc
    hled hN hL
  have e2 := fun c hc => TLC5955.getChannelValue_eq (s.setLed1 led_number v) led_number c hc
    hled hN hL
  rw [e1 0 (by omega), e1 1 (by omega), e1 2 (by omega), e2 0 (by omega), e2 1 (by omega),
    e2 2 (by omega)]
  simp [TLC5955.setLed, TLC5955.setLed1, write3]

/-- Instance of C6 at the driver `demo`, LED 95 (the last one), with the
largest 16-bit values. -/
theorem C6_setLed_roundtrip_witness :
    TLC5955.demo._tlc_count ≤ 255 ∧ TLC5955.demo.LEDS_PER_CHIP ≤ 255
    ∧ 95 < TLC5955.demo._tlc_count * TLC5955.demo.LEDS_PER_CHIP
    ∧ (TLC5955.demo.setLed 95 65535 0 65534).getChannelValue (toUInt16 ((95 : Nat) : Int)) 0 = 65535
    ∧ (TLC5955.demo.setLed 95 65535 0 65534).getChannelValue (toUInt16 ((95 : Nat) : Int)) 2 = 65534 :=
  ⟨by decide, by decide, by decide,
   (C6_setLed_roundtrip TLC5955.demo 95 65535 0 65534 7 (by decide) (by decide) (by decide)).1,
   (C6_setLed_roundtrip TLC5955.demo 95 65535 0 65534 7 (by decide) (by decide) (by decide)).2.2.1⟩

/-- C7. Clamp on write. For all inputs, `setBrightnessControl` and
`setDotCorrection` store min(v, 127) and `setMaxCurrent` stores min(v, 7) for
each colour independently of the other two; the single-argument overloads
store that clamped value for all three colours; and the three getters copy
exactly the stored values of colours 0, 1, 2 into the caller's array. -/
theorem C7_clamp_on_write (s : TLC5955) (a b c v : Nat) (dst : Nat → Nat) :
    ((s.setBrightnessControl3 a b c)._BC 0 = min a 127
      ∧ (s.setBrightnessControl3 a b c)._BC 1 = min b 127
      ∧ (s.setBrightnessControl3 a b c)._BC 2 = min c 127)
    ∧ ((s.setDotCorrection3 a b c)._DC 0 = min a 127
      ∧ (s.setDotCorrection3 a b c)._DC 1 = min b 127
      ∧ (s.setDotCorrection3 a b c)._DC 2 = min c 127)
    ∧ ((s.setMaxCurrent3 a b c)._MC 0 = min a 7
      ∧ (s.setMaxCurrent3 a b c)._MC 1 = min b 7
      ∧ (s.setMaxCurrent3 a b c)._MC 2 = min c 7)
    ∧ (∀ k, k < 3 → (s.setBrightnessControl v)._BC k = min v 127
        ∧ (s.setDotCorrection v)._DC k = min v 127 ∧ (s.setMaxCurrent v)._MC k = min v 7)
    ∧ (∀ k, k < 3 → s.getBrightnessControl dst k = s._BC k
        ∧ s.getDotCorrection dst k = s._DC k ∧ s.getMaxCurrent dst k = s._MC k)
    ∧ (∀ k, k < 3 →
        (s.setBrightnessControl3 a b c).getBrightnessControl dst k = min (pick3 a b c k) 127
        ∧ (s.setDotCorrection3 a b c).getDotCorrection dst k = min (pick3 a b c k) 127
        ∧ (s.setMaxCurrent3 a b c).getMaxCurrent dst k = min (pick3 a b c k) 7) := by
  have hmin127 : ∀ x : Nat, (if x > 127 then 127 else x) = min x 127 := by
    intro x; split_ifs <;> omega
  have hmin7 : ∀ x : Nat, (if x > 7 then 7 else x) = min x 7 := by
    intro x; split_ifs <;> omega
  refine ⟨?_, ?_, ?_, ?_, ?_, ?_⟩
  · simp [TLC5955.setBrightnessControl3, write1, hmin127]
  · simp [TLC5955.setDotCorrection3, write1, hmin127]
  · simp [TLC5955.setMaxCurrent3, write1, hmin7]
  · intro k hk
    have : k = 0 ∨ k = 1 ∨ k = 2 := by omega
    rcases this with h | h | h <;> subst h <;>
      simp [TLC5955.setBrightnessControl, TLC5955.setBrightnessControl3, TLC5955.setDotCorrection,
        TLC5955.setDotCorrection3, TLC5955.setMaxCurrent, TLC5955.setMaxCurrent3, write1, hmin127,
        hmin7]
  · intro k hk
    have : k = 0 ∨ k = 1 ∨ k = 2 := by omega
    rcases this with h | h | h <;> subst h <;>
      simp [TLC5955.getBrightnessControl, TLC5955.getDotCorrection, TLC5955.getMaxCurrent, write1]
  · intro k hk
    have : k = 0 ∨ k = 1 ∨ k = 2 := by omega
    rcases this with h | h | h <;> subst h <;>
      simp [TLC5955.getBrightnessControl, TLC5955.getDotCorrection, TLC5955.getMaxCurrent, write1,
        TLC5955.setBrightnessControl3, TLC5955.setDotCorrection3, TLC5955.setMaxCurrent3, hmin127,
        hmin7, pick3]

theorem downList_const_flatten {α : Type} (n : Nat) (l : List α) :
    (downList n (fun _ => l)).flatten = (List.replicate n l).flatten := by
  rw [downList_const]

namespace TLC5955

theorem updateControl_chips_spec (n : Nat) (s : TLC5955) :
    ∃ B c, forDown n updateControl_chip s =
      { s with _buffer := B, _buffer_count := c,
               trace := s.trace ++ (List.replicate n (controlFrameEvents s)).flatten } := by
  induction n generalizing s with
  | zero => exact ⟨s._buffer, s._buffer_count, by simp [forDown]⟩
  | succ n ih =>
    obtain ⟨B1, h1, _⟩ := updateControl_chip_spec n s
    obtain ⟨B, c, h⟩ := ih (updateControl_chip n s)
    refine ⟨B, c, ?_⟩
    rw [forDown, h, h1]
    simp [List.replicate_succ, controlFrameEvents, controlFrameData, controlFieldBits, modePulse]

theorem updateControl_cycle_spec (i : Nat) (s : TLC5955) :
    ∃ B c, updateControl_cycle i s =
      { s with _buffer := B, _buffer_count := c, trace := s.trace ++ controlCycleEvents s } := by
  obtain ⟨B, c, h⟩ := updateControl_chips_spec s._tlc_count s
  refine ⟨B, c, ?_⟩
  rw [updateControl_cycle, h, latch_eq]
  simp [emitAll, controlCycleEvents, latchPulse]

theorem updateControl_loop_spec (n : Nat) (s : TLC5955) :
    ∃ B c, forUp n updateControl_cycle s =
      { s with _buffer := B, _buffer_count := c,
               trace := s.trace ++ (List.replicate n (controlCycleEvents s)).flatten } := by
  induction n with
  | zero => exact ⟨s._buffer, s._buffer_count, by simp [forUp]⟩
  | succ n ih =>
    obtain ⟨B1, c1, h1⟩ := ih
    obtain ⟨B, c, h⟩ := updateControl_cycle_spec n (forUp n updateControl_cycle s)
    refine ⟨B, c, ?_⟩
    rw [forUp, h, h1]
    have hrep : List.replicate (n + 1) (controlCycleEvents s)
        = List.replicate n (controlCycleEvents s) ++ [controlCycleEvents s] := by
      rw [List.replicate_succ']
    rw [hrep]
    simp [controlCycleEvents, controlFrameEvents, controlFrameData, controlFieldBits, modePulse,
      latchPulse]

theorem updateControl_spec (s : TLC5955) (R : Int) :
    ∃ B c, s.updateControl R =
      { s with _buffer := B, _buffer_count := c,
               trace := s.trace ++ (List.replicate R.toNat (controlCycleEvents s)).flatten } :=
  updateControl_loop_spec R.toNat s

end TLC5955

namespace TLC5955

theorem controlFrameEvents_no_delay (s : TLC5955) :
    ∀ e ∈ controlFrameEvents s, ∀ us, e ≠ Event.delayMicroseconds us := by
  intro e he us heq
  subst heq
  simp only [controlFrameEvents, List.mem_append, List.mem_singleton] at he
  rcases he with ((h | h) | h) | h
  · simp [modePulse] at h
  · cases h
  · exact absurd (controlFrameData_isData s _ h) (by simp [Event.isData])
  · cases h

end TLC5955

/-- C8. Repeat count. For every repeat count R, the events `updateControl(R)`
adds to the hardware log are max(R, 0) consecutive copies of the events
`updateControl(1)` adds; one copy is the control frames of all chips followed
by one latch pulse (the frames themselves contain no delay, hence no latch
pulse); the stored settings, grayscale and remap state are unchanged; and for
R at most 0 nothing is added. -/
theorem C8_repeat_count (s : TLC5955) (R : Int) :
    (s.updateControl R).trace
        = s.trace ++ (List.replicate R.toNat (((s.updateControl 1).trace).drop s.trace.length)).flatten
    ∧ ((s.updateControl 1).trace).drop s.trace.length
        = (List.replicate s._tlc_count (TLC5955.controlFrameEvents s)).flatten
            ++ TLC5955.latchPulse s
    ∧ (∀ e ∈ TLC5955.controlFrameEvents s, ∀ us, e ≠ Event.delayMicroseconds us)
    ∧ TLC5955.stored (s.updateControl R) = TLC5955.stored s
    ∧ (R ≤ 0 → (s.updateControl R).trace = s.trace) := by
  obtain ⟨B, c, h⟩ := TLC5955.updateControl_spec s R
  obtain ⟨B1, c1, h1⟩ := TLC5955.updateControl_spec s 1
  have hone : ((s.updateControl 1).trace).drop s.trace.length = TLC5955.controlCycleEvents s := by
    rw [h1]
    simp
  refine ⟨?_, ?_, TLC5955.controlFrameEvents_no_delay s, ?_, ?_⟩
  · rw [hone, h]
  · rw [hone]; rfl
  · rw [h]; rfl
  · intro hR
    rw [h]
    have : R.toNat = 0 := by omega
    simp [this]

theorem mem_downList {α : Type} (n : Nat) (f : Nat → α) (a : α) (h : a ∈ downList n f) :
    ∃ i, i < n ∧ a = f i := by
  induction n with
  | zero => simp [downList] at h
  | succ n ih =>
    simp only [downList, List.mem_cons] at h
    rcases h with h | h
    · exact ⟨n, Nat.lt_succ_self n, h⟩
    · obtain ⟨i, hi, hai⟩ := ih h
      exact ⟨i, Nat.lt_succ_of_lt hi, hai⟩

namespace TLC5955

theorem chipWords_isData (s : TLC5955) (chip : Nat) : ∀ e ∈ s.chipWords chip, e.isData = true := by
  intro e he
  simp only [chipWords, List.mem_flatten] at he
  obtain ⟨l, hl, hel⟩ := he
  obtain ⟨led, _, rfl⟩ := mem_downList _ _ _ hl
  simp only [ledGroup, List.mem_cons, List.mem_singleton, List.not_mem_nil, or_false] at hel
  rcases hel with h | h | h <;> rw [h] <;> rfl

theorem updateLeds_open_gen (s : TLC5955) (out : Option ℚ) (hL : s.LEDS_PER_CHIP ≤ 127)
    (h : ¬ overCurrent s) :
    updateLeds s out = (0, out.map (fun _ => s.getTotalCurrent),
      s.emitAll ((downList (toInt8 (s._tlc_count : Int)).toNat (grayscaleFrameEvents s)).flatten
        ++ latchPulse s
        ++ [Event.analogWrite s._gsclk (if s.getTotalCurrent = 0 then 0 else 1)])) :=
  updateLedsAt_open s s.getTotalCurrent out hL h

theorem clearLeds_chip_eq (chip : Nat) (s : TLC5955) (hL : s.LEDS_PER_CHIP ≤ 127) :
    clearLeds_chip chip s = s.emitAll (clearFrameEvents s) := by
  have h3 : (toInt8 (toInt8 (COLOR_CHANNEL_COUNT : Int) - 1) + 1).toNat = 3 := by decide
  have hin : ∀ (t : TLC5955), forDown 3 (fun _color_channel_index s => s.SPI_transfer16 0) t
      = t.emitAll (List.replicate 3 (Event.transfer16 0)) := by
    intro t
    simp [forDown, SPI_transfer16, emit, emitAll, List.replicate]
  have hout : ∀ (n : Nat) (t : TLC5955),
      forDown n (fun _led_channel_index s =>
        forDown 3 (fun _color_channel_index s => s.SPI_transfer16 0) s) t
      = t.emitAll (List.replicate (n * 3) (Event.transfer16 0)) := by
    intro n t
    simp only [hin]
    rw [forDown_emitAll (fun _ _ => List.replicate 3 (Event.transfer16 0)) (fun _ _ => rfl) n t,
      downList_const]
    congr 1
    induction n with
    | zero => simp
    | succ n ih =>
      rw [List.replicate_succ, List.flatten_cons, ih, ← List.replicate_add]
      congr 1
      ring
  unfold clearLeds_chip
  simp only [h3, hout, setControlModeBit_eq, SPI_beginTransaction, SPI_endTransaction,
    emit_eq_emitAll, emitAll_emitAll]
  have hL2 : (toInt8 (toInt8
      ((s.emitAll (modePulse s CONTROL_MODE_OFF ++ [Event.beginTransaction])).LEDS_PER_CHIP : Int)
        - 1) + 1).toNat
      = s.LEDS_PER_CHIP := toInt8_loop _ (by exact Nat.le_succ_of_le hL)
  rw [hL2]
  simp [clearFrameEvents, emitAll, CONTROL_MODE_OFF]

theorem clearLeds_eq (s : TLC5955) (hL : s.LEDS_PER_CHIP ≤ 127) :
    s.clearLeds = s.emitAll ((List.replicate (toInt8 (s._tlc_count : Int)).toNat
        (clearFrameEvents s)).flatten ++ latchPulse s) := by
  have h := forDown_emitAll_inv (fun t => t.LEDS_PER_CHIP ≤ 127) (fun _ _ h => h) clearLeds_chip
    (fun t _ => clearFrameEvents t) (fun i t ht => clearLeds_chip_eq i t ht)
    (fun _ _ => rfl) (toInt8 (s._tlc_count : Int)).toNat s hL
  rw [clearLeds, h, latch_eq, emitAll_emitAll, downList_const]
  rfl

theorem isFrame_control (s : TLC5955) : IsFrame s true (controlFrameEvents s) :=
  ⟨controlFrameData s, rfl, by simp [controlFrameData], controlFrameData_isData s⟩

theorem isFrame_grayscale (s : TLC5955) (chip : Nat) (hL1 : 1 ≤ s.LEDS_PER_CHIP) :
    IsFrame s false (grayscaleFrameEvents s chip) := by
  refine ⟨s.chipWords chip, rfl, ?_, chipWords_isData s chip⟩
  intro h
  have := congrArg List.length h
  rw [chipWords_length] at this
  simp at this
  omega

theorem isFrame_clear (s : TLC5955) (hL1 : 1 ≤ s.LEDS_PER_CHIP) :
    IsFrame s false (clearFrameEvents s) := by
  refine ⟨List.replicate (s.LEDS_PER_CHIP * 3) (Event.transfer16 0), rfl, ?_, ?_⟩
  · intro h
    have := congrArg List.length h
    simp at this
    omega
  · intro e he
    rw [List.eq_of_mem_replicate he]; rfl

end TLC5955

/-- C9. Mode pulse per frame. With between 1 and 127 LEDs per chip, the events
added by `updateControl`, by an `updateLeds` call that transmits, and by
`clearLeds` are exactly these. `updateControl(R)`: per repeat, the control
frame once for each of the `_tlc_count` chips, then the latch pulse.
`updateLeds`: the grayscale frame of each chip the chip loop visits, in
descending chip index, then the latch pulse and the gsclk write. `clearLeds`:
one zero frame for each chip the chip loop visits, then the latch pulse. The
chip loop of `updateLeds` and `clearLeds` visits `(int8_t)_tlc_count` chips,
that is every chip when the chip count is at most 127. Each of these frames
is one mode pulse (data line HIGH for the control frames, LOW for the
grayscale and zero frames), then the opening of the transaction, then a
non-empty run of data transfers and nothing else, then the closing of the
transaction: the pulse comes once per frame, before the frame's first data
transfer, with no data transfer and no latch pulse in between. -/
theorem C9_mode_pulse_per_frame (s : TLC5955) (R : Int) (out : Option ℚ)
    (hL1 : 1 ≤ s.LEDS_PER_CHIP) (hL : s.LEDS_PER_CHIP ≤ 127) :
    (TLC5955.IsFrame s true (TLC5955.controlFrameEvents s)
      ∧ (s.updateControl R).trace
          = s.trace ++ (List.replicate R.toNat
              ((List.replicate s._tlc_count (TLC5955.controlFrameEvents s)).flatten
                ++ TLC5955.latchPulse s)).flatten)
    ∧ ((∀ chip, TLC5955.IsFrame s false (TLC5955.grayscaleFrameEvents s chip))
      ∧ (¬ (s.enforce_max_current = true ∧ s.getTotalCurrent > s.max_current_amps) →
          (s.updateLeds out).2.2.trace
            = s.trace ++ ((downList (toInt8 (s._tlc_count : Int)).toNat
                  (TLC5955.grayscaleFrameEvents s)).flatten
                ++ TLC5955.latchPulse s
                ++ [Event.analogWrite s._gsclk (if s.getTotalCurrent = 0 then 0 else 1)])))
    ∧ (TLC5955.IsFrame s false (TLC5955.clearFrameEvents s)
      ∧ s.clearLeds.trace
          = s.trace ++ ((List.replicate (toInt8 (s._tlc_count : Int)).toNat
                (TLC5955.clearFrameEvents s)).flatten
              ++ TLC5955.latchPulse s))
    ∧ (s._tlc_count ≤ 127 → (toInt8 (s._tlc_count : Int)).toNat = s._tlc_count)
    ∧ (∀ e ∈ TLC5955.latchPulse s, e.isData = false ∧ e ≠ Event.spiEnd ∧ e ≠ Event.spiBegin) := by
  refine ⟨⟨TLC5955.isFrame_control s, ?_⟩, ⟨fun chip => TLC5955.isFrame_grayscale s chip hL1, ?_⟩,
    ⟨TLC5955.isFrame_clear s hL1, ?_⟩, fun hN => TLC5955.toInt8_small _ hN, ?_⟩
  · obtain ⟨B, c, h⟩ := TLC5955.updateControl_spec s R
    rw [h]; rfl
  · intro hopen
    rw [TLC5955.updateLeds_open_gen s out hL hopen]; rfl
  · rw [TLC5955.clearLeds_eq s hL]; rfl
  · intro e he
    simp only [TLC5955.latchPulse, List.mem_cons, List.mem_singleton, List.not_mem_nil,
      or_false] at he
    rcases he with h | h | h | h | h <;> subst h <;> simp [Event.isData]

/-- Instance of C9 at the 48-LED, two-chip driver `demo`, whose gate is off:
`updateControl(3)` sends three times two control frames and a latch pulse,
`updateLeds` the grayscale frames of chip 1 and chip 0, `clearLeds` two zero
frames. -/
theorem C9_mode_pulse_per_frame_witness :
    1 ≤ TLC5955.demo.LEDS_PER_CHIP ∧ TLC5955.demo.LEDS_PER_CHIP ≤ 127
    ∧ (TLC5955.demo.updateControl 3).trace
        = TLC5955.demo.trace ++ (List.replicate (3 : Int).toNat
            ((List.replicate TLC5955.demo._tlc_count
                (TLC5955.controlFrameEvents TLC5955.demo)).flatten
              ++ TLC5955.latchPulse TLC5955.demo)).flatten
    ∧ (TLC5955.demo.updateLeds none).2.2.trace
        = TLC5955.demo.trace ++ ((downList (toInt8 (TLC5955.demo._tlc_count : Int)).toNat
              (TLC5955.grayscaleFrameEvents TLC5955.demo)).flatten
            ++ TLC5955.latchPulse TLC5955.demo
            ++ [Event.analogWrite TLC5955.demo._gsclk
                  (if TLC5955.demo.getTotalCurrent = 0 then 0 else 1)])
    ∧ TLC5955.IsFrame TLC5955.demo false (TLC5955.clearFrameEvents TLC5955.demo)
    ∧ TLC5955.demo.clearLeds.trace
        = TLC5955.demo.trace ++ ((List.replicate (toInt8 (TLC5955.demo._tlc_count : Int)).toNat
              (TLC5955.clearFrameEvents TLC5955.demo)).flatten
            ++ TLC5955.latchPulse TLC5955.demo)
    ∧ (toInt8 (TLC5955.demo._tlc_count : Int)).toNat = 2 :=
  ⟨by decide, by decide,
   (C9_mode_pulse_per_frame TLC5955.demo 3 none (by decide) (by decide)).1.2,
   (C9_mode_pulse_per_frame TLC5955.demo 3 none (by decide) (by decide)).2.1.2
      (fun h => absurd h.1 (by decide)),
   (C9_mode_pulse_per_frame TLC5955.demo 3 none (by decide) (by decide)).2.2.1.1,
   (C9_mode_pulse_per_frame TLC5955.demo 3 none (by decide) (by decide)).2.2.1.2,
   by decide⟩

theorem packBytes_take (m : Nat) :
    ∀ bs : List Bool, packBytes (bs.take m) = (packBytes bs).take (m / 8) := by
  induction m using Nat.strong_induction_on with
  | _ m ih =>
    intro bs
    by_cases hm : m < 8
    · have h0 : m / 8 = 0 := Nat.div_eq_of_lt hm
      rw [h0, List.take_zero, packBytes_short]
      rw [List.length_take]; omega
    · by_cases hb : bs.length < 8
      · rw [List.take_of_length_le (by omega), packBytes_short _ hb]
        simp
      · have hlen : 8 ≤ (bs.take m).length := by rw [List.length_take]; omega
        have hdiv : m / 8 = (m - 8) / 8 + 1 := by omega
        have h1 : (bs.take m).take 8 = bs.take 8 := by
          rw [List.take_take]; congr 1; omega
        have h2 : (bs.take m).drop 8 = (bs.drop 8).take (m - 8) := by
          rw [List.drop_take]
        rw [packBytes_long _ hlen, packBytes_long bs (by omega), h1, h2, ih (m - 8) (by omega),
          hdiv, List.take_succ_cons]

theorem packBytes_get (j : Nat) :
    ∀ (bs : List Bool) (k : Nat), bs.length = 8 * k → j < k →
      (packBytes bs)[j]? = some (ofBitsMSB ((bs.drop (8 * j)).take 8)) := by
  induction j with
  | zero =>
    intro bs k hlen hj
    rw [packBytes_long bs (by omega)]
    simp
  | succ j ih =>
    intro bs k hlen hj
    have hdrop : (bs.drop 8).length = 8 * (k - 1) := by rw [List.length_drop]; omega
    rw [packBytes_long bs (by omega), List.getElem?_cons_succ, ih (bs.drop 8) (k - 1) hdrop (by omega),
      List.drop_drop]
    congr 4
    ring

namespace TLC5955

theorem pushAll_stored (s : TLC5955) (xs : List Nat) : stored (pushAll s xs) = stored s := by
  have h := pushAll_inv stored (fun t x => by
    unfold setBuffer SPI_transfer emit stored
    simp only
    split <;> rfl) xs s
  exact h

end TLC5955

/-- C10. Bit packer. Starting from `_buffer_count = 7` and any content of
`_buffer`, pushing a sequence of 8k arguments through `setBuffer` (a non-zero
argument counting as 1) hands exactly k bytes to the transport; after the
first m pushes exactly m / 8 (rounded down) of them have been handed over, so
each byte leaves right after its eighth push and not before; byte j has the
pushes 8j .. 8j+7 as its binary digits, most significant first (first push in
bit 7, eighth in bit 0); and whenever something was pushed (k at least 1) the
packer ends reset, `_buffer = 0` and `_buffer_count = 7`. With no push at all
no line of `setBuffer` runs and the driver is left as it was. Nothing else in
the driver changes. -/
theorem C10_bit_packer (s : TLC5955) (args : List Nat) (k : Nat)
    (hc : s._buffer_count = 7) (hlen : args.length = 8 * k) :
    (s.pushAll args).trace
        = s.trace ++ (packBytes (args.map (fun x => decide (x ≠ 0)))).map Event.transfer
    ∧ (packBytes (args.map (fun x => decide (x ≠ 0)))).length = k
    ∧ (∀ m, m ≤ args.length →
        (s.pushAll (args.take m)).trace
          = s.trace ++ ((packBytes (args.map (fun x => decide (x ≠ 0)))).take (m / 8)).map
              Event.transfer)
    ∧ (∀ j, j < k →
        ∃ byte, (packBytes (args.map (fun x => decide (x ≠ 0))))[j]? = some byte
          ∧ byte = ofBitsMSB (((args.map (fun x => decide (x ≠ 0))).drop (8 * j)).take 8)
          ∧ bitsMSB 8 byte = ((args.map (fun x => decide (x ≠ 0))).drop (8 * j)).take 8)
    ∧ (s.pushAll args)._buffer_count = 7
    ∧ (1 ≤ k → (s.pushAll args)._buffer = 0)
    ∧ (k = 0 → s.pushAll args = s)
    ∧ TLC5955.stored (s.pushAll args) = TLC5955.stored s := by
  have hbl : (args.map (fun x => decide (x ≠ 0))).length = 8 * k := by
    rw [List.length_map, hlen]
  obtain ⟨B, hB, hB0, _⟩ := TLC5955.pushAll_spec args.length args s rfl hc
  refine ⟨?_, packBytes_length k _ hbl, ?_, ?_, ?_, ?_, ?_, TLC5955.pushAll_stored s args⟩
  · rw [hB]
  · intro m _
    obtain ⟨B2, hB2, _, _⟩ := TLC5955.pushAll_spec (args.take m).length (args.take m) s rfl hc
    rw [hB2, List.map_take, packBytes_take]
  · intro j hj
    refine ⟨_, packBytes_get j _ k hbl hj, rfl, ?_⟩
    apply bitsMSB_ofBitsMSB_eight
    rw [List.length_take, List.length_drop, hbl]
    omega
  · rw [hB, hlen]
    simp
  · intro hk
    rw [hB]
    exact hB0 (by rw [hlen]; omega) (by intro h; rw [h] at hlen; simp at hlen; omega)
  · intro hk
    have : args = [] := List.length_eq_zero.mp (by omega)
    rw [this]; rfl

/-- Instance of C10: sixteen pushes into the driver `demo`, whose accumulator
holds stale content. -/
theorem C10_bit_packer_witness :
    TLC5955.demo._buffer_count = 7
    ∧ [1, 0, 0, 1, 0, 1, 1, 0, 0, 0, 0, 0, 0, 64, 0, 255].length = 8 * 2
    ∧ (TLC5955.demo.pushAll [1, 0, 0, 1, 0, 1, 1, 0, 0, 0, 0, 0, 0, 64, 0, 255])._buffer = 0
    ∧ (TLC5955.demo.pushAll [1, 0, 0, 1, 0, 1, 1, 0, 0, 0, 0, 0, 0, 64, 0, 255])._buffer_count = 7 :=
  ⟨rfl, rfl,
   (C10_bit_packer TLC5955.demo [1, 0, 0, 1, 0, 1, 1, 0, 0, 0, 0, 0, 0, 64, 0, 255] 2 rfl rfl).2.2.2.2.2.1
      (by decide),
   (C10_bit_packer TLC5955.demo [1, 0, 0, 1, 0, 1, 1, 0, 0, 0, 0, 0, 0, 64, 0, 255] 2 rfl rfl).2.2.2.2.1⟩

/-- C11. Mode-signal protocol. For each mode, `setControlModeBit` adds exactly
these events to the hardware log, in this order: latch line LOW, transport
suspended, data line and clock line made digital outputs, data line HIGH for
the control mode and LOW for the grayscale mode, clock line LOW, HIGH, LOW
(one pulse), transport resumed; and it changes nothing else in the driver, in
particular no grayscale, remap or control-setting state. -/
theorem C11_mode_signal_protocol (s : TLC5955) (is_control_mode : Bool) :
    s.setControlModeBit is_control_mode
        = { s with trace := s.trace ++
              [Event.digitalWrite s._gslat false, Event.spiEnd,
               Event.pinModeOutput s._spi_mosi, Event.pinModeOutput s._spi_clk,
               Event.digitalWrite s._spi_mosi is_control_mode,
               Event.digitalWrite s._spi_clk false, Event.digitalWrite s._spi_clk true,
               Event.digitalWrite s._spi_clk false, Event.spiBegin] }
    ∧ TLC5955.stored (s.setControlModeBit is_control_mode) = TLC5955.stored s
    ∧ CONTROL_MODE_ON = true ∧ CONTROL_MODE_OFF = false := by
  have h := TLC5955.setControlModeBit_eq s is_control_mode
  refine ⟨?_, ?_, rfl, rfl⟩
  · rw [h]; rfl
  · rw [h]; rfl

namespace TLC5955

end TLC5955

theorem forUp_add_mod (g : Nat → Nat) (m : Nat) (acc : Nat)
    (h : acc + ∑ i ∈ Finset.range m, g i < 2 ^ 32) :
    forUp m (fun led acc => (acc + g led) % 2 ^ 32) acc = acc + ∑ i ∈ Finset.range m, g i := by
  induction m with
  | zero => simp [forUp]
  | succ m ih =>
    rw [Finset.sum_range_succ] at h
    rw [forUp, ih (by omega), Finset.sum_range_succ, Nat.mod_eq_of_lt (by omega)]
    omega

theorem forUp_add_mod_nested (g : Nat → Nat → Nat) (L n : Nat) (acc : Nat)
    (h : acc + ∑ chip ∈ Finset.range n, ∑ led ∈ Finset.range L, g chip led < 2 ^ 32) :
    forUp n (fun chip acc => forUp L (fun led acc => (acc + g chip led) % 2 ^ 32) acc) acc
      = acc + ∑ chip ∈ Finset.range n, ∑ led ∈ Finset.range L, g chip led := by
  induction n with
  | zero => simp [forUp]
  | succ n ih =>
    rw [Finset.sum_range_succ] at h
    rw [forUp, ih (by omega), forUp_add_mod (g n) L _ (by omega), Finset.sum_range_succ]
    omega

theorem sum_range_le (f : Nat → Nat) (n b : Nat) (h : ∀ i, i < n → f i ≤ b) :
    ∑ i ∈ Finset.range n, f i ≤ n * b := by
  induction n with
  | zero => simp
  | succ n ih =>
    rw [Finset.sum_range_succ]
    have h1 := ih (fun i hi => h i (Nat.lt_succ_of_lt hi))
    have h2 := h n (Nat.lt_succ_self n)
    nlinarith

namespace TLC5955

theorem channelSum_le (s : TLC5955) (c : Nat)
    (hgs : ∀ chip led, chip < s._tlc_count → led < s.LEDS_PER_CHIP →
      s._grayscale_data chip led c ≤ 65535) :
    channelSum s c ≤ s._tlc_count * s.LEDS_PER_CHIP * 65535 := by
  unfold channelSum
  have h := sum_range_le (fun chip => ∑ led ∈ Finset.range s.LEDS_PER_CHIP,
      s._grayscale_data chip led c) s._tlc_count (s.LEDS_PER_CHIP * 65535)
    (fun chip hchip => sum_range_le _ _ _ (fun led hled => hgs chip led hchip hled))
  calc _ ≤ s._tlc_count * (s.LEDS_PER_CHIP * 65535) := h
    _ = s._tlc_count * s.LEDS_PER_CHIP * 65535 := by ring

theorem full_scale_bound (N L : Nat) (hN : N ≤ 255) (hL : L ≤ 255) : N * L * 65535 < 2 ^ 32 := by
  have h : N * L ≤ 255 * 255 := Nat.mul_le_mul hN hL
  omega

theorem totalCurrent_channel_eq (s : TLC5955) (c : Nat) (h : channelSum s c < 2 ^ 32) :
    s.totalCurrent_channel c = channelSum s c := by
  unfold totalCurrent_channel
  rw [forUp_add_mod_nested (fun chip led => s._grayscale_data chip led c) s.LEDS_PER_CHIP
    s._tlc_count 0 (by simpa [channelSum] using h)]
  simp [channelSum]

theorem getTotalCurrent_eq (s : TLC5955) :
    s.getTotalCurrent
      = (s.totalCurrent_channel 0 : ℚ) * channelCurrent s 0 / 65535
        + (s.totalCurrent_channel 1 : ℚ) * channelCurrent s 1 / 65535
        + (s.totalCurrent_channel 2 : ℚ) * channelCurrent s 2 / 65535 := by
  simp only [getTotalCurrent, COLOR_CHANNEL_COUNT, forUp, channelCurrent]
  norm_num

end TLC5955

namespace TLC5955

theorem channel_scale (s : TLC5955) (c : Nat) (K : ℚ) :
    ∑ chip ∈ Finset.range s._tlc_count, ∑ led ∈ Finset.range s.LEDS_PER_CHIP,
        ((s._grayscale_data chip led c : ℚ) / 65535 * K)
      = (channelSum s c : ℚ) * K / 65535 := by
  unfold channelSum
  push_cast
  rw [Finset.sum_mul, Finset.sum_div]
  apply Finset.sum_congr rfl
  intro chip _
  rw [Finset.sum_mul, Finset.sum_div]
  apply Finset.sum_congr rfl
  intro led _
  ring

theorem getTotalCurrent_exact (s : TLC5955) (hN : s._tlc_count ≤ 255) (hL : s.LEDS_PER_CHIP ≤ 255)
    (hgs : ∀ chip led c, chip < s._tlc_count → led < s.LEDS_PER_CHIP → c < 3 →
      s._grayscale_data chip led c ≤ 65535) :
    s.getTotalCurrent
      = (channelSum s 0 : ℚ) * channelCurrent s 0 / 65535
        + (channelSum s 1 : ℚ) * channelCurrent s 1 / 65535
        + (channelSum s 2 : ℚ) * channelCurrent s 2 / 65535 := by
  have hb := full_scale_bound s._tlc_count s.LEDS_PER_CHIP hN hL
  have h := fun c (hc : c < 3) => totalCurrent_channel_eq s c
    (lt_of_le_of_lt (channelSum_le s c (fun chip led h1 h2 => hgs chip led c h1 h2 hc)) hb)
  rw [getTotalCurrent_eq, h 0 (by omega), h 1 (by omega), h 2 (by omega)]

theorem getTotalCurrent_per_led (s : TLC5955) (hN : s._tlc_count ≤ 255)
    (hL : s.LEDS_PER_CHIP ≤ 255)
    (hgs : ∀ chip led c, chip < s._tlc_count → led < s.LEDS_PER_CHIP → c < 3 →
      s._grayscale_data chip led c ≤ 65535)
    (F : Nat → Nat → Nat → ℚ)
    (hF : ∀ chip led c, F chip led c
      = (s._grayscale_data chip led c : ℚ) / 65535 * channelCurrent s c) :
    s.getTotalCurrent
      = ∑ chip ∈ Finset.range s._tlc_count, ∑ led ∈ Finset.range s.LEDS_PER_CHIP,
          ∑ c ∈ Finset.range 3, F chip led c := by
  rw [getTotalCurrent_exact s hN hL hgs]
  simp only [Finset.sum_range_succ, Finset.sum_range_zero, zero_add, hF, Finset.sum_add_distrib,
    channel_scale]

end TLC5955

/-- C14. Sum-then-scale equals the per-LED definition. Over exact rational
arithmetic, for every state whose chip count and LEDS_PER_CHIP are 8-bit
quantities and whose grayscale values are 16-bit, the value `getTotalCurrent`
computes equals the sum over all chips, LEDs and colours c of
(grayscale / 65535) x maxCurrentValues[MC[c]] x (0.1 + 0.9 x BC[c] / 127)
x (0.262 + 0.738 x DC[c] / 127), and equally the sum over every LED of the
three currents `getLedCurrents` returns for that LED's grayscale triple. -/
theorem C14_sum_then_scale (s : TLC5955) (hN : s._tlc_count ≤ 255) (hL : s.LEDS_PER_CHIP ≤ 255)
    (hgs : ∀ chip led c, chip < s._tlc_count → led < s.LEDS_PER_CHIP → c < 3 →
      s._grayscale_data chip led c ≤ 65535) :
    s.getTotalCurrent
        = ∑ chip ∈ Finset.range s._tlc_count, ∑ led ∈ Finset.range s.LEDS_PER_CHIP,
            ∑ c ∈ Finset.range 3,
              ((s._grayscale_data chip led c : ℚ) / 65535) * s.maxCurrentValues (s._MC c)
                * (0.1 + 0.9 * (s._BC c : ℚ) / 127) * (0.262 + 0.738 * (s._DC c : ℚ) / 127)
    ∧ s.getTotalCurrent
        = ∑ chip ∈ Finset.range s._tlc_count, ∑ led ∈ Finset.range s.LEDS_PER_CHIP,
            ∑ c ∈ Finset.range 3, s.getLedCurrents (fun k => s._grayscale_data chip led k) c := by
  refine ⟨?_, ?_⟩
  · apply TLC5955.getTotalCurrent_per_led s hN hL hgs
    intro chip led c
    simp only [TLC5955.channelCurrent]
    ring
  · apply TLC5955.getTotalCurrent_per_led s hN hL hgs
    intro chip led c
    simp only [TLC5955.channelCurrent, TLC5955.getLedCurrents]
    ring

/-- Instance of C14 at the driver `demo`, whose grayscale values are 1, 2, 3. -/
theorem C14_sum_then_scale_witness :
    TLC5955.demo._tlc_count ≤ 255 ∧ TLC5955.demo.LEDS_PER_CHIP ≤ 255
    ∧ (∀ chip led c, chip < TLC5955.demo._tlc_count → led < TLC5955.demo.LEDS_PER_CHIP → c < 3 →
        TLC5955.demo._grayscale_data chip led c ≤ 65535)
    ∧ TLC5955.demo.getTotalCurrent
        = ∑ chip ∈ Finset.range TLC5955.demo._tlc_count,
            ∑ led ∈ Finset.range TLC5955.demo.LEDS_PER_CHIP,
              ∑ c ∈ Finset.range 3,
                TLC5955.demo.getLedCurrents (fun k => TLC5955.demo._grayscale_data chip led k) c :=
  ⟨by decide, by decide, fun chip led c _ _ hc => by simp only [TLC5955.demo]; omega,
   (C14_sum_then_scale TLC5955.demo (by decide) (by decide)
      (fun chip led c _ _ hc => by simp only [TLC5955.demo]; omega)).2⟩

namespace TLC5955

theorem channelSum_full (s : TLC5955) (c : Nat)
    (hgs : ∀ chip led, chip < s._tlc_count → led < s.LEDS_PER_CHIP →
      s._grayscale_data chip led c = 65535) :
    channelSum s c = s._tlc_count * s.LEDS_PER_CHIP * 65535 := by
  unfold channelSum
  have h1 : ∀ chip ∈ Finset.range s._tlc_count,
      ∑ led ∈ Finset.range s.LEDS_PER_CHIP, s._grayscale_data chip led c
        = s.LEDS_PER_CHIP * 65535 := by
    intro chip hchip
    rw [Finset.sum_congr rfl (fun led hled =>
      hgs chip led (Finset.mem_range.mp hchip) (Finset.mem_range.mp hled))]
    simp
  rw [Finset.sum_congr rfl h1]
  simp
  ring

theorem full_scale_total (s : TLC5955) (hN : s._tlc_count ≤ 255) (hL : s.LEDS_PER_CHIP ≤ 255)
    (hMC : ∀ c, c < 3 → s._MC c = 7) (hBC : ∀ c, c < 3 → s._BC c = 127)
    (hDC : ∀ c, c < 3 → s._DC c = 127)
    (hgs : ∀ chip led c, chip < s._tlc_count → led < s.LEDS_PER_CHIP → c < 3 →
      s._grayscale_data chip led c = 65535) :
    s.getTotalCurrent
      = ((s._tlc_count * s.LEDS_PER_CHIP : Nat) : ℚ)
          * (s.maxCurrentValues 7 + s.maxCurrentValues 7 + s.maxCurrentValues 7) := by
  have hsum := fun c (hc : c < 3) => channelSum_full s c
    (fun chip led h1 h2 => hgs chip led c h1 h2 hc)
  rw [getTotalCurrent_exact s hN hL (fun chip led c h1 h2 hc => le_of_eq (hgs chip led c h1 h2 hc)),
    hsum 0 (by omega), hsum 1 (by omega), hsum 2 (by omega)]
  simp only [channelCurrent, hMC 0 (by omega), hMC 1 (by omega), hMC 2 (by omega),
    hBC 0 (by omega), hBC 1 (by omega), hBC 2 (by omega), hDC 0 (by omega), hDC 1 (by omega),
    hDC 2 (by omega)]
  push_cast
  ring

end TLC5955

/-- C13, as stated, fails as soon as there is more than one LED. The driver
`demoFull` has 2 chips of 48 LEDs, every setting at full scale and every
grayscale value 65535; its lookup table gives maxCurrentValues[7] = 7. The
total current is 2016 = 96 x 21, not 21 = 7 + 7 + 7. -/
theorem C13_full_scale_counterexample :
    TLC5955.demoFull.getTotalCurrent = 2016
    ∧ TLC5955.demoFull.maxCurrentValues 7 + TLC5955.demoFull.maxCurrentValues 7
        + TLC5955.demoFull.maxCurrentValues 7 = 21
    ∧ ¬ (TLC5955.demoFull.getTotalCurrent
          = TLC5955.demoFull.maxCurrentValues 7 + TLC5955.demoFull.maxCurrentValues 7
            + TLC5955.demoFull.maxCurrentValues 7) := by
  have h := TLC5955.full_scale_total TLC5955.demoFull (by decide) (by decide)
    (fun _ _ => rfl) (fun _ _ => rfl) (fun _ _ => rfl) (fun _ _ _ _ _ _ => rfl)
  have h7 : TLC5955.demoFull.maxCurrentValues 7 = 7 := by
    simp [TLC5955.demoFull, TLC5955.demo]
  have hNL : ((TLC5955.demoFull._tlc_count * TLC5955.demoFull.LEDS_PER_CHIP : Nat) : ℚ) = 96 := by
    simp [TLC5955.demoFull, TLC5955.demo]
  rw [h7, hNL] at h
  rw [h, h7]
  norm_num

/-- C13, amended. Over exact rational arithmetic, for chip count and
LEDS_PER_CHIP 8-bit quantities, with MaxCurrent = [7,7,7],
BrightnessControl = [127,127,127], DotCorrection = [127,127,127] and every
grayscale value equal to 65535, each of the two scale factors evaluates to
exactly 1 and `getTotalCurrent` returns chip count x LEDS_PER_CHIP times the
sum of the three per-channel max currents from the lookup table. It equals
that sum itself if and only if chip count x LEDS_PER_CHIP = 1 (a driver with
a single LED) or the sum is zero. -/
theorem C13_full_scale_current (s : TLC5955) (hN : s._tlc_count ≤ 255)
    (hL : s.LEDS_PER_CHIP ≤ 255)
    (hMC : ∀ c, c < 3 → s._MC c = 7) (hBC : ∀ c, c < 3 → s._BC c = 127)
    (hDC : ∀ c, c < 3 → s._DC c = 127)
    (hgs : ∀ chip led c, chip < s._tlc_count → led < s.LEDS_PER_CHIP → c < 3 →
      s._grayscale_data chip led c = 65535) :
    (∀ c, c < 3 → (0.1 + 0.9 * (s._BC c : ℚ) / 127 = 1)
        ∧ (0.262 + 0.738 * (s._DC c : ℚ) / 127 = 1))
    ∧ s.getTotalCurrent
        = ((s._tlc_count * s.LEDS_PER_CHIP : Nat) : ℚ)
            * (s.maxCurrentValues 7 + s.maxCurrentValues 7 + s.maxCurrentValues 7)
    ∧ (s.getTotalCurrent
          = s.maxCurrentValues 7 + s.maxCurrentValues 7 + s.maxCurrentValues 7
        ↔ (s._tlc_count * s.LEDS_PER_CHIP = 1
            ∨ s.maxCurrentValues 7 + s.maxCurrentValues 7 + s.maxCurrentValues 7 = 0)) := by
  have h := TLC5955.full_scale_total s hN hL hMC hBC hDC hgs
  refine ⟨?_, h, ?_⟩
  · intro c hc
    rw [hBC c hc, hDC c hc]
    constructor <;> norm_num
  · rw [h]
    generalize s.maxCurrentValues 7 + s.maxCurrentValues 7 + s.maxCurrentValues 7 = S
    generalize s._tlc_count * s.LEDS_PER_CHIP = n
    constructor
    · intro he
      by_cases hS : S = 0
      · exact Or.inr hS
      · have h1 : (n : ℚ) = 1 := mul_right_cancel₀ hS (he.trans (one_mul S).symm)
        exact Or.inl (by exact_mod_cast h1)
    · rintro (h1 | h0)
      · rw [h1]; simp
      · rw [h0]; simp

/-- Instance of the amended C13 at the full-scale driver `demoFull`. -/
theorem C13_full_scale_current_witness :
    TLC5955.demoFull._tlc_count ≤ 255 ∧ TLC5955.demoFull.LEDS_PER_CHIP ≤ 255
    ∧ (∀ c, c < 3 → TLC5955.demoFull._MC c = 7)
    ∧ TLC5955.demoFull.getTotalCurrent
        = ((TLC5955.demoFull._tlc_count * TLC5955.demoFull.LEDS_PER_CHIP : Nat) : ℚ)
            * (TLC5955.demoFull.maxCurrentValues 7 + TLC5955.demoFull.maxCurrentValues 7
                + TLC5955.demoFull.maxCurrentValues 7) :=
  ⟨by decide, by decide, fun _ _ => rfl,
   (C13_full_scale_current TLC5955.demoFull (by decide) (by decide)
      (fun _ _ => rfl) (fun _ _ => rfl) (fun _ _ => rfl) (fun _ _ _ _ _ _ => rfl)).2.1⟩

/-- C20. No overflow in the integer stage of the current gate. For a chip
count of at most 255, an 8-bit LEDS_PER_CHIP (48 in particular) and 16-bit
grayscale values, for each colour the bound
chip count x LEDS_PER_CHIP x 65535 is below 2^32; the accumulator of
`getTotalCurrent`, after any number of complete chips and any number of LEDs
of the next chip, holds exactly the mathematical sum of the values added so
far, which is at most that bound; so the final 32-bit sum is the mathematical
sum of the colour's grayscale values, and `getTotalCurrent` is computed from
these exact sums. -/
theorem C20_no_accumulator_overflow (s : TLC5955) (c : Nat) (hc : c < 3)
    (hN : s._tlc_count ≤ 255) (hL : s.LEDS_PER_CHIP ≤ 255)
    (hgs : ∀ chip led k, chip < s._tlc_count → led < s.LEDS_PER_CHIP → k < 3 →
      s._grayscale_data chip led k ≤ 65535) :
    s._tlc_count * s.LEDS_PER_CHIP * 65535 < 2 ^ 32
    ∧ (∀ n m, n < s._tlc_count → m ≤ s.LEDS_PER_CHIP →
        forUp m (fun led acc => (acc + s._grayscale_data n led c) % 2 ^ 32)
            (forUp n (fun chip acc =>
              forUp s.LEDS_PER_CHIP (fun led acc =>
                (acc + s._grayscale_data chip led c) % 2 ^ 32) acc) 0)
          = (∑ chip ∈ Finset.range n, ∑ led ∈ Finset.range s.LEDS_PER_CHIP,
                s._grayscale_data chip led c)
              + ∑ led ∈ Finset.range m, s._grayscale_data n led c
        ∧ (∑ chip ∈ Finset.range n, ∑ led ∈ Finset.range s.LEDS_PER_CHIP,
                s._grayscale_data chip led c)
              + ∑ led ∈ Finset.range m, s._grayscale_data n led c
            ≤ s._tlc_count * s.LEDS_PER_CHIP * 65535)
    ∧ s.totalCurrent_channel c
        = ∑ chip ∈ Finset.range s._tlc_count, ∑ led ∈ Finset.range s.LEDS_PER_CHIP,
            s._grayscale_data chip led c
    ∧ s.totalCurrent_channel c ≤ s._tlc_count * s.LEDS_PER_CHIP * 65535
    ∧ s.getTotalCurrent
        = ((∑ chip ∈ Finset.range s._tlc_count, ∑ led ∈ Finset.range s.LEDS_PER_CHIP,
              s._grayscale_data chip led 0 : Nat) : ℚ) * TLC5955.channelCurrent s 0 / 65535
          + ((∑ chip ∈ Finset.range s._tlc_count, ∑ led ∈ Finset.range s.LEDS_PER_CHIP,
              s._grayscale_data chip led 1 : Nat) : ℚ) * TLC5955.channelCurrent s 1 / 65535
          + ((∑ chip ∈ Finset.range s._tlc_count, ∑ led ∈ Finset.range s.LEDS_PER_CHIP,
              s._grayscale_data chip led 2 : Nat) : ℚ) * TLC5955.channelCurrent s 2 / 65535 := by
  have hb := TLC5955.full_scale_bound s._tlc_count s.LEDS_PER_CHIP hN hL
  have hle := TLC5955.channelSum_le s c (fun chip led h1 h2 => hgs chip led c h1 h2 hc)
  have heq := TLC5955.totalCurrent_channel_eq s c (lt_of_le_of_lt hle hb)
  refine ⟨hb, ?_, heq, by rw [heq]; exact hle, TLC5955.getTotalCurrent_exact s hN hL hgs⟩
  intro n m hn hm
  have h1 : ∑ chip ∈ Finset.range n, ∑ led ∈ Finset.range s.LEDS_PER_CHIP,
      s._grayscale_data chip led c ≤ n * (s.LEDS_PER_CHIP * 65535) :=
    sum_range_le _ _ _ (fun chip hchip => sum_range_le _ _ _
      (fun led hled => hgs chip led c (by omega) hled hc))
  have h2 : ∑ led ∈ Finset.range m, s._grayscale_data n led c ≤ m * 65535 :=
    sum_range_le _ _ _ (fun led hled => hgs n led c hn (by omega) hc)
  have h3 : n * (s.LEDS_PER_CHIP * 65535) + m * 65535
      ≤ s._tlc_count * s.LEDS_PER_CHIP * 65535 := by
    have : (n + 1) * (s.LEDS_PER_CHIP * 65535) ≤ s._tlc_count * (s.LEDS_PER_CHIP * 65535) :=
      Nat.mul_le_mul_right _ hn
    have h4 : m * 65535 ≤ s.LEDS_PER_CHIP * 65535 := Nat.mul_le_mul_right _ hm
    nlinarith
  have hbound : (∑ chip ∈ Finset.range n, ∑ led ∈ Finset.range s.LEDS_PER_CHIP,
      s._grayscale_data chip led c) + ∑ led ∈ Finset.range m, s._grayscale_data n led c
        ≤ s._tlc_count * s.LEDS_PER_CHIP * 65535 := by omega
  refine ⟨?_, hbound⟩
  have hout := forUp_add_mod_nested (fun chip led => s._grayscale_data chip led c)
    s.LEDS_PER_CHIP n 0 (by beta_reduce; omega)
  have hin := forUp_add_mod (fun led => s._grayscale_data n led c) m
    (0 + ∑ chip ∈ Finset.range n, ∑ led ∈ Finset.range s.LEDS_PER_CHIP,
      s._grayscale_data chip led c) (by beta_reduce; omega)
  beta_reduce at hout hin
  rw [hout, hin]
  omega

/-- Instance of C20 at the 48-LED driver `demo`, colour 2. -/
theorem C20_no_accumulator_overflow_witness :
    TLC5955.demo._tlc_count ≤ 255 ∧ TLC5955.demo.LEDS_PER_CHIP = 48
    ∧ TLC5955.demo.totalCurrent_channel 2
        = ∑ chip ∈ Finset.range TLC5955.demo._tlc_count,
            ∑ led ∈ Finset.range TLC5955.demo.LEDS_PER_CHIP,
              TLC5955.demo._grayscale_data chip led 2 :=
  ⟨by decide, rfl,
   (C20_no_accumulator_overflow TLC5955.demo 2 (by decide) (by decide) (by decide)
      (fun chip led k _ _ hk => by simp only [TLC5955.demo]; omega)).2.2.1⟩

namespace TLC5955

theorem remapInvariant_setRgbPinOrder (s : TLC5955) (r g b : Nat) (hp : isPerm3 r g b)
    (h : remapInvariant s) : remapInvariant (s.setRgbPinOrder r g b) := by
  intro chip led
  rw [setRgbPinOrder_eq]
  by_cases hc : chip < (toInt8 ((s._tlc_count : Int) - 1) + 1).toNat ∧ led < s.LEDS_PER_CHIP
  · simpa [hc.1, hc.2, pick3] using hp
  · have h0 : ¬ (chip < (toInt8 ((s._tlc_count : Int) - 1) + 1).toNat ∧ led < s.LEDS_PER_CHIP
        ∧ 0 < 3) := fun hh => hc ⟨hh.1, hh.2.1⟩
    have h1 : ¬ (chip < (toInt8 ((s._tlc_count : Int) - 1) + 1).toNat ∧ led < s.LEDS_PER_CHIP
        ∧ 1 < 3) := fun hh => hc ⟨hh.1, hh.2.1⟩
    have h2 : ¬ (chip < (toInt8 ((s._tlc_count : Int) - 1) + 1).toNat ∧ led < s.LEDS_PER_CHIP
        ∧ 2 < 3) := fun hh => hc ⟨hh.1, hh.2.1⟩
    simp only [h0, h1, h2, if_false]
    exact h chip led

theorem write3_triple (o : Nat → Nat → Nat → Nat) (ch cn r g b chip led : Nat) :
    isPerm3 r g b → isPerm3 (o chip led 0) (o chip led 1) (o chip led 2) →
    isPerm3 (write3 (write3 (write3 o ch cn 0 r) ch cn 1 g) ch cn 2 b chip led 0)
      (write3 (write3 (write3 o ch cn 0 r) ch cn 1 g) ch cn 2 b chip led 1)
      (write3 (write3 (write3 o ch cn 0 r) ch cn 1 g) ch cn 2 b chip led 2) := by
  intro hp ho
  by_cases hc : chip = ch ∧ led = cn
  · obtain ⟨h1, h2⟩ := hc
    simpa [write3, h1, h2] using hp
  · have h1 : ∀ p : Prop, ¬ (chip = ch ∧ led = cn ∧ p) := fun p hh => hc ⟨hh.1, hh.2.1⟩
    simp only [write3, h1, if_false]
    exact ho

theorem remapInvariant_setRgbPinOrderSingle (s : TLC5955) (n r g b : Nat) (hp : isPerm3 r g b)
    (h : remapInvariant s) : remapInvariant (s.setRgbPinOrderSingle n r g b) := by
  intro chip led
  obtain ⟨ch, cn, hS⟩ : ∃ ch cn, (s.setRgbPinOrderSingle n r g b)._rgb_order
      = write3 (write3 (write3 s._rgb_order ch cn 0 r) ch cn 1 g) ch cn 2 b := ⟨_, _, rfl⟩
  rw [hS]
  exact write3_triple s._rgb_order ch cn r g b chip led hp (h chip led)

theorem remapInvariant_runCalls (calls : List RemapCall) :
    ∀ s : TLC5955, remapInvariant s → (∀ c ∈ calls, c.writesPermutation) →
      remapInvariant (s.runCalls calls) := by
  induction calls with
  | nil => intro s h _; exact h
  | cons c calls ih =>
    intro s h hc
    have hstep : remapInvariant (s.runCall c) := by
      have hw := hc c (List.mem_cons_self _ _)
      cases c with
      | setRgbPinOrder r g b => exact remapInvariant_setRgbPinOrder s r g b hw h
      | setRgbPinOrderSingle n r g b => exact remapInvariant_setRgbPinOrderSingle s n r g b hw h
      | setPinOrderSingle n c p => exact absurd hw (by simp [RemapCall.writesPermutation])
    exact ih (s.runCall c) hstep (fun x hx => hc x (List.mem_cons_of_mem _ hx))

theorem demo_remapInvariant : remapInvariant demo := by
  intro chip led
  simp [demo, isPerm3]

end TLC5955

/-- C15, as stated, fails: the setters accept any arguments. The driver
`demo` has the identity triple (0, 1, 2) for every LED; after the single call
`setPinOrderSingle(0, 0, 1)` LED 0 of chip 0 has the triple (1, 1, 2), and
after the single call `setRgbPinOrder(0, 0, 0)` it has the triple (0, 0, 0);
neither is a permutation. -/
theorem C15_remap_invariant_counterexample :
    TLC5955.remapInvariant TLC5955.demo
    ∧ ¬ TLC5955.remapInvariant (TLC5955.demo.runCalls [RemapCall.setPinOrderSingle 0 0 1])
    ∧ ¬ TLC5955.remapInvariant (TLC5955.demo.runCalls [RemapCall.setRgbPinOrder 0 0 0]) := by
  refine ⟨TLC5955.demo_remapInvariant, ?_, ?_⟩
  · intro h
    have h00 := h 0 0
    have e0 : (TLC5955.demo.runCalls [RemapCall.setPinOrderSingle 0 0 1])._rgb_order 0 0 0 = 1 := by
      decide
    have e1 : (TLC5955.demo.runCalls [RemapCall.setPinOrderSingle 0 0 1])._rgb_order 0 0 1 = 1 := by
      decide
    rw [e0, e1] at h00
    exact h00.2.2.2.1 rfl
  · intro h
    have h00 := h 0 0
    have e0 := TLC5955.setRgbPinOrder_order TLC5955.demo 0 0 0 0 0 0 (by decide) (by decide)
      (by decide) (by decide)
    have e1 := TLC5955.setRgbPinOrder_order TLC5955.demo 0 0 0 0 0 1 (by decide) (by decide)
      (by decide) (by decide)
    have hrun : TLC5955.demo.runCalls [RemapCall.setRgbPinOrder 0 0 0]
        = TLC5955.demo.setRgbPinOrder 0 0 0 := rfl
    rw [hrun, e0, e1] at h00
    exact h00.2.2.2.1 rfl

/-- C15, amended. For every (chip, led), in every state reached from a state
in which all remap triples are permutations of {0, 1, 2} by any sequence of
`setRgbPinOrder` and `setRgbPinOrderSingle` calls whose position triples are
permutations of {0, 1, 2}, the three remap entries of that (chip, led) form a
permutation of {0, 1, 2}. -/
theorem C15_remap_invariant (s : TLC5955) (calls : List RemapCall)
    (hs : ∀ chip led,
      isPerm3 (s._rgb_order chip led 0) (s._rgb_order chip led 1) (s._rgb_order chip led 2))
    (hcalls : ∀ c ∈ calls, c.writesPermutation) :
    ∀ chip led,
      isPerm3 ((s.runCalls calls)._rgb_order chip led 0) ((s.runCalls calls)._rgb_order chip led 1)
        ((s.runCalls calls)._rgb_order chip led 2) :=
  TLC5955.remapInvariant_runCalls calls s hs hcalls

/-- Instance of the amended C15: two permutation-writing calls on `demo`. -/
theorem C15_remap_invariant_witness :
    (∀ chip led, isPerm3 (TLC5955.demo._rgb_order chip led 0) (TLC5955.demo._rgb_order chip led 1)
        (TLC5955.demo._rgb_order chip led 2))
    ∧ (∀ chip led,
        isPerm3
          ((TLC5955.demo.runCalls [RemapCall.setRgbPinOrder 2 1 0,
              RemapCall.setRgbPinOrderSingle 50 1 0 2])._rgb_order chip led 0)
          ((TLC5955.demo.runCalls [RemapCall.setRgbPinOrder 2 1 0,
              RemapCall.setRgbPinOrderSingle 50 1 0 2])._rgb_order chip led 1)
          ((TLC5955.demo.runCalls [RemapCall.setRgbPinOrder 2 1 0,
              RemapCall.setRgbPinOrderSingle 50 1 0 2])._rgb_order chip led 2)) :=
  ⟨TLC5955.demo_remapInvariant,
   C15_remap_invariant TLC5955.demo
     [RemapCall.setRgbPinOrder 2 1 0, RemapCall.setRgbPinOrderSingle 50 1 0 2]
     TLC5955.demo_remapInvariant
     (by
       intro c hc
       simp only [List.mem_cons, List.mem_singleton, List.not_mem_nil, or_false] at hc
       rcases hc with h | h <;> subst h <;> simp [RemapCall.writesPermutation, isPerm3])⟩

/-- C16. No bit is left unsent in a control frame. The whole-word loop makes
24 transfers of 16 zero bits and stops at a = 384, so it covers 384 of the 389
padding bits; the remaining 5 padding bits and all field bits go through
`setBuffer`, 5 + 5 + 21 + 9 + LEDS_PER_CHIP x 3 x 7 pushes per chip frame,
a multiple of 8 whenever LEDS_PER_CHIP is a multiple of 8 (48 in particular).
Then after the chip's frame the accumulator is empty (`_buffer_count = 7`,
`_buffer = 0`) and the bytes handed to the transport carry every pushed bit,
in order, with no trailing flush. -/
theorem C16_no_bit_left_unsent (s : TLC5955) (chip : Nat) (hL : 8 ∣ s.LEDS_PER_CHIP) :
    ((TLC5955.zeroWordLoop 0 s).1 = 384
      ∧ (TLC5955.zeroWordLoop 0 s).2.trace = s.trace ++ List.replicate 24 (Event.transfer16 0)
      ∧ 24 * 16 = 384 ∧ 384 + 5 = CONTROL_ZERO_BITS)
    ∧ TLC5955.zeroBitLoop 384 s = s.pushAll (List.replicate 5 0)
    ∧ TLC5955.updateControl_chip chip s
        = TLC5955.SPI_endTransaction (TLC5955.pushAll
            { s with _buffer_count := 7,
                     trace := s.trace ++ (TLC5955.modePulse s true
                       ++ [Event.beginTransaction, Event.transfer 0x96]
                       ++ List.replicate 24 (Event.transfer16 0)) }
            (TLC5955.controlArgs s))
    ∧ (TLC5955.controlArgs s).length = 5 + 5 + 21 + 9 + s.LEDS_PER_CHIP * 3 * 7
    ∧ 8 ∣ (5 + 5 + 21 + 9 + s.LEDS_PER_CHIP * 3 * 7)
    ∧ (s.LEDS_PER_CHIP = 48 → (TLC5955.controlArgs s).length = 8 * 131)
    ∧ (TLC5955.updateControl_chip chip s)._buffer_count = 7
    ∧ (TLC5955.updateControl_chip chip s)._buffer = 0
    ∧ (TLC5955.updateControl_chip chip s).trace
        = s.trace ++ (TLC5955.modePulse s true ++ [Event.beginTransaction, Event.transfer 0x96]
            ++ List.replicate 24 (Event.transfer16 0)
            ++ (packBytes ((TLC5955.controlArgs s).map (fun x => decide (x ≠ 0)))).map Event.transfer
            ++ [Event.endTransaction])
    ∧ dataBits ((packBytes ((TLC5955.controlArgs s).map (fun x => decide (x ≠ 0)))).map
          Event.transfer)
        = (TLC5955.controlArgs s).map (fun x => decide (x ≠ 0)) := by
  obtain ⟨k, hk⟩ := hL
  have hlen : (TLC5955.controlArgs s).length = 5 + 5 + 21 + 9 + s.LEDS_PER_CHIP * 3 * 7 := by
    rw [TLC5955.controlArgs_length]; ring
  have hlen8 : ((TLC5955.controlArgs s).map (fun x => decide (x ≠ 0))).length = 8 * (5 + 21 * k) := by
    rw [List.length_map, hlen, hk]; ring
  obtain ⟨B, hB, hB0⟩ := TLC5955.updateControl_chip_spec chip s
  have hmod : (40 + 21 * s.LEDS_PER_CHIP) % 8 = 0 := by rw [hk]; omega
  refine ⟨⟨?_, ?_, rfl, rfl⟩, TLC5955.zeroBitLoop_384 s, TLC5955.updateControl_chip_pushAll chip s,
    hlen, ⟨5 + 21 * k, by rw [hk]; ring⟩, ?_, ?_, ?_, ?_, ?_⟩
  · rw [TLC5955.zeroWordLoop_zero]
  · rw [TLC5955.zeroWordLoop_zero]
  · intro h48; rw [hlen, h48]
  · rw [hB, hmod]; rfl
  · rw [hB]; exact hB0 ⟨k, hk⟩
  · rw [hB, TLC5955.controlArgs_bits]
    simp [TLC5955.controlFrameEvents, TLC5955.controlFrameData]
  · rw [dataBits_bytes, unpack_packBytes _ _ hlen8]

/-- Instance of C16 at the 48-LED driver `demo`, whose accumulator holds stale
content before the frame. -/
theorem C16_no_bit_left_unsent_witness :
    8 ∣ TLC5955.demo.LEDS_PER_CHIP ∧ TLC5955.demo._buffer = 5
    ∧ (TLC5955.updateControl_chip 0 TLC5955.demo)._buffer_count = 7
    ∧ (TLC5955.updateControl_chip 0 TLC5955.demo)._buffer = 0 :=
  ⟨by decide, rfl,
   (C16_no_bit_left_unsent TLC5955.demo 0 (by decide)).2.2.2.2.2.2.1,
   (C16_no_bit_left_unsent TLC5955.demo 0 (by decide)).2.2.2.2.2.2.2.1⟩

theorem slice_skip {α : Type} (a l : List α) (n w k : Nat) (h : a.length = k) (hk : k ≤ n) :
    bitSlice n w (a ++ l) = bitSlice (n - k) w l := by
  have hn : n = a.length + (n - k) := by omega
  unfold bitSlice
  conv_lhs => rw [hn, List.drop_append]

theorem slice_here {α : Type} (b c : List α) (w : Nat) (h : b.length = w) :
    bitSlice 0 w (b ++ c) = b := by
  unfold bitSlice
  rw [List.drop_zero, List.take_left' h]

theorem slice_take {α : Type} (l : List α) (n w m : Nat) (h : n + w ≤ m) :
    bitSlice n w (l.take m) = bitSlice n w l := by
  unfold bitSlice
  rw [List.drop_take, List.take_take]
  congr 1
  omega

theorem unpack_packBytes_gen (n : Nat) :
    ∀ bs : List Bool, bs.length / 8 = n →
      ((packBytes bs).map (bitsMSB 8)).flatten = bs.take (8 * n) := by
  induction n with
  | zero =>
    intro bs h
    have hlt : bs.length < 8 := by omega
    rw [packBytes_short _ hlt]
    rfl
  | succ n ih =>
    intro bs h
    have hge : 8 ≤ bs.length := by omega
    rw [packBytes_long bs hge]
    have htake : (bs.take 8).length = 8 := by simp [List.length_take]; omega
    have hdrop : (bs.drop 8).length / 8 = n := by rw [List.length_drop]; omega
    simp only [List.map_cons, List.flatten_cons]
    rw [bitsMSB_ofBitsMSB_eight _ htake, ih _ hdrop]
    have : 8 * (n + 1) = 8 + 8 * n := by ring
    rw [this, List.take_add]

namespace TLC5955

theorem dataBits_controlFrameData_gen (s : TLC5955) :
    dataBits (controlFrameData s)
      = bitsMSB 8 0x96 ++ (List.replicate 384 false
          ++ (List.replicate 5 false ++ controlFieldBits s).take
              (8 * ((40 + 21 * s.LEDS_PER_CHIP) / 8))) := by
  have hlen : (List.replicate 5 false ++ controlFieldBits s).length = 40 + 21 * s.LEDS_PER_CHIP := by
    rw [List.length_append, List.length_replicate, controlFieldBits_length]; omega
  have h384 : dataBits (List.replicate 24 (Event.transfer16 0)) = List.replicate 384 false :=
    dataBits_zero_words 24
  rw [controlFrameData, dataBits_append, dataBits_append, h384, dataBits_bytes,
    unpack_packBytes_gen _ _ (by rw [hlen])]
  simp only [dataBits, List.append_assoc, List.append_nil]

theorem controlFrame_function_bits (s : TLC5955) (chip : Nat) :
    bitSlice 397 5 (dataBits ((updateControl_chip chip s).trace.drop s.trace.length))
      = bitsMSB 5 s._function_data := by
  have hm : 5 + 5 ≤ 8 * ((40 + 21 * s.LEDS_PER_CHIP) / 8) := by omega
  rw [updateControl_chip_trace, List.drop_left, dataBits_controlFrameEvents,
    dataBits_controlFrameData_gen,
    slice_skip _ _ 397 5 8 (bitsMSB_length 8 _) (by omega),
    slice_skip _ _ _ 5 384 (List.length_replicate _ _) (by omega),
    slice_take _ _ _ _ hm,
    slice_skip _ _ _ 5 5 (List.length_replicate _ _) (by omega)]
  simp only [controlFieldBits, List.append_assoc]
  exact slice_here _ _ 5 (bitsMSB_length 5 _)

theorem setFunctionData_value (s : TLC5955) (D T R E L : Bool) :
    (s.setFunctionData D T R E L)._function_data
      = D.toNat + 2 * T.toNat + 4 * R.toNat + 8 * E.toNat + 16 * L.toNat := by
  cases D <;> cases T <;> cases R <;> cases E <;> cases L <;> rfl

end TLC5955

/-- C17. Function-flag encoding. For every five booleans,
`setFunctionData(DSPRPT, TMGRST, RFRESH, ESPWM, LSDVLT)` stores a value below
32 whose bits 0, 1, 2, 3, 4 are DSPRPT, TMGRST, RFRESH, ESPWM, LSDVLT; two
flag tuples that store the same value are equal; and in the next control
frame the five bits that follow the command byte and the 389 zero bits are,
in transmission order, LSDVLT, ESPWM, RFRESH, TMGRST, DSPRPT. -/
theorem C17_function_flag_encoding (s : TLC5955) (chip : Nat)
    (DSPRPT TMGRST RFRESH ESPWM LSDVLT : Bool) :
    (s.setFunctionData DSPRPT TMGRST RFRESH ESPWM LSDVLT)._function_data < 32
    ∧ ((s.setFunctionData DSPRPT TMGRST RFRESH ESPWM LSDVLT)._function_data.testBit 0 = DSPRPT
      ∧ (s.setFunctionData DSPRPT TMGRST RFRESH ESPWM LSDVLT)._function_data.testBit 1 = TMGRST
      ∧ (s.setFunctionData DSPRPT TMGRST RFRESH ESPWM LSDVLT)._function_data.testBit 2 = RFRESH
      ∧ (s.setFunctionData DSPRPT TMGRST RFRESH ESPWM LSDVLT)._function_data.testBit 3 = ESPWM
      ∧ (s.setFunctionData DSPRPT TMGRST RFRESH ESPWM LSDVLT)._function_data.testBit 4 = LSDVLT)
    ∧ (∀ d t r e l : Bool,
        (s.setFunctionData d t r e l)._function_data
            = (s.setFunctionData DSPRPT TMGRST RFRESH ESPWM LSDVLT)._function_data →
          d = DSPRPT ∧ t = TMGRST ∧ r = RFRESH ∧ e = ESPWM ∧ l = LSDVLT)
    ∧ bitSlice 397 5 (dataBits
          ((TLC5955.updateControl_chip chip
              (s.setFunctionData DSPRPT TMGRST RFRESH ESPWM LSDVLT)).trace.drop
            (s.setFunctionData DSPRPT TMGRST RFRESH ESPWM LSDVLT).trace.length))
        = [LSDVLT, ESPWM, RFRESH, TMGRST, DSPRPT] := by
  have hv := TLC5955.setFunctionData_value s DSPRPT TMGRST RFRESH ESPWM LSDVLT
  have hbits : bitsMSB 5 (s.setFunctionData DSPRPT TMGRST RFRESH ESPWM LSDVLT)._function_data
      = [LSDVLT, ESPWM, RFRESH, TMGRST, DSPRPT] := by
    rw [hv]
    cases DSPRPT <;> cases TMGRST <;> cases RFRESH <;> cases ESPWM <;> cases LSDVLT <;> decide
  refine ⟨?_, ?_, ?_, ?_⟩
  · rw [hv]
    cases DSPRPT <;> cases TMGRST <;> cases RFRESH <;> cases ESPWM <;> cases LSDVLT <;> decide
  · rw [hv]
    cases DSPRPT <;> cases TMGRST <;> cases RFRESH <;> cases ESPWM <;> cases LSDVLT <;> decide
  · intro d t r e l h
    rw [hv, TLC5955.setFunctionData_value] at h
    cases DSPRPT <;> cases TMGRST <;> cases RFRESH <;> cases ESPWM <;> cases LSDVLT <;>
      cases d <;> cases t <;> cases r <;> cases e <;> cases l <;>
      first | (exact ⟨rfl, rfl, rfl, rfl, rfl⟩) | (exact absurd h (by decide))
  · rw [TLC5955.controlFrame_function_bits, hbits]

theorem slice_skip_len {α : Type} (a l : List α) (n w : Nat) (h : a.length ≤ n) :
    bitSlice n w (a ++ l) = bitSlice (n - a.length) w l :=
  slice_skip a l n w a.length rfl h

theorem slice_here_len {α : Type} (b c : List α) : bitSlice 0 b.length (b ++ c) = b :=
  slice_here b c b.length rfl

theorem slice_bits_here (w v : Nat) (c : List Bool) : bitSlice 0 w (bitsMSB w v ++ c) = bitsMSB w v :=
  slice_here _ _ w (bitsMSB_length w v)

namespace TLC5955

theorem controlFrameBits_decode (s : TLC5955) (hL1 : 1 ≤ s.LEDS_PER_CHIP) :
    bitSlice 397 5 (controlFrameBits s) = bitsMSB 5 s._function_data
    ∧ bitSlice 402 7 (controlFrameBits s) = bitsMSB 7 (s._BC 2)
    ∧ bitSlice 409 7 (controlFrameBits s) = bitsMSB 7 (s._BC 1)
    ∧ bitSlice 416 7 (controlFrameBits s) = bitsMSB 7 (s._BC 0)
    ∧ bitSlice 423 3 (controlFrameBits s) = bitsMSB 3 (s._MC 2)
    ∧ bitSlice 426 3 (controlFrameBits s) = bitsMSB 3 (s._MC 1)
    ∧ bitSlice 429 3 (controlFrameBits s) = bitsMSB 3 (s._MC 0)
    ∧ bitSlice 432 7 (controlFrameBits s) = bitsMSB 7 (s._DC 2)
    ∧ bitSlice 439 7 (controlFrameBits s) = bitsMSB 7 (s._DC 1)
    ∧ bitSlice 446 7 (controlFrameBits s) = bitsMSB 7 (s._DC 0) := by
  obtain ⟨n, hn⟩ : ∃ n, s.LEDS_PER_CHIP = n + 1 := ⟨s.LEDS_PER_CHIP - 1, by omega⟩
  have hrep : List.replicate (n + 1)
      (bitsMSB 7 (s._DC 2) ++ bitsMSB 7 (s._DC 1) ++ bitsMSB 7 (s._DC 0))
        = (bitsMSB 7 (s._DC 2) ++ bitsMSB 7 (s._DC 1) ++ bitsMSB 7 (s._DC 0))
          :: List.replicate n (bitsMSB 7 (s._DC 2) ++ bitsMSB 7 (s._DC 1) ++ bitsMSB 7 (s._DC 0)) :=
    List.replicate_succ _ _
  rw [controlFrameBits, controlFieldBits, hn, hrep, List.flatten_cons]
  simp only [List.append_assoc]
  refine ⟨?_, ?_, ?_, ?_, ?_, ?_, ?_, ?_, ?_, ?_⟩ <;>
    simp only [slice_skip_len, slice_bits_here, bitsMSB_length, List.length_replicate,
      Nat.reduceSub, Nat.reduceLeDiff]

end TLC5955

theorem dataBits_filter_isData (es : List Event) :
    dataBits (es.filter Event.isData) = dataBits es := by
  induction es with
  | nil => rfl
  | cons e es ih => cases e <;> simp [List.filter, Event.isData, dataBits, ih]

namespace TLC5955

theorem controlFrame_decode (s : TLC5955) (chip : Nat) (hL : 8 ∣ s.LEDS_PER_CHIP)
    (hL1 : 1 ≤ s.LEDS_PER_CHIP) (hF : s._function_data < 32)
    (hBC : ∀ c, c < 3 → s._BC c ≤ 127) (hMC : ∀ c, c < 3 → s._MC c ≤ 7)
    (hDC : ∀ c, c < 3 → s._DC c ≤ 127) :
    decodeFunctionData (dataBits ((updateControl_chip chip s).trace.drop s.trace.length))
        = s._function_data
    ∧ ∀ c, c < 3 →
        decodeBC (dataBits ((updateControl_chip chip s).trace.drop s.trace.length)) c = s._BC c
        ∧ decodeMC (dataBits ((updateControl_chip chip s).trace.drop s.trace.length)) c = s._MC c
        ∧ decodeDC (dataBits ((updateControl_chip chip s).trace.drop s.trace.length)) c
            = s._DC c := by
  have hbits : dataBits ((updateControl_chip chip s).trace.drop s.trace.length)
      = controlFrameBits s := by
    rw [updateControl_chip_trace, List.drop_left, dataBits_controlFrameEvents,
      dataBits_controlFrameData s hL]
  obtain ⟨d0, d1, d2, d3, d4, d5, d6, d7, d8, d9⟩ := controlFrameBits_decode s hL1
  rw [hbits]
  have m5 : ∀ v, v < 32 → ofBitsMSB (bitsMSB 5 v) = v := fun v hv => by
    rw [ofBitsMSB_bitsMSB]; exact Nat.mod_eq_of_lt (by omega)
  have m7 : ∀ v, v ≤ 127 → ofBitsMSB (bitsMSB 7 v) = v := fun v hv => by
    rw [ofBitsMSB_bitsMSB]; exact Nat.mod_eq_of_lt (by omega)
  have m3 : ∀ v, v ≤ 7 → ofBitsMSB (bitsMSB 3 v) = v := fun v hv => by
    rw [ofBitsMSB_bitsMSB]; exact Nat.mod_eq_of_lt (by omega)
  refine ⟨?_, ?_⟩
  · rw [decodeFunctionData, d0, m5 _ hF]
  · intro c hc
    have hcase : c = 0 ∨ c = 1 ∨ c = 2 := by omega
    rcases hcase with h | h | h <;> subst h <;>
      simp only [decodeBC, decodeMC, decodeDC, Nat.mul_zero, Nat.mul_one, Nat.sub_zero,
        Nat.reduceMul, Nat.reduceSub, d1, d2, d3, d4, d5, d6, d7, d8, d9] <;>
      exact ⟨m7 _ (hBC _ (by omega)), m3 _ (hMC _ (by omega)), m7 _ (hDC _ (by omega))⟩

end TLC5955

/-- C18. The control frame is decodable. Let LEDS_PER_CHIP be a positive
multiple of 8 (48 in particular) and let two settings states have values the
setters can produce (BC, DC at most 127, MC at most 7, function data below
32). Reading the fields back from a state's per-chip frame at their layout
positions returns exactly its function data, BC[0..2], MC[0..2] and DC[0..2];
hence two states for which `updateControl` emits the same per-chip data
sequence have equal function data, BC, MC and DC. -/
theorem C18_control_frame_decodable (s t : TLC5955) (chip : Nat)
    (hL : 8 ∣ s.LEDS_PER_CHIP) (hL1 : 1 ≤ s.LEDS_PER_CHIP)
    (hLt : t.LEDS_PER_CHIP = s.LEDS_PER_CHIP)
    (hFs : s._function_data < 32) (hFt : t._function_data < 32)
    (hBCs : ∀ c, c < 3 → s._BC c ≤ 127) (hBCt : ∀ c, c < 3 → t._BC c ≤ 127)
    (hMCs : ∀ c, c < 3 → s._MC c ≤ 7) (hMCt : ∀ c, c < 3 → t._MC c ≤ 7)
    (hDCs : ∀ c, c < 3 → s._DC c ≤ 127) (hDCt : ∀ c, c < 3 → t._DC c ≤ 127) :
    (decodeFunctionData (dataBits ((TLC5955.updateControl_chip chip s).trace.drop s.trace.length))
        = s._function_data
      ∧ ∀ c, c < 3 →
        decodeBC (dataBits ((TLC5955.updateControl_chip chip s).trace.drop s.trace.length)) c
            = s._BC c
        ∧ decodeMC (dataBits ((TLC5955.updateControl_chip chip s).trace.drop s.trace.length)) c
            = s._MC c
        ∧ decodeDC (dataBits ((TLC5955.updateControl_chip chip s).trace.drop s.trace.length)) c
            = s._DC c)
    ∧ (((TLC5955.updateControl_chip chip s).trace.drop s.trace.length).filter Event.isData
          = ((TLC5955.updateControl_chip chip t).trace.drop t.trace.length).filter Event.isData →
        s._function_data = t._function_data
        ∧ ∀ c, c < 3 → s._BC c = t._BC c ∧ s._MC c = t._MC c ∧ s._DC c = t._DC c) := by
  have ds := TLC5955.controlFrame_decode s chip hL hL1 hFs hBCs hMCs hDCs
  have dt := TLC5955.controlFrame_decode t chip (by rw [hLt]; exact hL) (by rw [hLt]; exact hL1)
    hFt hBCt hMCt hDCt
  refine ⟨ds, ?_⟩
  intro heq
  have hbits : dataBits ((TLC5955.updateControl_chip chip s).trace.drop s.trace.length)
      = dataBits ((TLC5955.updateControl_chip chip t).trace.drop t.trace.length) := by
    rw [← dataBits_filter_isData, heq, dataBits_filter_isData]
  rw [hbits] at ds
  refine ⟨ds.1.symm.trans dt.1, ?_⟩
  intro c hc
  obtain ⟨a1, a2, a3⟩ := ds.2 c hc
  obtain ⟨b1, b2, b3⟩ := dt.2 c hc
  exact ⟨a1.symm.trans b1, a2.symm.trans b2, a3.symm.trans b3⟩

/-- Instance of C18 at the 48-LED drivers `demo` and `demoFull`. -/
theorem C18_control_frame_decodable_witness :
    8 ∣ TLC5955.demo.LEDS_PER_CHIP ∧ 1 ≤ TLC5955.demo.LEDS_PER_CHIP
    ∧ TLC5955.demo._function_data < 32
    ∧ decodeFunctionData
        (dataBits ((TLC5955.updateControl_chip 0 TLC5955.demo).trace.drop
          TLC5955.demo.trace.length))
      = TLC5955.demo._function_data :=
  ⟨by decide, by decide, by decide,
   (C18_control_frame_decodable TLC5955.demo TLC5955.demoFull 0 (by decide) (by decide) rfl
      (by decide) (by decide) TLC5955.demo_BC_le (fun _ _ => Nat.le_refl _) TLC5955.demo_MC_le
      (fun _ _ => Nat.le_refl _) TLC5955.demo_DC_le (fun _ _ => Nat.le_refl _)).1.1⟩

/-- C19. Frame of `setLed`. For every LED number below
chip count x LEDS_PER_CHIP, both `setLed` overloads change only the three
grayscale slots of the addressed (chip = led_number / LEDS_PER_CHIP,
channel = led_number mod LEDS_PER_CHIP), which lies within the arrays: every
other grayscale cell, the remap table, the control settings (function data,
BC, MC, DC) and all remaining members are unchanged; and distinct valid LED
numbers address distinct (chip, channel) pairs. -/
theorem C19_setLed_frame (s : TLC5955) (led_number r g b v : Nat)
    (hled : led_number < s._tlc_count * s.LEDS_PER_CHIP) :
    (led_number / s.LEDS_PER_CHIP < s._tlc_count
      ∧ led_number % s.LEDS_PER_CHIP < s.LEDS_PER_CHIP)
    ∧ (∀ chip led c,
        ¬ (chip = led_number / s.LEDS_PER_CHIP ∧ led = led_number % s.LEDS_PER_CHIP ∧ c < 3) →
          (s.setLed led_number r g b)._grayscale_data chip led c = s._grayscale_data chip led c
          ∧ (s.setLed1 led_number v)._grayscale_data chip led c = s._grayscale_data chip led c)
    ∧ s.setLed led_number r g b
        = { s with _grayscale_data := (s.setLed led_number r g b)._grayscale_data }
    ∧ s.setLed1 led_number v
        = { s with _grayscale_data := (s.setLed1 led_number v)._grayscale_data }
    ∧ ((s.setLed led_number r g b)._rgb_order = s._rgb_order
        ∧ (s.setLed led_number r g b)._function_data = s._function_data
        ∧ (s.setLed led_number r g b)._BC = s._BC ∧ (s.setLed led_number r g b)._MC = s._MC
        ∧ (s.setLed led_number r g b)._DC = s._DC)
    ∧ ((s.setLed1 led_number v)._rgb_order = s._rgb_order
        ∧ (s.setLed1 led_number v)._function_data = s._function_data
        ∧ (s.setLed1 led_number v)._BC = s._BC ∧ (s.setLed1 led_number v)._MC = s._MC
        ∧ (s.setLed1 led_number v)._DC = s._DC)
    ∧ (∀ other, other < s._tlc_count * s.LEDS_PER_CHIP → other ≠ led_number →
        ¬ (other / s.LEDS_PER_CHIP = led_number / s.LEDS_PER_CHIP
            ∧ other % s.LEDS_PER_CHIP = led_number % s.LEDS_PER_CHIP)) := by
  have hLpos : 0 < s.LEDS_PER_CHIP := by
    rcases Nat.eq_zero_or_pos s.LEDS_PER_CHIP with h | h
    · rw [h] at hled; simp at hled
    · exact h
  refine ⟨⟨(Nat.div_lt_iff_lt_mul hLpos).mpr hled, Nat.mod_lt _ hLpos⟩, ?_, rfl, rfl,
    ⟨rfl, rfl, rfl, rfl, rfl⟩, ⟨rfl, rfl, rfl, rfl, rfl⟩, ?_⟩
  · intro chip led c hne
    have h0 : ¬ (chip = led_number / s.LEDS_PER_CHIP ∧ led = led_number % s.LEDS_PER_CHIP
        ∧ c = 0) := fun h => hne ⟨h.1, h.2.1, by omega⟩
    have h1 : ¬ (chip = led_number / s.LEDS_PER_CHIP ∧ led = led_number % s.LEDS_PER_CHIP
        ∧ c = 1) := fun h => hne ⟨h.1, h.2.1, by omega⟩
    have h2 : ¬ (chip = led_number / s.LEDS_PER_CHIP ∧ led = led_number % s.LEDS_PER_CHIP
        ∧ c = 2) := fun h => hne ⟨h.1, h.2.1, by omega⟩
    simp only [TLC5955.setLed, TLC5955.setLed1, write3, h0, h1, h2, if_false, and_self]
  · intro other _ hne h
    apply hne
    rw [← Nat.div_add_mod other s.LEDS_PER_CHIP, ← Nat.div_add_mod led_number s.LEDS_PER_CHIP,
      h.1, h.2]

/-- Instance of C19 at the driver `demo`, LED 50. -/
theorem C19_setLed_frame_witness :
    50 < TLC5955.demo._tlc_count * TLC5955.demo.LEDS_PER_CHIP
    ∧ (TLC5955.demo.setLed 50 7 8 9)._rgb_order = TLC5955.demo._rgb_order
    ∧ (∀ other, other < TLC5955.demo._tlc_count * TLC5955.demo.LEDS_PER_CHIP → other ≠ 50 →
        ¬ (other / TLC5955.demo.LEDS_PER_CHIP = 50 / TLC5955.demo.LEDS_PER_CHIP
            ∧ other % TLC5955.demo.LEDS_PER_CHIP = 50 % TLC5955.demo.LEDS_PER_CHIP)) :=
  ⟨by decide,
   (C19_setLed_frame TLC5955.demo 50 7 8 9 1 (by decide)).2.2.2.2.1.1,
   (C19_setLed_frame TLC5955.demo 50 7 8 9 1 (by decide)).2.2.2.2.2.2⟩

namespace TLC5955

theorem demo128_channelSum (c : Nat) : channelSum demo128 c = 128 * 48 * (c + 1) := by
  have hgs : ∀ chip led, demo128._grayscale_data chip led c = c + 1 := fun _ _ => rfl
  have hN : demo128._tlc_count = 128 := rfl
  have hL : demo128.LEDS_PER_CHIP = 48 := rfl
  simp only [channelSum, hgs, hN, hL, Finset.sum_const, Finset.card_range, smul_eq_mul]
  ring

theorem flatten_replicate_one {α : Type} (l : List α) : (List.replicate 1 l).flatten = l := by
  simp

end TLC5955

/-- C4. Over-current gate, evaluated at a chain of 128 chips. The driver
`demo128` has 128 chips of 48 LEDs and enforcement off, so the gate is open
whatever total current `p` the arithmetic of `getTotalCurrent` yields. The
call returns 0, yet the events it adds are only the latch pulse and the gsclk
write: no mode pulse and not one of the 128 x 48 x 3 words of the full
grayscale frame, because the chip loop starts at `(int8_t)128 - 1 = -129`.
The sibling paths do cover all 128 chips: `updateControl(1)` sends 128 control
frames and the accumulator of `getTotalCurrent` adds the values of all 128
chips. -/
theorem C4_gate_open_at_128_chips (p : ℚ) (out : Option ℚ) :
    TLC5955.demo128._tlc_count = 128 ∧ TLC5955.demo128.LEDS_PER_CHIP = 48
    ∧ TLC5955.demo128.enforce_max_current = false
    ∧ (TLC5955.demo128.updateLedsAt p out).1 = 0
    ∧ (TLC5955.demo128.updateLedsAt p out).2.1 = out.map (fun _ => p)
    ∧ (TLC5955.demo128.updateLedsAt p out).2.2.trace
        = TLC5955.latchPulse TLC5955.demo128
            ++ [Event.analogWrite TLC5955.demo128._gsclk (if p = 0 then 0 else 1)]
    ∧ ((TLC5955.demo128.updateLedsAt p out).2.2.trace).filter Event.isData = []
    ∧ (TLC5955.grayscaleWords TLC5955.demo128).length = 128 * 48 * 3
    ∧ TLC5955.demo128.updateLeds out
        = TLC5955.demo128.updateLedsAt TLC5955.demo128.getTotalCurrent out
    ∧ (TLC5955.demo128.updateControl 1).trace
        = (List.replicate 128 (TLC5955.controlFrameEvents TLC5955.demo128)).flatten
            ++ TLC5955.latchPulse TLC5955.demo128
    ∧ TLC5955.demo128.totalCurrent_channel 0 = 128 * 48 := by
  have hopen : ¬ (TLC5955.demo128.enforce_max_current = true
      ∧ p > TLC5955.demo128.max_current_amps) := fun h => absurd h.1 (by decide)
  have h := TLC5955.updateLedsAt_open TLC5955.demo128 p out (by decide) hopen
  have h0 : (toInt8 (TLC5955.demo128._tlc_count : Int)).toNat = 0 := by decide
  have htr : (TLC5955.demo128.updateLedsAt p out).2.2.trace
      = TLC5955.latchPulse TLC5955.demo128
          ++ [Event.analogWrite TLC5955.demo128._gsclk (if p = 0 then 0 else 1)] := by
    rw [h, h0]
    simp only [downList, List.flatten_nil, List.nil_append, TLC5955.emitAll]
    rfl
  obtain ⟨B, c, hc⟩ := TLC5955.updateControl_spec TLC5955.demo128 1
  refine ⟨rfl, rfl, rfl, ?_, ?_, htr, ?_, ?_, rfl, ?_, ?_⟩
  · rw [h]
  · rw [h]
  · rw [htr]
    by_cases hp : p = 0 <;> simp [hp, TLC5955.latchPulse, Event.isData, List.filter]
  · rw [TLC5955.grayscaleWords_length]; rfl
  · have h1 : (1 : Int).toNat = 1 := rfl
    have hN : TLC5955.demo128._tlc_count = 128 := rfl
    have ht : TLC5955.demo128.trace = [] := rfl
    rw [hc]
    simp only [h1, TLC5955.flatten_replicate_one, TLC5955.controlCycleEvents, hN, ht,
      List.nil_append]
  · rw [TLC5955.totalCurrent_channel_eq TLC5955.demo128 0
      (by rw [TLC5955.demo128_channelSum]; norm_num), TLC5955.demo128_channelSum]
